import Mathlib

/-!
Game logic of the Back-in-time-Bytes games: the Tic-Tac-Toe board evaluator and minimax
search, the moves and merges of 2048, and the clicks of the fifteen puzzle.

The file has three parts, each in its namespace, first the definitions and then the
theorems:
* `TicTacToe`: a shallow embedding of `TicTacToe.cpp` / `TicTacToe.h`
  (`checkWin`, `isGameOver`, `calculateScore`, `miniMax`, the Hard-mode scan of
  `playTheBest` and the scan of `on_actionGet_Hint_triggered`);
* `Game2048`: `game2048.cpp` (`moveUp`, `moveDown`, `moveLeft`, `moveRight`, `merge`,
  `hasAdjacentDuplicates`, `checkLose`, `keyPressEvent`);
* `FifteenPuzzle`: `fifteenpuzzle.cpp` (`setupEasyPuzzle`, `shuffleTiles`,
  `buttonClicked`, `findButtonIndex`, `isAdjacent`, `isSolved`).

Conventions of the Tic-Tac-Toe embedding.
* `std::vector<std::vector<char>>` is a `List (List Nat)` of character codes
  (`'O' = 79`, `'X' = 88`, `' ' = 32`); the member `gridSize`
  is an explicit parameter (a `Nat`: a non-positive `int` runs no loop iteration,
  exactly as `0` does).
* `gameBoard[i][j]` is `cellAt gameBoard i j`.  An index outside the vector is
  undefined behaviour in the source; `cellAt` then yields the character code
  `0`, which is no player mark.  The statements below are about boards of
  the right shape, where this never happens.
* `int` scores are `Int`; the only values that occur are `-1, 0, 1` and the two
  sentinels `INT_MIN`, `INT_MAX`, so no arithmetic can overflow.  The argument
  `depth` is only passed along (`depth + 1`) and never read.
* The recursion of `miniMax` is bounded by a `fuel` argument in `miniMaxAux`;
  `miniMax` supplies one more than the number of `NONE` cells, which is always
  enough (`miniMaxAux_fuel`).
-/

namespace TicTacToe

/-! ## Data model -/

/-- The enumeration `enum Player { Machine = 'O', HUMAN = 'X', NONE = ' ' }`. -/
inductive Player where
  | Machine
  | HUMAN
  | NONE
  deriving DecidableEq, Repr

/-- The character code of a `Player` enumerator (`static_cast<char>(player)`):
`'O' = 79`, `'X' = 88`, `' ' = 32`. -/
def Player.toChar : Player → Nat
  | .Machine => 79
  | .HUMAN => 88
  | .NONE => 32

/-- The enumeration `enum class HumanState : int { LOSE = 1, TIE = 0, WIN = -1 }`. -/
inductive HumanState where
  | LOSE
  | TIE
  | WIN
  deriving DecidableEq, Repr

/-- The integer value of a `HumanState` enumerator (`(int) state`). -/
def HumanState.toInt : HumanState → Int
  | .LOSE => 1
  | .TIE => 0
  | .WIN => -1

/-- The board type `std::vector<std::vector<char>>`. -/
abbrev Board := List (List Nat)

/-- The constant `INT_MIN` of a 32-bit `int`. -/
def INT_MIN : Int := -2147483648

/-- The constant `INT_MAX` of a 32-bit `int`. -/
def INT_MAX : Int := 2147483647

/-- The read `gameBoard[i][j]`. -/
def cellAt (gameBoard : Board) (i j : Nat) : Nat :=
  (gameBoard.getD i []).getD j 0

/-- The write `gameBoard[i][j] = c`. -/
def setCell (gameBoard : Board) (i j : Nat) (c : Nat) : Board :=
  gameBoard.set i ((gameBoard.getD i []).set j c)

/-- A board of `n` rows of `n` cells each. -/
def IsGrid (n : Nat) (gameBoard : Board) : Prop :=
  gameBoard.length = n ∧ ∀ row ∈ gameBoard, row.length = n

instance (n : Nat) (gameBoard : Board) : Decidable (IsGrid n gameBoard) := by
  unfold IsGrid; infer_instance

/-! ## `checkWin` -/

/-- The loop `win = true; for (k = start; k < start + fuel; ++k) if (cell(k) != symbol)
{ win = false; break; }`, returning the final value of `win`.  The four line
checks of `checkWin` are this loop with a different `cell`. -/
def lineLoop (cell : Nat → Nat) (symbol : Nat) : Nat → Nat → Bool
  | _, 0 => true
  | k, fuel + 1 => if cell k != symbol then false else lineLoop cell symbol (k + 1) fuel

/-- The first loop of `checkWin`, `for (int i = ...; i < gridSize; ++i)`: row `i` is
checked, then column `i`; the function returns `true` as soon as one is complete. -/
def rowColLoop (gridSize : Nat) (symbol : Nat) (gameBoard : Board) : Nat → Nat → Bool
  | _, 0 => false
  | i, fuel + 1 =>
    if lineLoop (fun j => cellAt gameBoard i j) symbol 0 gridSize then true
    else if lineLoop (fun j => cellAt gameBoard j i) symbol 0 gridSize then true
    else rowColLoop gridSize symbol gameBoard (i + 1) fuel

/-- The function `TicTacToe::checkWin`. -/
def checkWin (gridSize : Nat) (player : Player) (gameBoard : Board) : Bool :=
  let symbol := player.toChar
  if rowColLoop gridSize symbol gameBoard 0 gridSize then true
  else if lineLoop (fun i => cellAt gameBoard i i) symbol 0 gridSize then true
  else if lineLoop (fun i => cellAt gameBoard i (gridSize - 1 - i)) symbol 0 gridSize then true
  else false

/-! ## `isGameOver` and `calculateScore` -/

/-- The function `TicTacToe::isGameOver`: a completed line of either player ends the
game; otherwise the rows are scanned and the first `NONE` cell returns `false`. -/
def isGameOver (gridSize : Nat) (gameBoard : Board) : Bool :=
  if checkWin gridSize .HUMAN gameBoard || checkWin gridSize .Machine gameBoard then true
  else if gameBoard.any (fun row => row.any (fun cell => cell == Player.NONE.toChar)) then false
  else true

/-- The function `TicTacToe::calculateScore`. -/
def calculateScore (gridSize : Nat) (gameBoard : Board) : HumanState :=
  if checkWin gridSize .HUMAN gameBoard then HumanState.WIN
  else if checkWin gridSize .Machine gameBoard then HumanState.LOSE
  else HumanState.TIE

/-! ## `miniMax` -/

/-- The mark `(isMachine) ? Player::Machine : Player::HUMAN`. -/
def moverMark (isMachine : Bool) : Nat :=
  if isMachine then Player.Machine.toChar else Player.HUMAN.toChar

/-- The positions visited by `for (auto &row : gameBoard) for (char &item : row)`,
in visiting order: row by row, each row left to right. -/
def scanOrder (gameBoard : Board) : List (Nat × Nat) :=
  (List.range gameBoard.length).flatMap
    (fun i => (List.range (gameBoard.getD i []).length).map (fun j => (i, j)))

/-- One iteration of the body of the scan loop of `miniMax` at the cell `pos`.  The
state is the working board with the running `bestScore`; `recurse` is the recursive
call `miniMax(gameBoard, depth + 1, !isMachine)` on a copy of the working board. -/
def miniMaxStep (recurse : Board → Int) (isMachine : Bool) (st : Board × Int)
    (pos : Nat × Nat) : Board × Int :=
  if cellAt st.1 pos.1 pos.2 = Player.NONE.toChar then
    let placed := setCell st.1 pos.1 pos.2 (moverMark isMachine)
    let topScore := recurse placed
    let restored := setCell placed pos.1 pos.2 Player.NONE.toChar
    (restored, if isMachine then max topScore st.2 else min topScore st.2)
  else st

/-- The scan loop of `miniMax`, from the working board and the initial `bestScore`
to the working board and `bestScore` after the last cell. -/
def miniMaxScan (recurse : Board → Int) (isMachine : Bool) (gameBoard : Board) :
    Board × Int :=
  (scanOrder gameBoard).foldl (miniMaxStep recurse isMachine)
    (gameBoard, if isMachine then INT_MIN else INT_MAX)

/-- The function `TicTacToe::miniMax` with a bound `fuel` on the recursion depth;
out of fuel it yields `0`. -/
def miniMaxAux (gridSize : Nat) : Nat → Board → Int → Bool → Int
  | 0, _, _, _ => 0
  | fuel + 1, gameBoard, depth, isMachine =>
    if isGameOver gridSize gameBoard then (calculateScore gridSize gameBoard).toInt
    else
      (miniMaxScan (fun b => miniMaxAux gridSize fuel b (depth + 1) (!isMachine))
        isMachine gameBoard).2

/-- The number of `NONE` cells of a board. -/
def countNone (gameBoard : Board) : Nat :=
  (gameBoard.map (fun row => row.count Player.NONE.toChar)).sum

/-- The function `TicTacToe::miniMax`.  Every recursive call is on a board with one
`NONE` cell fewer, so a recursion depth of `countNone gameBoard + 1` is never
exceeded (`miniMaxAux_fuel` below). -/
def miniMax (gridSize : Nat) (gameBoard : Board) (depth : Int) (isMachine : Bool) : Int :=
  miniMaxAux gridSize (countNone gameBoard + 1) gameBoard depth isMachine

/-! ## Root searches -/

/-- The state of a root scan: the member `board`, `bestScore` and `bestMove`. -/
structure RootState where
  board : Board
  bestScore : Int
  bestMove : Int × Int
  deriving DecidableEq, Repr

/-- The body of the root scan loops of `playTheBest` (Hard mode, `mark = Machine`) and
of `on_actionGet_Hint_triggered` (`mark = HUMAN`) at the cell `(i, j)`: place the
mark, score with `miniMax(board, 0, false)`, remove the mark, keep a strictly better
score. -/
def rootStep (gridSize : Nat) (mark : Nat) (st : RootState) (pos : Nat × Nat) : RootState :=
  if cellAt st.board pos.1 pos.2 = Player.NONE.toChar then
    let placed := setCell st.board pos.1 pos.2 mark
    let score := miniMax gridSize placed 0 false
    let restored := setCell placed pos.1 pos.2 Player.NONE.toChar
    if score > st.bestScore then
      { board := restored, bestScore := score, bestMove := ((pos.1 : Int), (pos.2 : Int)) }
    else { st with board := restored }
  else st

/-- The positions visited by `for (i = 0; i < gridSize; ++i) for (j = 0; j < gridSize; ++j)`. -/
def gridOrder (gridSize : Nat) : List (Nat × Nat) :=
  (List.range gridSize).flatMap (fun i => (List.range gridSize).map (fun j => (i, j)))

/-- The root scan loop shared by `playTheBest` and the hint, started with
`bestScore = INT_MIN` and `bestMove = (-1, -1)`. -/
def rootScan (gridSize : Nat) (mark : Nat) (board : Board) : RootState :=
  (gridOrder gridSize).foldl (rootStep gridSize mark)
    { board := board, bestScore := INT_MIN, bestMove := (-1, -1) }

/-- The list `availableMoves` of the random branches: the `NONE` cells in scan order. -/
def availableMoves (gridSize : Nat) (board : Board) : List (Nat × Nat) :=
  (gridOrder gridSize).filter (fun pos => cellAt board pos.1 pos.2 == Player.NONE.toChar)

/-- The move-selection phase of `TicTacToe::playTheBest` (up to, not including, the
win / tie handling): the member `board` afterwards.  `r` is the value of `rand()`. -/
def playTheBest (difficulty : String) (gridSize : Nat) (r : Nat) (board : Board) : Board :=
  if difficulty == "Easy" || gridSize > 3 then
    let moves := availableMoves gridSize board
    if moves.isEmpty then board
    else
      let pos := moves.getD (r % moves.length) (0, 0)
      setCell board pos.1 pos.2 Player.Machine.toChar
  else if difficulty == "Hard" && gridSize < 4 then
    let st := rootScan gridSize Player.Machine.toChar board
    if st.bestMove.1 != -1 then
      setCell st.board st.bestMove.1.toNat st.bestMove.2.toNat Player.Machine.toChar
    else st.board
  else board

/-- The cell highlighted by `TicTacToe::on_actionGet_Hint_triggered`, together with the
member `board` afterwards; `none` when nothing is highlighted. -/
def on_actionGet_Hint_triggered (gridSize : Nat) (r : Nat) (board : Board) :
    Option (Int × Int) × Board :=
  if gridSize == 3 then
    let st := rootScan gridSize Player.HUMAN.toChar board
    (if st.bestMove.1 != -1 then some st.bestMove else none, st.board)
  else
    let moves := availableMoves gridSize board
    if moves.isEmpty then (none, board)
    else
      let pos := moves.getD (r % moves.length) (0, 0)
      (some ((pos.1 : Int), (pos.2 : Int)), board)

/-- The empty board of the constructor: `gridSize` rows of `gridSize` `NONE` cells. -/
def emptyBoard (gridSize : Nat) : Board :=
  List.replicate gridSize (List.replicate gridSize Player.NONE.toChar)

/-! ## Specification vocabulary -/

/-- The `NONE` cells of a board, in the visiting order of the scan loop of `miniMax`. -/
def emptyCells (gameBoard : Board) : List (Nat × Nat) :=
  (scanOrder gameBoard).filter (fun pos => cellAt gameBoard pos.1 pos.2 == Player.NONE.toChar)

/-- The update `bestScore = isMachine ? std::max(topScore, bestScore) :
std::min(topScore, bestScore)` folded over a list of values of `topScore`. -/
def bestOf (isMachine : Bool) (init : Int) (scores : List Int) : Int :=
  scores.foldl (fun best top => if isMachine then max top best else min top best) init


/-- The lines that `checkWin` looks at: `player` fills a row, a column, the main
diagonal or the anti-diagonal. -/
def HasLine (gridSize : Nat) (player : Player) (gameBoard : Board) : Prop :=
  (∃ i, i < gridSize ∧ ∀ j, j < gridSize → cellAt gameBoard i j = player.toChar) ∨
  (∃ j, j < gridSize ∧ ∀ i, i < gridSize → cellAt gameBoard i j = player.toChar) ∨
  (∀ i, i < gridSize → cellAt gameBoard i i = player.toChar) ∨
  (∀ i, i < gridSize → cellAt gameBoard i (gridSize - 1 - i) = player.toChar)

/-- The update `if (score > bestScore) { bestScore = score; bestMove = {i, j}; }` of the
root scans, folded over a list of cells with a given score for each. -/
def pickBest (score : Nat × Nat → Int) (init : Int × (Int × Int)) (cells : List (Nat × Nat)) :
    Int × (Int × Int) :=
  cells.foldl
    (fun acc pos => if score pos > acc.1 then (score pos, ((pos.1 : Int), (pos.2 : Int))) else acc)
    init

/-- Row-major order on cells: `p` is scanned before `q`. -/
def Precedes (p q : Nat × Nat) : Prop :=
  p.1 < q.1 ∨ (p.1 = q.1 ∧ p.2 < q.2)

instance (p q : Nat × Nat) : Decidable (Precedes p q) := by
  unfold Precedes; infer_instance

/-! ## Proof devices for the 3 × 3 game -/

/-- The 3 × 3 board with the given nine cells, row by row. -/
def board9 (a b c d e f g h i : Nat) : Board :=
  [[a, b, c], [d, e, f], [g, h, i]]

/-- A bounded search that certifies `bound ≤ miniMax(board, depth, isMachine)` on the
3 × 3 board `board9 a b c d e f g h i` (`atLeast_sound` below): on a terminal board the
score is compared with `bound`; when the machine moves, one reply that keeps the bound is
enough (the centre is tried first, then the corners, then the edges); when the human
moves, every reply has to keep it. -/
def atLeast (bound : Int) :
    Nat → Bool → Nat → Nat → Nat → Nat → Nat → Nat → Nat → Nat → Nat → Bool
  | 0, _, _, _, _, _, _, _, _, _, _ => false
  | fuel + 1, isMachine, a, b, c, d, e, f, g, h, i =>
    if isGameOver 3 (board9 a b c d e f g h i) then
      decide (bound ≤ (calculateScore 3 (board9 a b c d e f g h i)).toInt)
    else if isMachine then
      (e == 32 && atLeast bound fuel false a b c d 79 f g h i) ||
      (a == 32 && atLeast bound fuel false 79 b c d e f g h i) ||
      (c == 32 && atLeast bound fuel false a b 79 d e f g h i) ||
      (g == 32 && atLeast bound fuel false a b c d e f 79 h i) ||
      (i == 32 && atLeast bound fuel false a b c d e f g h 79) ||
      (b == 32 && atLeast bound fuel false a 79 c d e f g h i) ||
      (d == 32 && atLeast bound fuel false a b c 79 e f g h i) ||
      (f == 32 && atLeast bound fuel false a b c d e 79 g h i) ||
      (h == 32 && atLeast bound fuel false a b c d e f g 79 i)
    else
      (a != 32 || atLeast bound fuel true 88 b c d e f g h i) &&
      (b != 32 || atLeast bound fuel true a 88 c d e f g h i) &&
      (c != 32 || atLeast bound fuel true a b 88 d e f g h i) &&
      (d != 32 || atLeast bound fuel true a b c 88 e f g h i) &&
      (e != 32 || atLeast bound fuel true a b c d 88 f g h i) &&
      (f != 32 || atLeast bound fuel true a b c d e 88 g h i) &&
      (g != 32 || atLeast bound fuel true a b c d e f 88 h i) &&
      (h != 32 || atLeast bound fuel true a b c d e f g 88 i) &&
      (i != 32 || atLeast bound fuel true a b c d e f g h 88)

/-- The positions of a Hard-mode game against the machine on the 3 × 3 board, as played
through `buttonClicked` and `playTheBest`: `HardGame humanToMove board`.  The game starts
on the empty board with the human to move; while the game is not over the human marks
any `NONE` cell, and while the game is still not over the machine replies with the move
of `playTheBest`. -/
inductive HardGame : Bool → Board → Prop
  | start : HardGame true (emptyBoard 3)
  | human {board : Board} {i j : Nat} :
      HardGame true board → isGameOver 3 board = false → i < 3 → j < 3 →
      cellAt board i j = Player.NONE.toChar →
      HardGame false (setCell board i j Player.HUMAN.toChar)
  | machine {board : Board} (r : Nat) :
      HardGame false board → isGameOver 3 board = false →
      HardGame true (playTheBest "Hard" 3 r board)

/-! ## Vocabulary of the later claims -/

/-- The relabelling of one cell that exchanges the two players: a `HUMAN` mark becomes
a `Machine` mark, a `Machine` mark becomes a `HUMAN` mark, anything else is kept. -/
def swapMark (c : Nat) : Nat :=
  if c = Player.HUMAN.toChar then Player.Machine.toChar
  else if c = Player.Machine.toChar then Player.HUMAN.toChar
  else c

/-- The board with the two players exchanged in every cell. -/
def swapMarks (gameBoard : Board) : Board :=
  gameBoard.map (fun row => row.map swapMark)

/-- A board with at least `n` rows, each of at least `n` cells: every read
`gameBoard[i][j]` with `i, j < n` is inside the vectors. -/
def CoversGrid (n : Nat) (gameBoard : Board) : Prop :=
  n ≤ gameBoard.length ∧ ∀ row ∈ gameBoard, n ≤ row.length

instance (n : Nat) (gameBoard : Board) : Decidable (CoversGrid n gameBoard) := by
  unfold CoversGrid; infer_instance

/-- A bounded search that certifies `miniMax(board, depth, isMachine) ≤ bound` on the
3 × 3 board `board9 a b c d e f g h i` (`atMost_sound` below), the mirror image of
`atLeast`: on a terminal board the score is compared with `bound`; when the machine
moves, every move has to keep the bound; when the human moves, one move that keeps it
is enough (the centre is tried first, then the corners, then the edges). -/
def atMost (bound : Int) :
    Nat → Bool → Nat → Nat → Nat → Nat → Nat → Nat → Nat → Nat → Nat → Bool
  | 0, _, _, _, _, _, _, _, _, _, _ => false
  | fuel + 1, isMachine, a, b, c, d, e, f, g, h, i =>
    if isGameOver 3 (board9 a b c d e f g h i) then
      decide ((calculateScore 3 (board9 a b c d e f g h i)).toInt ≤ bound)
    else if isMachine then
      (a != 32 || atMost bound fuel false 79 b c d e f g h i) &&
      (b != 32 || atMost bound fuel false a 79 c d e f g h i) &&
      (c != 32 || atMost bound fuel false a b 79 d e f g h i) &&
      (d != 32 || atMost bound fuel false a b c 79 e f g h i) &&
      (e != 32 || atMost bound fuel false a b c d 79 f g h i) &&
      (f != 32 || atMost bound fuel false a b c d e 79 g h i) &&
      (g != 32 || atMost bound fuel false a b c d e f 79 h i) &&
      (h != 32 || atMost bound fuel false a b c d e f g 79 i) &&
      (i != 32 || atMost bound fuel false a b c d e f g h 79)
    else
      (e == 32 && atMost bound fuel true a b c d 88 f g h i) ||
      (a == 32 && atMost bound fuel true 88 b c d e f g h i) ||
      (c == 32 && atMost bound fuel true a b 88 d e f g h i) ||
      (g == 32 && atMost bound fuel true a b c d e f 88 h i) ||
      (i == 32 && atMost bound fuel true a b c d e f g h 88) ||
      (b == 32 && atMost bound fuel true a 88 c d e f g h i) ||
      (d == 32 && atMost bound fuel true a b c 88 e f g h i) ||
      (f == 32 && atMost bound fuel true a b c d e 88 g h i) ||
      (h == 32 && atMost bound fuel true a b c d e f g 88 i)

/-- The search `atLeast` on a board given as a list of three rows of three cells; a
bound of `-1` or less needs no search, as no score is below `-1`. -/
def certAtLeast (bound : Int) (isMachine : Bool) : Board → Bool
  | [[a, b, c], [d, e, f], [g, h, i]] =>
    decide (bound ≤ -1) || atLeast bound 10 isMachine a b c d e f g h i
  | _ => false

/-- The search `atMost` on a board given as a list of three rows of three cells; a
bound of `1` or more needs no search, as no score is above `1`. -/
def certAtMost (bound : Int) (isMachine : Bool) : Board → Bool
  | [[a, b, c], [d, e, f], [g, h, i]] =>
    decide (1 ≤ bound) || atMost bound 10 isMachine a b c d e f g h i
  | _ => false

/-- A check that certifies the outcome of a root scan with `mark` on a 3 × 3 board
(`rootCert_sound` below): `target` is a `NONE` cell whose score is at least `score`,
every `NONE` cell scanned before it scores at most `score - 1`, and every `NONE` cell
scanned after it scores at most `score`. -/
def rootCert (mark : Nat) (board : Board) (target : Nat × Nat) (score : Int) : Bool :=
  decide (IsGrid 3 board) &&
  (cellAt board target.1 target.2 == Player.NONE.toChar &&
  (certAtLeast score false (setCell board target.1 target.2 mark) &&
  (gridOrder 3).all (fun pos =>
    cellAt board pos.1 pos.2 != Player.NONE.toChar || (pos == target ||
      certAtMost (if Precedes pos target then score - 1 else score) false
        (setCell board pos.1 pos.2 mark)))))

/-- One move of engine against engine on the 3 × 3 board: the human's side marks the
cell highlighted by the hint search (nothing when no cell is highlighted), the machine's
side plays `playTheBest` in Hard mode. -/
def engineMove (humanToMove : Bool) (board : Board) : Board :=
  if humanToMove then
    match (on_actionGet_Hint_triggered 3 0 board).1 with
    | some move => setCell board move.1.toNat move.2.toNat Player.HUMAN.toChar
    | none => board
  else playTheBest "Hard" 3 0 board

/-- Engine against engine on the 3 × 3 board: the two sides move in turn with
`engineMove` until `isGameOver` holds; the result is the final board.  `fuel` bounds the
number of moves. -/
def engineGame : Nat → Bool → Board → Board
  | 0, _, board => board
  | fuel + 1, humanToMove, board =>
    if isGameOver 3 board then board
    else engineGame fuel (!humanToMove) (engineMove humanToMove board)

/-- The nesting depth of the recursive calls of `miniMax` below a call on `gameBoard`
(`0` when the call returns without recursing), explored down to the bound `fuel`.  The
calls followed are those that the scan loop makes: one on
`setCell gameBoard i j (moverMark isMachine)` for each `NONE` cell `(i, j)`, which is
what `miniMaxScan` does with its argument `recurse` (first part of the termination
theorem of `miniMax`). -/
def miniMaxDepth (gridSize : Nat) : Nat → Board → Bool → Nat
  | 0, _, _ => 0
  | fuel + 1, gameBoard, isMachine =>
    if isGameOver gridSize gameBoard then 0
    else
      1 + ((emptyCells gameBoard).map (fun pos =>
        miniMaxDepth gridSize fuel (setCell gameBoard pos.1 pos.2 (moverMark isMachine))
          (!isMachine))).foldl max 0

end TicTacToe

namespace Game2048

open TicTacToe (Board cellAt setCell IsGrid)

/-! ## The 2048 game (`game2048.cpp`)

The member `int grid[4][4]` is a `Board` (a list of four rows of four tiles) read with
`cellAt` and written with `setCell`; a tile is a `Nat`, `0` being the empty cell.  The
claims are about grids of non-negative tiles on which doubling does not overflow, where
`int` arithmetic agrees with that of `Nat`.  The member `score` is a `Nat`; `bestScore`,
the labels and the sounds are not modelled.  `keyPressEvent` is modelled up to the call
of `generateRandomNumber`. -/

/-- The body of the inner loop of `moveUp`, `moveDown`, `moveLeft` and `moveRight`, on
the state `(grid, index, moved)`: `pos k` is the cell visited by the loop variable `k`
and `pos index` the cell written.
`if (grid[k] != 0) { if (index != k) { grid[index] = grid[k]; grid[k] = 0; moved = true; }
++index; }` (`index--` in `moveDown` and `moveRight`, given by `next`). -/
def slideStep (pos : Nat → Nat × Nat) (next : Nat → Nat) (st : Board × Nat × Bool)
    (k : Nat) : Board × Nat × Bool :=
  if cellAt st.1 (pos k).1 (pos k).2 ≠ 0 then
    if st.2.1 ≠ k then
      (setCell (setCell st.1 (pos st.2.1).1 (pos st.2.1).2 (cellAt st.1 (pos k).1 (pos k).2))
        (pos k).1 (pos k).2 0, next st.2.1, true)
    else (st.1, next st.2.1, st.2.2)
  else st

/-- The inner loop of a move function on one line, on the state `(grid, moved)`: `index`
starts at `start` and the cells `pos k` are visited for `k` in `order`. -/
def slideLine (pos : Nat → Nat × Nat) (order : List Nat) (start : Nat) (next : Nat → Nat)
    (st : Board × Bool) : Board × Bool :=
  ((order.foldl (slideStep pos next) (st.1, start, st.2)).1,
    (order.foldl (slideStep pos next) (st.1, start, st.2)).2.2)

/-- The two nested loops of a move function: the outer loop takes the lines
`l = 0, 1, 2, 3`, whose cells are `pos l k`.  The result is the grid and the flag
`moved`. -/
def slideLines (pos : Nat → Nat → Nat × Nat) (order : List Nat) (start : Nat)
    (next : Nat → Nat) (grid : Board) : Board × Bool :=
  [0, 1, 2, 3].foldl (fun st l => slideLine (pos l) order start next st) (grid, false)

/-- The function `game2048::moveUp`: `for j` / `index = 0` / `for (i = 0; i < 4; ++i)` on
the cells `grid[i][j]`. -/
def moveUp (grid : Board) : Board × Bool :=
  slideLines (fun j i => (i, j)) [0, 1, 2, 3] 0 (fun index => index + 1) grid

/-- The function `game2048::moveDown`: `for j` / `index = 3` / `for (i = 3; i >= 0; --i)`.
The last `index--` of a full column gives `-1` in the source and `0` here; `index` is not
read after it. -/
def moveDown (grid : Board) : Board × Bool :=
  slideLines (fun j i => (i, j)) [3, 2, 1, 0] 3 (fun index => index - 1) grid

/-- The function `game2048::moveLeft`: `for i` / `index = 0` / `for (j = 0; j < 4; ++j)`. -/
def moveLeft (grid : Board) : Board × Bool :=
  slideLines (fun i j => (i, j)) [0, 1, 2, 3] 0 (fun index => index + 1) grid

/-- The function `game2048::moveRight`: `for i` / `index = 3` / `for (j = 3; j >= 0; --j)`;
see `moveDown` for the last `index--`. -/
def moveRight (grid : Board) : Board × Bool :=
  slideLines (fun i j => (i, j)) [3, 2, 1, 0] 3 (fun index => index - 1) grid

/-- The function `game2048::hasAdjacentDuplicates`: the horizontal scan, then the vertical
one; zero tiles are compared like the others. -/
def hasAdjacentDuplicates (grid : Board) : Bool :=
  ([0, 1, 2, 3].any fun i => [0, 1, 2].any fun j => cellAt grid i j == cellAt grid i (j + 1)) ||
  ([0, 1, 2].any fun i => [0, 1, 2, 3].any fun j => cellAt grid i j == cellAt grid (i + 1) j)

/-- The function `game2048::updateScore`, on `score` only. -/
def updateScore (score addedScore : Nat) : Nat :=
  score + addedScore

/-- The body of the inner loop of one case of `merge`, on the state
`(grid, score, merged)`: `pos k` is the cell visited and `pos (other k)` its neighbour
(`k + 1` in the cases `'w'`, `'a'`; `k - 1` in the cases `'s'`, `'d'`).
`if (grid[k] != 0 && grid[k] == grid[other]) { merged = true; mergedNumber = grid[k] * 2;
grid[k] = mergedNumber; grid[other] = 0; updateScore(mergedNumber); }`. -/
def mergeStep (pos : Nat → Nat × Nat) (other : Nat → Nat) (st : Board × Nat × Bool)
    (k : Nat) : Board × Nat × Bool :=
  if cellAt st.1 (pos k).1 (pos k).2 ≠ 0 ∧
      cellAt st.1 (pos k).1 (pos k).2 = cellAt st.1 (pos (other k)).1 (pos (other k)).2 then
    (setCell (setCell st.1 (pos k).1 (pos k).2 (cellAt st.1 (pos k).1 (pos k).2 * 2))
        (pos (other k)).1 (pos (other k)).2 0,
      updateScore st.2.1 (cellAt st.1 (pos k).1 (pos k).2 * 2), true)
  else st

/-- The inner loop of one case of `merge` on one line: the cells `pos k` for `k` in
`order`. -/
def mergeLine (pos : Nat → Nat × Nat) (order : List Nat) (other : Nat → Nat)
    (st : Board × Nat × Bool) : Board × Nat × Bool :=
  order.foldl (mergeStep pos other) st

/-- The two nested loops of one case of `merge`: the lines `l = 0, 1, 2, 3`, whose cells
are `pos l k`. -/
def mergeLines (pos : Nat → Nat → Nat × Nat) (order : List Nat) (other : Nat → Nat)
    (grid : Board) (score : Nat) : Board × Nat × Bool :=
  [0, 1, 2, 3].foldl (fun st l => mergeLine (pos l) order other st) (grid, score, false)

/-- The function `game2048::merge`, on the grid and the score; the result is the grid,
the score and the returned flag `merged`. -/
def merge (direction : Char) (grid : Board) (score : Nat) : Board × Nat × Bool :=
  if direction = 'w' then
    mergeLines (fun j i => (i, j)) [0, 1, 2] (fun i => i + 1) grid score
  else if direction = 's' then
    mergeLines (fun j i => (i, j)) [3, 2, 1] (fun i => i - 1) grid score
  else if direction = 'a' then
    mergeLines (fun i j => (i, j)) [0, 1, 2] (fun j => j + 1) grid score
  else if direction = 'd' then
    mergeLines (fun i j => (i, j)) [3, 2, 1] (fun j => j - 1) grid score
  else (grid, score, false)

/-- The function `game2048::checkLose`. -/
def checkLose (grid : Board) : Bool :=
  let hasDuplicates := hasAdjacentDuplicates grid
  let hasEmptyCells := [0, 1, 2, 3].any fun i => [0, 1, 2, 3].any fun j => cellAt grid i j == 0
  !hasDuplicates && !hasEmptyCells

/-- The keys told apart by `keyPressEvent`. -/
inductive Key where
  | W | Up | S | Down | A | Left | D | Right | Other
  deriving DecidableEq, Repr

/-- The state read and written by `keyPressEvent`. -/
structure Game where
  gameStarted : Bool
  grid : Board
  score : Nat
  deriving DecidableEq, Repr

/-- The two `switch` statements of `keyPressEvent` for one direction: when `checkLose()`
is false, `mergePossible = merge(direction); moved = move();` and then, if
`!mergePossible && moved`, `mergePossible = merge(direction)`.  The result is the state
with the flags `mergePossible` and `moved`. -/
def pressDirection (direction : Char) (move : Board → Board × Bool) (game : Game) :
    Game × Bool × Bool :=
  let first : Game × Bool × Bool :=
    if !checkLose game.grid then
      ({ game with grid := (move (merge direction game.grid game.score).1).1,
                   score := (merge direction game.grid game.score).2.1 },
        (merge direction game.grid game.score).2.2,
        (move (merge direction game.grid game.score).1).2)
    else (game, false, false)
  if !first.2.1 && first.2.2 then
    ({ first.1 with grid := (merge direction first.1.grid first.1.score).1,
                    score := (merge direction first.1.grid first.1.score).2.1 },
      (merge direction first.1.grid first.1.score).2.2, first.2.2)
  else first

/-- The function `game2048::keyPressEvent` up to the test `mergePossible || moved` that
guards the spawn of a random tile: the state and the flags `mergePossible`, `moved`. -/
def keyPressEvent (key : Key) (game : Game) : Game × Bool × Bool :=
  if !game.gameStarted then (game, false, false)
  else
    match key with
    | .W | .Up => pressDirection 'w' moveUp game
    | .S | .Down => pressDirection 's' moveDown game
    | .A | .Left => pressDirection 'a' moveLeft game
    | .D | .Right => pressDirection 'd' moveRight game
    | .Other => (game, false, false)

/-! ### Vocabulary of the claims -/

/-- Row `i` of the grid, from left to right. -/
def rowOf (grid : Board) (i : Nat) : List Nat :=
  [cellAt grid i 0, cellAt grid i 1, cellAt grid i 2, cellAt grid i 3]

/-- Column `j` of the grid, from top to bottom. -/
def columnOf (grid : Board) (j : Nat) : List Nat :=
  [cellAt grid 0 j, cellAt grid 1 j, cellAt grid 2 j, cellAt grid 3 j]

/-- The non-zero tiles of a line in their order, followed by zeros up to the length of
the line. -/
def packFront (line : List Nat) : List Nat :=
  line.filter (fun t => t ≠ 0) ++
    List.replicate (line.length - (line.filter (fun t => t ≠ 0)).length) 0

/-- Zeros, followed by the non-zero tiles of a line in their order, up to the length of
the line. -/
def packBack (line : List Nat) : List Nat :=
  List.replicate (line.length - (line.filter (fun t => t ≠ 0)).length) 0 ++
    line.filter (fun t => t ≠ 0)

/-- The sum of the sixteen tiles. -/
def tileSum (grid : Board) : Nat :=
  ((List.range 4).map fun i => ((List.range 4).map fun j => cellAt grid i j).sum).sum

/-- The sum of the values of the tiles created by a merge from `before` to `after`: the
cells whose value changed and is not zero. -/
def createdSum (before after : Board) : Nat :=
  ((List.range 4).map fun i => ((List.range 4).map fun j =>
    if cellAt after i j ≠ cellAt before i j ∧ cellAt after i j ≠ 0 then cellAt after i j
    else 0).sum).sum

/-- Two equal non-zero tiles are neighbours in a row. -/
def HorizontalPair (grid : Board) : Prop :=
  ∃ i j, i < 4 ∧ j < 3 ∧ cellAt grid i j ≠ 0 ∧ cellAt grid i j = cellAt grid i (j + 1)

/-- Two equal non-zero tiles are neighbours in a column. -/
def VerticalPair (grid : Board) : Prop :=
  ∃ i j, i < 3 ∧ j < 4 ∧ cellAt grid i j ≠ 0 ∧ cellAt grid i j = cellAt grid (i + 1) j

/-! ### Proof devices -/

/-- The cells `pos 0, ..., pos 3` of a line. -/
def lineOf (pos : Nat → Nat × Nat) (grid : Board) : List Nat :=
  [cellAt grid (pos 0).1 (pos 0).2, cellAt grid (pos 1).1 (pos 1).2,
    cellAt grid (pos 2).1 (pos 2).2, cellAt grid (pos 3).1 (pos 3).2]

/-- The step `slideStep` on a line given as a list. -/
def lineSlideStep (next : Nat → Nat) (st : List Nat × Nat × Bool) (k : Nat) :
    List Nat × Nat × Bool :=
  if st.1.getD k 0 ≠ 0 then
    if st.2.1 ≠ k then ((st.1.set st.2.1 (st.1.getD k 0)).set k 0, next st.2.1, true)
    else (st.1, next st.2.1, st.2.2)
  else st

/-- The step `mergeStep` on a line given as a list. -/
def lineMergeStep (other : Nat → Nat) (st : List Nat × Nat × Bool) (k : Nat) :
    List Nat × Nat × Bool :=
  if st.1.getD k 0 ≠ 0 ∧ st.1.getD k 0 = st.1.getD (other k) 0 then
    ((st.1.set k (st.1.getD k 0 * 2)).set (other k) 0, updateScore st.2.1 (st.1.getD k 0 * 2),
      true)
  else st

/-- The cells `pos 0, ..., pos 3` are four different cells of the 4 × 4 grid. -/
def ValidLine (pos : Nat → Nat × Nat) : Prop :=
  (∀ k, k < 4 → (pos k).1 < 4 ∧ (pos k).2 < 4) ∧
  ∀ k l, k < 4 → l < 4 → pos k = pos l → k = l

/-- The cells `pos l k` with `l, k < 4` are the sixteen cells of the grid, each once. -/
def ValidLines (pos : Nat → Nat → Nat × Nat) : Prop :=
  (∀ l k, l < 4 → k < 4 → (pos l k).1 < 4 ∧ (pos l k).2 < 4) ∧
  (∀ l k m n, l < 4 → k < 4 → m < 4 → n < 4 → pos l k = pos m n → l = m ∧ k = n) ∧
  ∀ i j, i < 4 → j < 4 → ∃ l k, l < 4 ∧ k < 4 ∧ pos l k = (i, j)

/-- The grids `before` and `after` agree on the cells that are not on the line `pos`. -/
def SameOff (pos : Nat → Nat × Nat) (before after : Board) : Prop :=
  ∀ i j, (∀ t, t < 4 → pos t ≠ (i, j)) → cellAt after i j = cellAt before i j

/-- The sum of the values of the tiles created on a line by a merge. -/
def lineCreated (before after : List Nat) : Nat :=
  ((List.range 4).map fun k =>
    if after.getD k 0 ≠ before.getD k 0 ∧ after.getD k 0 ≠ 0 then after.getD k 0 else 0).sum

/-- The line left by the inner loop of the cases `'w'` and `'a'` of `merge`. -/
def mergedFront (line : List Nat) : List Nat :=
  ([0, 1, 2].foldl (lineMergeStep (fun k => k + 1)) (line, 0, false)).1

/-- The line left by the inner loop of the cases `'s'` and `'d'` of `merge`. -/
def mergedBack (line : List Nat) : List Nat :=
  ([3, 2, 1].foldl (lineMergeStep (fun k => k - 1)) (line, 0, false)).1

end Game2048

namespace FifteenPuzzle

/-! ## The fifteen puzzle (`fifteenpuzzle.cpp`)

The state is the list of the texts of `buttons[0 .. 15]` (the button at index `i` sits at
row `i / 4`, column `i % 4`) with `movesCount`.  The dialogs, the sounds, the colours,
`initialState`, `currentDifficulty` and the high score are not modelled.  The random
draws and the choice made in the dialog of `newGameButtonClicked` are arguments. -/

/-- The enumeration `enum Difficulty { Easy, Hard }`. -/
inductive Difficulty where
  | Easy
  | Hard
  deriving DecidableEq, Repr

/-- The constant `gridSize = 4`. -/
def gridSize : Nat := 4

/-- The text of a button: `none` is the empty text, `some n` is `QString::number(n)`. -/
abbrev Label := Option Nat

/-- The conversion `text().toInt()`; the empty text gives `0`. -/
def toInt : Label → Int
  | none => 0
  | some n => (n : Int)

/-- The state of the puzzle: the texts of `buttons[0 .. 15]` and `movesCount`. -/
structure Puzzle where
  labels : List Label
  movesCount : Int
  deriving DecidableEq, Repr

/-- The read `buttons[index]->text()`.  An index outside the array is undefined behaviour
in the source; it reads as the empty text here and does not occur on a state of sixteen
labels with indices below sixteen. -/
def textAt (labels : List Label) (index : Nat) : Label :=
  labels.getD index none

/-- The loop of `findButtonIndex` from index `i`, for `fuel` more iterations. -/
def findButtonIndexFrom (labels : List Label) (number : Label) : Nat → Nat → Int
  | _, 0 => -1
  | i, fuel + 1 =>
    if textAt labels i = number then (i : Int)
    else findButtonIndexFrom labels number (i + 1) fuel

/-- The function `FifteenPuzzle::findButtonIndex`: the first index whose button has the
text `number`, or `-1`. -/
def findButtonIndex (labels : List Label) (number : Label) : Int :=
  findButtonIndexFrom labels number 0 (gridSize * gridSize)

/-- The function `FifteenPuzzle::isAdjacent`; `/` and `%` of C++ truncate towards zero. -/
def isAdjacent (index1 index2 : Int) : Bool :=
  let row1 := index1.tdiv gridSize
  let col1 := index1.tmod gridSize
  let row2 := index2.tdiv gridSize
  let col2 := index2.tmod gridSize
  (row1 - row2).natAbs + (col1 - col2).natAbs == 1

/-- The function `FifteenPuzzle::isSolved`. -/
def isSolved (labels : List Label) : Bool :=
  (List.range (gridSize * gridSize - 1)).all (fun i => toInt (textAt labels i) == (i : Int) + 1) &&
    (textAt labels (gridSize * gridSize - 1)).isNone

/-- The function `FifteenPuzzle::setupEasyPuzzle`; `ran` is the value drawn from
`distrib(0, 1)`. -/
def setupEasyPuzzle (ran : Nat) (labels : List Label) : List Label :=
  let numbered := (List.range (gridSize * gridSize - 1)).foldl
    (fun acc i => acc.set i (some (i + 1))) labels
  let cleared := numbered.set (gridSize * gridSize - 1) none
  if ran == 1 then
    ((cleared.set 10 (some 12)).set 11 (some 15)).set 14 (some 11)
  else
    (((cleared.set 10 (some 15)).set 11 none).set 14 (some 12)).set 15 (some 11)

/-- The function `FifteenPuzzle::shuffleTiles` on the texts.  For `Hard`, `std::shuffle`
rearranges `buttons[0 .. 14]`; `order` is the order it produces: the button now at index
`i` is the one that was at index `order[i]`. -/
def shuffleTiles (difficulty : Difficulty) (ran : Nat) (order : List Nat)
    (labels : List Label) : List Label :=
  match difficulty with
  | .Hard => order.map (fun k => textAt labels k) ++ [textAt labels (gridSize * gridSize - 1)]
  | .Easy => setupEasyPuzzle ran labels

/-- The function `FifteenPuzzle::newGameButtonClicked`; `choice` is the difficulty picked
in its dialog. -/
def newGameButtonClicked (choice : Difficulty) (ran : Nat) (order : List Nat) (st : Puzzle) :
    Puzzle :=
  { labels := shuffleTiles choice ran order st.labels, movesCount := 0 }

/-- The first part of `FifteenPuzzle::buttonClicked`, up to the test `isSolved()`: the
button at index `sender` was clicked; when its tile is adjacent to the empty one,
`movesCount` is incremented and the two texts are exchanged. -/
def moveTile (sender : Nat) (st : Puzzle) : Puzzle :=
  let clickedIndex := findButtonIndex st.labels (textAt st.labels sender)
  let emptyIndex := findButtonIndex st.labels none
  if isAdjacent clickedIndex emptyIndex then
    let tempText := textAt st.labels clickedIndex.toNat
    { labels := (st.labels.set clickedIndex.toNat (textAt st.labels emptyIndex.toNat)).set
        emptyIndex.toNat tempText,
      movesCount := st.movesCount + 1 }
  else st

/-- The function `FifteenPuzzle::buttonClicked`: after a move that solves the puzzle it
calls `newGameButtonClicked`. -/
def buttonClicked (sender : Nat) (choice : Difficulty) (ran : Nat) (order : List Nat)
    (st : Puzzle) : Puzzle :=
  let clickedIndex := findButtonIndex st.labels (textAt st.labels sender)
  let emptyIndex := findButtonIndex st.labels none
  if isAdjacent clickedIndex emptyIndex then
    if isSolved (moveTile sender st).labels then
      newGameButtonClicked choice ran order (moveTile sender st)
    else moveTile sender st
  else st

/-! ### Vocabulary of the claims -/

/-- The sixteen labels are a permutation of `1, ..., 15` and the empty label. -/
def IsPuzzle (labels : List Label) : Prop :=
  labels.Perm (none :: (List.range' 1 15).map some)

instance (labels : List Label) : Decidable (IsPuzzle labels) := by
  unfold IsPuzzle; infer_instance

/-- The cells of index `a` and `b` of the 4 × 4 grid are orthogonal neighbours: same row
and neighbouring columns, or same column and neighbouring rows. -/
def Neighbours (a b : Nat) : Prop :=
  (a / 4 = b / 4 ∧ (a % 4 + 1 = b % 4 ∨ b % 4 + 1 = a % 4)) ∨
  (a % 4 = b % 4 ∧ (a / 4 + 1 = b / 4 ∨ b / 4 + 1 = a / 4))

instance (a b : Nat) : Decidable (Neighbours a b) := by
  unfold Neighbours; infer_instance

/-- Clicking the buttons of indices `clicks` in turn, each of which has to be accepted by
`isAdjacent` when it is clicked; `none` when some click is not accepted. -/
def playClicks : List Nat → Puzzle → Option Puzzle
  | [], st => some st
  | sender :: rest, st =>
    if isAdjacent (findButtonIndex st.labels (textAt st.labels sender))
        (findButtonIndex st.labels none) then
      playClicks rest (moveTile sender st)
    else none

end FifteenPuzzle

namespace TicTacToe

/-! ## Lemmas on `checkWin`, `isGameOver`, `calculateScore` -/

theorem lineLoop_iff (cell : Nat → Nat) (symbol : Nat) (n k : Nat) :
    lineLoop cell symbol k n = true ↔ ∀ t, t < n → cell (k + t) = symbol := by
  induction n generalizing k with
  | zero => simp [lineLoop]
  | succ n ih =>
    simp only [lineLoop]
    by_cases h : cell k = symbol
    · simp only [h, bne_self_eq_false, Bool.false_eq_true, if_false, ih]
      constructor
      · intro H t ht
        cases t with
        | zero => simpa using h
        | succ t =>
          have := H t (by omega)
          rwa [Nat.add_assoc, Nat.add_comm 1 t] at this
      · intro H t ht
        have := H (t + 1) (by omega)
        rwa [Nat.add_assoc, Nat.add_comm 1 t]
    · have hb : (cell k != symbol) = true := by simpa using h
      simp only [hb, if_true, Bool.false_eq_true, false_iff]
      intro H
      exact h (by simpa using H 0 (by omega))

theorem rowColLoop_iff (gridSize symbol : Nat) (gameBoard : Board) (n i : Nat) :
    rowColLoop gridSize symbol gameBoard i n = true ↔
      ∃ t, t < n ∧ ((∀ j, j < gridSize → cellAt gameBoard (i + t) j = symbol) ∨
        (∀ j, j < gridSize → cellAt gameBoard j (i + t) = symbol)) := by
  induction n generalizing i with
  | zero => simp [rowColLoop]
  | succ n ih =>
    simp only [rowColLoop]
    by_cases hr : lineLoop (fun j => cellAt gameBoard i j) symbol 0 gridSize = true
    · simp only [hr, if_true, true_iff]
      refine ⟨0, by omega, Or.inl ?_⟩
      intro j hj
      simpa using (lineLoop_iff _ symbol gridSize 0).1 hr j hj
    · by_cases hc : lineLoop (fun j => cellAt gameBoard j i) symbol 0 gridSize = true
      · simp only [hc, if_true, ite_self, true_iff]
        refine ⟨0, by omega, Or.inr ?_⟩
        intro j hj
        simpa using (lineLoop_iff _ symbol gridSize 0).1 hc j hj
      · simp only [hr, hc, if_false, Bool.false_eq_true, ih]
        constructor
        · rintro ⟨t, ht, H⟩
          refine ⟨t + 1, by omega, ?_⟩
          rwa [Nat.add_assoc, Nat.add_comm 1 t] at H
        · rintro ⟨t, ht, H⟩
          cases t with
          | zero =>
            exfalso
            rcases H with H | H
            · exact hr ((lineLoop_iff _ symbol gridSize 0).2 (fun j hj => by simpa using H j hj))
            · exact hc ((lineLoop_iff _ symbol gridSize 0).2 (fun j hj => by simpa using H j hj))
          | succ t =>
            refine ⟨t, by omega, ?_⟩
            rwa [Nat.add_assoc, Nat.add_comm 1 t]

theorem checkWin_iff (gridSize : Nat) (player : Player) (gameBoard : Board) :
    checkWin gridSize player gameBoard = true ↔ HasLine gridSize player gameBoard := by
  unfold checkWin HasLine
  simp only []
  by_cases h1 : rowColLoop gridSize player.toChar gameBoard 0 gridSize = true
  · simp only [h1, if_true, true_iff]
    obtain ⟨t, ht, H⟩ := (rowColLoop_iff _ _ _ _ _).1 h1
    simp only [Nat.zero_add] at H
    rcases H with H | H
    · exact Or.inl ⟨t, ht, H⟩
    · exact Or.inr (Or.inl ⟨t, ht, H⟩)
  · have h1n : ¬ ∃ t, t < gridSize ∧
        ((∀ j, j < gridSize → cellAt gameBoard (0 + t) j = player.toChar) ∨
          (∀ j, j < gridSize → cellAt gameBoard j (0 + t) = player.toChar)) :=
      fun H => h1 ((rowColLoop_iff _ _ _ _ _).2 H)
    simp only [Nat.zero_add] at h1n
    have hrow : ¬ ∃ i, i < gridSize ∧ ∀ j, j < gridSize → cellAt gameBoard i j = player.toChar :=
      fun ⟨i, hi, H⟩ => h1n ⟨i, hi, Or.inl H⟩
    have hcol : ¬ ∃ j, j < gridSize ∧ ∀ i, i < gridSize → cellAt gameBoard i j = player.toChar :=
      fun ⟨i, hi, H⟩ => h1n ⟨i, hi, Or.inr H⟩
    simp only [h1, if_false, Bool.false_eq_true, hrow, hcol, false_or]
    by_cases h2 : lineLoop (fun i => cellAt gameBoard i i) player.toChar 0 gridSize = true
    · simp only [h2, if_true, true_iff]
      left
      intro i hi
      simpa using (lineLoop_iff _ _ _ 0).1 h2 i hi
    · have h2n : ¬ ∀ i, i < gridSize → cellAt gameBoard i i = player.toChar :=
        fun H => h2 ((lineLoop_iff _ _ _ 0).2 (fun i hi => by simpa using H i hi))
      simp only [h2, if_false, Bool.false_eq_true, h2n, false_or]
      by_cases h3 : lineLoop (fun i => cellAt gameBoard i (gridSize - 1 - i))
          player.toChar 0 gridSize = true
      · simp only [h3, if_true, true_iff]
        intro i hi
        simpa using (lineLoop_iff _ _ _ 0).1 h3 i hi
      · simp only [h3, if_false, Bool.false_eq_true, false_iff]
        intro H
        exact h3 ((lineLoop_iff _ _ _ 0).2 (fun i hi => by simpa using H i hi))

/-! ## Reading and writing cells -/

theorem cellAt_inBounds {gameBoard : Board} {i j : Nat} (h : cellAt gameBoard i j ≠ 0) :
    i < gameBoard.length ∧ j < (gameBoard.getD i []).length := by
  unfold cellAt at h
  constructor
  · by_contra hi
    rw [List.getD_eq_default _ _ (Nat.le_of_not_lt hi)] at h
    simp at h
  · by_contra hj
    rw [List.getD_eq_default _ _ (Nat.le_of_not_lt hj)] at h
    exact h rfl

theorem length_setCell (gameBoard : Board) (i j c : Nat) :
    (setCell gameBoard i j c).length = gameBoard.length := by
  simp [setCell]

theorem getD_setCell (gameBoard : Board) (i j c k : Nat) :
    (setCell gameBoard i j c).getD k [] =
      if k = i then (gameBoard.getD i []).set j c else gameBoard.getD k [] := by
  unfold setCell
  by_cases hk : k = i
  · subst hk
    by_cases hlen : k < gameBoard.length
    · simp [hlen]
    · have hle : gameBoard.length ≤ k := Nat.le_of_not_lt hlen
      rw [List.set_eq_of_length_le hle, List.getD_eq_default _ _ hle]
      simp
  · simp only [hk, if_false, List.getD_eq_getElem?_getD]
    rw [List.getElem?_set_ne (Ne.symm hk)]

theorem rowLength_setCell (gameBoard : Board) (i j c k : Nat) :
    ((setCell gameBoard i j c).getD k []).length = (gameBoard.getD k []).length := by
  rw [getD_setCell]
  split
  · next h => subst h; simp
  · rfl

theorem cellAt_setCell_self {gameBoard : Board} {i j : Nat} (c : Nat)
    (hj : j < (gameBoard.getD i []).length) : cellAt (setCell gameBoard i j c) i j = c := by
  unfold cellAt
  rw [getD_setCell]
  simp only [if_true, List.getD_eq_getElem?_getD]
  rw [List.getElem?_set_self (by simpa using hj)]
  rfl

theorem cellAt_setCell_ne (gameBoard : Board) {i j k l : Nat} (c : Nat)
    (h : (i, j) ≠ (k, l)) : cellAt (setCell gameBoard i j c) k l = cellAt gameBoard k l := by
  unfold cellAt
  rw [getD_setCell]
  by_cases hk : k = i
  · subst hk
    have hl : j ≠ l := fun e => h (by rw [e])
    simp only [if_true, List.getD_eq_getElem?_getD]
    rw [List.getElem?_set_ne hl]
  · simp only [hk, if_false]

theorem setCell_setCell (gameBoard : Board) (i j c d : Nat) :
    setCell (setCell gameBoard i j c) i j d = setCell gameBoard i j d := by
  show (setCell gameBoard i j c).set i (((setCell gameBoard i j c).getD i []).set j d) = _
  rw [getD_setCell]
  simp only [if_true, List.set_set]
  unfold setCell
  rw [List.set_set]

theorem list_set_getElem {α : Type} (l : List α) (i : Nat) (h : i < l.length) :
    l.set i l[i] = l := by
  induction l generalizing i with
  | nil => simp at h
  | cons a l ih =>
    cases i with
    | zero => rfl
    | succ i => simp [List.set, ih i (by simpa using h)]

theorem setCell_cellAt {gameBoard : Board} {i j c : Nat} (h : cellAt gameBoard i j = c)
    (hc : c ≠ 0) : setCell gameBoard i j c = gameBoard := by
  obtain ⟨hi, hj⟩ := cellAt_inBounds (by rw [h]; exact hc)
  unfold cellAt at h
  unfold setCell
  rw [List.getD_eq_getElem _ _ hi] at h hj ⊢
  rw [List.getD_eq_getElem _ _ hj] at h
  have hrow : (gameBoard[i]).set j c = gameBoard[i] := by
    rw [← h]; exact list_set_getElem _ _ hj
  rw [hrow]
  exact list_set_getElem _ _ hi

/-- Placing a mark on a cell and clearing it again gives back the board, when the
cell was `NONE` before. -/
theorem setCell_restore {gameBoard : Board} {i j : Nat} (mark : Nat)
    (h : cellAt gameBoard i j = Player.NONE.toChar) :
    setCell (setCell gameBoard i j mark) i j Player.NONE.toChar = gameBoard := by
  rw [setCell_setCell]
  exact setCell_cellAt h (by decide)

theorem isGrid_setCell {n : Nat} {gameBoard : Board} (h : IsGrid n gameBoard) (i j c : Nat) :
    IsGrid n (setCell gameBoard i j c) := by
  refine ⟨by rw [length_setCell]; exact h.1, ?_⟩
  intro row hrow
  obtain ⟨k, hk, rfl⟩ := List.getElem_of_mem hrow
  have hk2 : k < gameBoard.length := by rwa [length_setCell] at hk
  have e := rowLength_setCell gameBoard i j c k
  rw [List.getD_eq_getElem _ _ hk, List.getD_eq_getElem _ _ hk2] at e
  rw [e]
  exact h.2 _ (List.getElem_mem hk2)

theorem isGrid_rowLength {n : Nat} {gameBoard : Board} (h : IsGrid n gameBoard) {i : Nat}
    (hi : i < n) : (gameBoard.getD i []).length = n := by
  have hi2 : i < gameBoard.length := by rw [h.1]; exact hi
  rw [List.getD_eq_getElem _ _ hi2]
  exact h.2 _ (List.getElem_mem hi2)

theorem isGrid_inBounds {n : Nat} {gameBoard : Board} (h : IsGrid n gameBoard) {i j : Nat}
    (hc : cellAt gameBoard i j ≠ 0) : i < n ∧ j < n := by
  obtain ⟨hi, hj⟩ := cellAt_inBounds hc
  have hi2 : i < n := by rw [← h.1]; exact hi
  exact ⟨hi2, by rwa [isGrid_rowLength h hi2] at hj⟩

theorem cellAt_eq_getElem {gameBoard : Board} {i j : Nat} (hi : i < gameBoard.length)
    (hj : j < gameBoard[i].length) : cellAt gameBoard i j = gameBoard[i][j] := by
  unfold cellAt
  rw [List.getD_eq_getElem _ _ hi, List.getD_eq_getElem _ _ hj]

theorem hasNone_iff (gameBoard : Board) :
    gameBoard.any (fun row => row.any (fun cell => cell == Player.NONE.toChar)) = true ↔
      ∃ i j, cellAt gameBoard i j = Player.NONE.toChar := by
  constructor
  · intro h
    obtain ⟨row, hrow, h2⟩ := List.any_eq_true.1 h
    obtain ⟨cell, hcell, h3⟩ := List.any_eq_true.1 h2
    obtain ⟨i, hi, rfl⟩ := List.getElem_of_mem hrow
    obtain ⟨j, hj, rfl⟩ := List.getElem_of_mem hcell
    exact ⟨i, j, by rw [cellAt_eq_getElem hi hj]; simpa using h3⟩
  · rintro ⟨i, j, h⟩
    obtain ⟨hi, hj⟩ := cellAt_inBounds (by rw [h]; decide)
    rw [List.getD_eq_getElem _ _ hi] at hj
    rw [cellAt_eq_getElem hi hj] at h
    exact List.any_eq_true.2 ⟨_, List.getElem_mem hi,
      List.any_eq_true.2 ⟨_, List.getElem_mem hj, by simpa using h⟩⟩

theorem isGameOver_eq_true_iff (gridSize : Nat) (gameBoard : Board) :
    isGameOver gridSize gameBoard = true ↔
      (checkWin gridSize .HUMAN gameBoard = true ∨ checkWin gridSize .Machine gameBoard = true ∨
        ¬ ∃ i j, cellAt gameBoard i j = Player.NONE.toChar) := by
  unfold isGameOver
  by_cases hw : (checkWin gridSize .HUMAN gameBoard || checkWin gridSize .Machine gameBoard) = true
  · simp only [hw, if_true, true_iff]
    rcases Bool.or_eq_true _ _ ▸ hw with h | h
    · exact Or.inl h
    · exact Or.inr (Or.inl h)
  · simp only [hw, if_false, Bool.false_eq_true]
    have hw2 := hw
    simp only [Bool.or_eq_true, not_or] at hw2
    by_cases hn : gameBoard.any (fun row => row.any (fun cell => cell == Player.NONE.toChar)) = true
    · simp only [hn, if_true, Bool.false_eq_true, false_iff]
      rintro (h | h | h)
      · exact hw2.1 h
      · exact hw2.2 h
      · exact h ((hasNone_iff _).1 hn)
    · simp only [hn, if_false, Bool.false_eq_true, true_iff]
      exact Or.inr (Or.inr (fun h => hn ((hasNone_iff _).2 h)))

theorem isGameOver_false_hasNone {gridSize : Nat} {gameBoard : Board}
    (h : isGameOver gridSize gameBoard = false) :
    ∃ i j, cellAt gameBoard i j = Player.NONE.toChar := by
  by_contra hn
  have := (isGameOver_eq_true_iff gridSize gameBoard).2 (Or.inr (Or.inr hn))
  rw [h] at this
  exact Bool.false_ne_true this

theorem isGameOver_false_noWin {gridSize : Nat} {gameBoard : Board}
    (h : isGameOver gridSize gameBoard = false) (player : Player) (hp : player ≠ .NONE) :
    checkWin gridSize player gameBoard = false := by
  by_contra hn
  have hw : checkWin gridSize player gameBoard = true := by simpa using hn
  have : isGameOver gridSize gameBoard = true := by
    cases player with
    | Machine => exact (isGameOver_eq_true_iff _ _).2 (Or.inr (Or.inl hw))
    | HUMAN => exact (isGameOver_eq_true_iff _ _).2 (Or.inl hw)
    | NONE => exact absurd rfl hp
  rw [h] at this
  exact Bool.false_ne_true this

/-! ## The scan loop of `miniMax` -/

theorem mem_scanOrder (gameBoard : Board) (i j : Nat) :
    (i, j) ∈ scanOrder gameBoard ↔ i < gameBoard.length ∧ j < (gameBoard.getD i []).length := by
  unfold scanOrder
  simp only [List.mem_flatMap, List.mem_range, List.mem_map, Prod.mk.injEq]
  constructor
  · rintro ⟨a, ha, c, hc, rfl, rfl⟩
    exact ⟨ha, hc⟩
  · rintro ⟨hi, hj⟩
    exact ⟨i, hi, j, hj, rfl, rfl⟩

theorem mem_emptyCells (gameBoard : Board) (i j : Nat) :
    (i, j) ∈ emptyCells gameBoard ↔ cellAt gameBoard i j = Player.NONE.toChar := by
  unfold emptyCells
  simp only [List.mem_filter, mem_scanOrder, beq_iff_eq, and_iff_right_iff_imp]
  intro h
  exact cellAt_inBounds (by rw [h]; decide)

theorem scanOrder_setCell (gameBoard : Board) (i j c : Nat) :
    scanOrder (setCell gameBoard i j c) = scanOrder gameBoard := by
  unfold scanOrder
  rw [length_setCell]
  congr 1
  funext k
  rw [rowLength_setCell]

theorem foldl_miniMaxStep (recurse : Board → Int) (isMachine : Bool) (gameBoard : Board)
    (cells : List (Nat × Nat)) (best : Int) :
    cells.foldl (miniMaxStep recurse isMachine) (gameBoard, best) =
      (gameBoard, bestOf isMachine best
        ((cells.filter (fun pos => cellAt gameBoard pos.1 pos.2 == Player.NONE.toChar)).map
          (fun pos => recurse (setCell gameBoard pos.1 pos.2 (moverMark isMachine))))) := by
  induction cells generalizing best with
  | nil => rfl
  | cons pos cells ih =>
    rw [List.foldl_cons]
    by_cases h : cellAt gameBoard pos.1 pos.2 = Player.NONE.toChar
    · have hstep : miniMaxStep recurse isMachine (gameBoard, best) pos =
          (gameBoard, if isMachine then
              max (recurse (setCell gameBoard pos.1 pos.2 (moverMark isMachine))) best
            else min (recurse (setCell gameBoard pos.1 pos.2 (moverMark isMachine))) best) := by
        unfold miniMaxStep
        simp only [h, if_true, setCell_restore]
      have hf : (pos :: cells).filter
            (fun pos => cellAt gameBoard pos.1 pos.2 == Player.NONE.toChar) =
          pos :: cells.filter (fun pos => cellAt gameBoard pos.1 pos.2 == Player.NONE.toChar) := by
        rw [List.filter_cons]
        simp [h]
      rw [hstep, ih, hf]
      rfl
    · have hstep : miniMaxStep recurse isMachine (gameBoard, best) pos = (gameBoard, best) := by
        unfold miniMaxStep
        simp only [h, if_false]
      have hf : (pos :: cells).filter
            (fun pos => cellAt gameBoard pos.1 pos.2 == Player.NONE.toChar) =
          cells.filter (fun pos => cellAt gameBoard pos.1 pos.2 == Player.NONE.toChar) := by
        rw [List.filter_cons]
        simp [h]
      rw [hstep, ih, hf]

theorem miniMaxScan_eq (recurse : Board → Int) (isMachine : Bool) (gameBoard : Board) :
    miniMaxScan recurse isMachine gameBoard =
      (gameBoard, bestOf isMachine (if isMachine then INT_MIN else INT_MAX)
        ((emptyCells gameBoard).map
          (fun pos => recurse (setCell gameBoard pos.1 pos.2 (moverMark isMachine))))) := by
  unfold miniMaxScan emptyCells
  exact foldl_miniMaxStep recurse isMachine gameBoard _ _

theorem bestOf_max (init : Int) (scores : List Int) :
    init ≤ bestOf true init scores ∧ (∀ v ∈ scores, v ≤ bestOf true init scores) ∧
      (bestOf true init scores = init ∨ bestOf true init scores ∈ scores) := by
  induction scores generalizing init with
  | nil => simp [bestOf]
  | cons v scores ih =>
    have e : bestOf true init (v :: scores) = bestOf true (max v init) scores := by
      simp [bestOf]
    obtain ⟨h1, h2, h3⟩ := ih (max v init)
    rw [e]
    refine ⟨le_trans (le_max_right v init) h1, ?_, ?_⟩
    · intro w hw
      rcases List.mem_cons.1 hw with rfl | hw
      · exact le_trans (le_max_left _ init) h1
      · exact h2 w hw
    · rcases h3 with h3 | h3
      · rcases max_choice v init with hm | hm
        · right; rw [h3, hm]; exact List.mem_cons_self _ _
        · left; rw [h3, hm]
      · right; exact List.mem_cons_of_mem _ h3

theorem bestOf_min (init : Int) (scores : List Int) :
    bestOf false init scores ≤ init ∧ (∀ v ∈ scores, bestOf false init scores ≤ v) ∧
      (bestOf false init scores = init ∨ bestOf false init scores ∈ scores) := by
  induction scores generalizing init with
  | nil => simp [bestOf]
  | cons v scores ih =>
    have e : bestOf false init (v :: scores) = bestOf false (min v init) scores := by
      simp [bestOf]
    obtain ⟨h1, h2, h3⟩ := ih (min v init)
    rw [e]
    refine ⟨le_trans h1 (min_le_right v init), ?_, ?_⟩
    · intro w hw
      rcases List.mem_cons.1 hw with rfl | hw
      · exact le_trans h1 (min_le_left _ init)
      · exact h2 w hw
    · rcases h3 with h3 | h3
      · rcases min_choice v init with hm | hm
        · right; rw [h3, hm]; exact List.mem_cons_self _ _
        · left; rw [h3, hm]
      · right; exact List.mem_cons_of_mem _ h3

/-! ## Unfolding `miniMax` -/

theorem toInt_range (state : HumanState) : -1 ≤ state.toInt ∧ state.toInt ≤ 1 := by
  cases state <;> simp [HumanState.toInt]

theorem miniMaxAux_succ (gridSize fuel : Nat) (gameBoard : Board) (depth : Int)
    (isMachine : Bool) :
    miniMaxAux gridSize (fuel + 1) gameBoard depth isMachine =
      if isGameOver gridSize gameBoard then (calculateScore gridSize gameBoard).toInt
      else bestOf isMachine (if isMachine then INT_MIN else INT_MAX)
        ((emptyCells gameBoard).map (fun pos =>
          miniMaxAux gridSize fuel (setCell gameBoard pos.1 pos.2 (moverMark isMachine))
            (depth + 1) (!isMachine))) := by
  show (if isGameOver gridSize gameBoard then (calculateScore gridSize gameBoard).toInt
    else (miniMaxScan (fun b => miniMaxAux gridSize fuel b (depth + 1) (!isMachine))
      isMachine gameBoard).2) = _
  rw [miniMaxScan_eq]

theorem emptyCells_ne_nil {gridSize : Nat} {gameBoard : Board}
    (h : isGameOver gridSize gameBoard = false) : emptyCells gameBoard ≠ [] := by
  obtain ⟨i, j, hc⟩ := isGameOver_false_hasNone h
  intro e
  have := (mem_emptyCells gameBoard i j).2 hc
  rw [e] at this
  exact List.not_mem_nil _ this

theorem miniMaxAux_range (gridSize fuel : Nat) (gameBoard : Board) (depth : Int)
    (isMachine : Bool) :
    -1 ≤ miniMaxAux gridSize fuel gameBoard depth isMachine ∧
      miniMaxAux gridSize fuel gameBoard depth isMachine ≤ 1 := by
  induction fuel generalizing gameBoard depth isMachine with
  | zero => simp [miniMaxAux]
  | succ fuel ih =>
    rw [miniMaxAux_succ]
    by_cases hover : isGameOver gridSize gameBoard = true
    · simp only [hover, if_true]
      exact toInt_range _
    · have hover2 : isGameOver gridSize gameBoard = false := by simpa using hover
      simp only [hover2, Bool.false_eq_true, if_false]
      obtain ⟨pos, hpos⟩ := List.exists_mem_of_ne_nil _ (emptyCells_ne_nil hover2)
      have hin : ∀ v ∈ (emptyCells gameBoard).map (fun pos =>
          miniMaxAux gridSize fuel (setCell gameBoard pos.1 pos.2 (moverMark isMachine))
            (depth + 1) (!isMachine)), -1 ≤ v ∧ v ≤ 1 := by
        intro v hv
        obtain ⟨q, _, rfl⟩ := List.mem_map.1 hv
        exact ih _ _ _
      have hmem := List.mem_map_of_mem (fun pos =>
          miniMaxAux gridSize fuel (setCell gameBoard pos.1 pos.2 (moverMark isMachine))
            (depth + 1) (!isMachine)) hpos
      cases isMachine with
      | true =>
        obtain ⟨_, h2, h3⟩ := bestOf_max INT_MIN ((emptyCells gameBoard).map (fun pos =>
          miniMaxAux gridSize fuel (setCell gameBoard pos.1 pos.2 (moverMark true))
            (depth + 1) (!true)))
        simp only [if_true]
        rcases h3 with h3 | h3
        · have := h2 _ hmem
          have := (hin _ hmem).1
          rw [h3] at *
          unfold INT_MIN at *
          omega
        · exact hin _ h3
      | false =>
        obtain ⟨_, h2, h3⟩ := bestOf_min INT_MAX ((emptyCells gameBoard).map (fun pos =>
          miniMaxAux gridSize fuel (setCell gameBoard pos.1 pos.2 (moverMark false))
            (depth + 1) (!false)))
        simp only [Bool.false_eq_true, if_false]
        rcases h3 with h3 | h3
        · have := h2 _ hmem
          have := (hin _ hmem).2
          rw [h3] at *
          unfold INT_MAX at *
          omega
        · exact hin _ h3

theorem miniMaxAux_depth (gridSize fuel : Nat) (gameBoard : Board) (d1 d2 : Int)
    (isMachine : Bool) :
    miniMaxAux gridSize fuel gameBoard d1 isMachine =
      miniMaxAux gridSize fuel gameBoard d2 isMachine := by
  induction fuel generalizing gameBoard d1 d2 isMachine with
  | zero => rfl
  | succ fuel ih =>
    rw [miniMaxAux_succ, miniMaxAux_succ]
    have e : (fun pos : Nat × Nat =>
          miniMaxAux gridSize fuel (setCell gameBoard pos.1 pos.2 (moverMark isMachine))
            (d1 + 1) (!isMachine)) =
        (fun pos : Nat × Nat =>
          miniMaxAux gridSize fuel (setCell gameBoard pos.1 pos.2 (moverMark isMachine))
            (d2 + 1) (!isMachine)) := by
      funext pos
      exact ih _ _ _ _
    rw [e]

/-! ## Counting `NONE` cells -/

theorem count_set_add (row : List Nat) (j c a : Nat) (hj : j < row.length) :
    (row.set j c).count a + (if row[j] = a then 1 else 0) =
      row.count a + (if c = a then 1 else 0) := by
  induction row generalizing j with
  | nil => simp at hj
  | cons x row ih =>
    cases j with
    | zero =>
      simp only [List.set_cons_zero, List.count_cons, List.getElem_cons_zero, beq_iff_eq]
      omega
    | succ j =>
      have := ih j (by simpa using hj)
      simp only [List.set_cons_succ, List.count_cons, List.getElem_cons_succ, beq_iff_eq]
      omega

theorem sum_map_set (f : List Nat → Nat) (rows : List (List Nat)) (i : Nat) (row : List Nat)
    (hi : i < rows.length) :
    ((rows.set i row).map f).sum + f rows[i] = (rows.map f).sum + f row := by
  induction rows generalizing i with
  | nil => simp at hi
  | cons x rows ih =>
    cases i with
    | zero =>
      simp only [List.set_cons_zero, List.map_cons, List.sum_cons, List.getElem_cons_zero]
      omega
    | succ i =>
      have := ih i (by simpa using hi)
      simp only [List.set_cons_succ, List.map_cons, List.sum_cons, List.getElem_cons_succ]
      omega

theorem countNone_setCell {gameBoard : Board} {i j : Nat} (c : Nat)
    (h : cellAt gameBoard i j = Player.NONE.toChar) (hc : c ≠ Player.NONE.toChar) :
    countNone (setCell gameBoard i j c) + 1 = countNone gameBoard := by
  obtain ⟨hi, hj⟩ := cellAt_inBounds (by rw [h]; decide)
  rw [List.getD_eq_getElem _ _ hi] at hj
  rw [cellAt_eq_getElem hi hj] at h
  unfold countNone setCell
  rw [List.getD_eq_getElem _ _ hi]
  have h1 := sum_map_set (fun row => row.count Player.NONE.toChar) gameBoard i
    (gameBoard[i].set j c) hi
  have h2 := count_set_add gameBoard[i] j c Player.NONE.toChar hj
  simp only [h, if_true, hc, if_false] at h2
  simp only at h1
  omega

theorem miniMaxAux_fuel (gridSize : Nat) (fuel1 fuel2 : Nat) (gameBoard : Board) (depth : Int)
    (isMachine : Bool) (h1 : countNone gameBoard < fuel1) (h2 : countNone gameBoard < fuel2) :
    miniMaxAux gridSize fuel1 gameBoard depth isMachine =
      miniMaxAux gridSize fuel2 gameBoard depth isMachine := by
  induction fuel1 generalizing fuel2 gameBoard depth isMachine with
  | zero => omega
  | succ fuel1 ih =>
    cases fuel2 with
    | zero => omega
    | succ fuel2 =>
      rw [miniMaxAux_succ, miniMaxAux_succ]
      have e : (emptyCells gameBoard).map (fun pos =>
            miniMaxAux gridSize fuel1 (setCell gameBoard pos.1 pos.2 (moverMark isMachine))
              (depth + 1) (!isMachine)) =
          (emptyCells gameBoard).map (fun pos =>
            miniMaxAux gridSize fuel2 (setCell gameBoard pos.1 pos.2 (moverMark isMachine))
              (depth + 1) (!isMachine)) := by
        apply List.map_congr_left
        intro pos hpos
        have hc := (mem_emptyCells gameBoard pos.1 pos.2).1 hpos
        have hm : moverMark isMachine ≠ Player.NONE.toChar := by
          cases isMachine <;> decide
        have hcount := countNone_setCell (moverMark isMachine) hc hm
        exact ih _ _ _ _ (by omega) (by omega)
      rw [e]

theorem moverMark_ne_none (isMachine : Bool) : moverMark isMachine ≠ Player.NONE.toChar := by
  cases isMachine <;> decide

theorem miniMax_terminal (gridSize : Nat) (gameBoard : Board) (depth : Int) (isMachine : Bool)
    (h : isGameOver gridSize gameBoard = true) :
    miniMax gridSize gameBoard depth isMachine = (calculateScore gridSize gameBoard).toInt := by
  unfold miniMax
  rw [miniMaxAux_succ]
  simp only [h, if_true]

theorem miniMax_step (gridSize : Nat) (gameBoard : Board) (depth : Int) (isMachine : Bool)
    (h : isGameOver gridSize gameBoard = false) :
    miniMax gridSize gameBoard depth isMachine =
      bestOf isMachine (if isMachine then INT_MIN else INT_MAX)
        ((emptyCells gameBoard).map (fun pos =>
          miniMax gridSize (setCell gameBoard pos.1 pos.2 (moverMark isMachine))
            (depth + 1) (!isMachine))) := by
  unfold miniMax
  rw [miniMaxAux_succ]
  simp only [h, Bool.false_eq_true, if_false]
  congr 1
  apply List.map_congr_left
  intro pos hpos
  have hc := (mem_emptyCells gameBoard pos.1 pos.2).1 hpos
  have hcount := countNone_setCell (moverMark isMachine) hc (moverMark_ne_none isMachine)
  rw [← hcount]

theorem miniMax_depth (gridSize : Nat) (gameBoard : Board) (d1 d2 : Int) (isMachine : Bool) :
    miniMax gridSize gameBoard d1 isMachine = miniMax gridSize gameBoard d2 isMachine :=
  miniMaxAux_depth _ _ _ _ _ _

theorem miniMax_range (gridSize : Nat) (gameBoard : Board) (depth : Int) (isMachine : Bool) :
    -1 ≤ miniMax gridSize gameBoard depth isMachine ∧
      miniMax gridSize gameBoard depth isMachine ≤ 1 :=
  miniMaxAux_range _ _ _ _ _

theorem miniMax_max (gridSize : Nat) (gameBoard : Board) (depth : Int)
    (h : isGameOver gridSize gameBoard = false) :
    (∃ i j, cellAt gameBoard i j = Player.NONE.toChar ∧
      miniMax gridSize gameBoard depth true =
        miniMax gridSize (setCell gameBoard i j Player.Machine.toChar) (depth + 1) false) ∧
    (∀ i j, cellAt gameBoard i j = Player.NONE.toChar →
      miniMax gridSize (setCell gameBoard i j Player.Machine.toChar) (depth + 1) false ≤
        miniMax gridSize gameBoard depth true) := by
  have hstep := miniMax_step gridSize gameBoard depth true h
  simp only [if_true, Bool.not_true] at hstep
  obtain ⟨_, h2, h3⟩ := bestOf_max INT_MIN ((emptyCells gameBoard).map (fun pos =>
    miniMax gridSize (setCell gameBoard pos.1 pos.2 (moverMark true)) (depth + 1) false))
  rw [← hstep] at h2 h3
  have hall : ∀ i j, cellAt gameBoard i j = Player.NONE.toChar →
      miniMax gridSize (setCell gameBoard i j Player.Machine.toChar) (depth + 1) false ≤
        miniMax gridSize gameBoard depth true := by
    intro i j hc
    exact h2 _ (List.mem_map.2 ⟨(i, j), (mem_emptyCells gameBoard i j).2 hc, rfl⟩)
  refine ⟨?_, hall⟩
  rcases h3 with h3 | h3
  · obtain ⟨i, j, hc⟩ := isGameOver_false_hasNone h
    have hle := hall i j hc
    have hlow := (miniMax_range gridSize (setCell gameBoard i j Player.Machine.toChar)
      (depth + 1) false).1
    rw [h3] at hle
    unfold INT_MIN at hle
    omega
  · obtain ⟨pos, hpos, e⟩ := List.mem_map.1 h3
    exact ⟨pos.1, pos.2, (mem_emptyCells gameBoard pos.1 pos.2).1 hpos, e.symm⟩

theorem miniMax_min (gridSize : Nat) (gameBoard : Board) (depth : Int)
    (h : isGameOver gridSize gameBoard = false) :
    (∃ i j, cellAt gameBoard i j = Player.NONE.toChar ∧
      miniMax gridSize gameBoard depth false =
        miniMax gridSize (setCell gameBoard i j Player.HUMAN.toChar) (depth + 1) true) ∧
    (∀ i j, cellAt gameBoard i j = Player.NONE.toChar →
      miniMax gridSize gameBoard depth false ≤
        miniMax gridSize (setCell gameBoard i j Player.HUMAN.toChar) (depth + 1) true) := by
  have hstep := miniMax_step gridSize gameBoard depth false h
  simp only [Bool.false_eq_true, if_false, Bool.not_false] at hstep
  obtain ⟨_, h2, h3⟩ := bestOf_min INT_MAX ((emptyCells gameBoard).map (fun pos =>
    miniMax gridSize (setCell gameBoard pos.1 pos.2 (moverMark false)) (depth + 1) true))
  rw [← hstep] at h2 h3
  have hall : ∀ i j, cellAt gameBoard i j = Player.NONE.toChar →
      miniMax gridSize gameBoard depth false ≤
        miniMax gridSize (setCell gameBoard i j Player.HUMAN.toChar) (depth + 1) true := by
    intro i j hc
    exact h2 _ (List.mem_map.2 ⟨(i, j), (mem_emptyCells gameBoard i j).2 hc, rfl⟩)
  refine ⟨?_, hall⟩
  rcases h3 with h3 | h3
  · obtain ⟨i, j, hc⟩ := isGameOver_false_hasNone h
    have hle := hall i j hc
    have hup := (miniMax_range gridSize (setCell gameBoard i j Player.HUMAN.toChar)
      (depth + 1) true).2
    rw [h3] at hle
    unfold INT_MAX at hle
    omega
  · obtain ⟨pos, hpos, e⟩ := List.mem_map.1 h3
    exact ⟨pos.1, pos.2, (mem_emptyCells gameBoard pos.1 pos.2).1 hpos, e.symm⟩

/-! ## The root scan -/

theorem mem_gridOrder (gridSize i j : Nat) :
    (i, j) ∈ gridOrder gridSize ↔ i < gridSize ∧ j < gridSize := by
  unfold gridOrder
  simp only [List.mem_flatMap, List.mem_range, List.mem_map, Prod.mk.injEq]
  constructor
  · rintro ⟨a, ha, c, hc, rfl, rfl⟩
    exact ⟨ha, hc⟩
  · rintro ⟨hi, hj⟩
    exact ⟨i, hi, j, hj, rfl, rfl⟩

theorem foldl_rootStep (gridSize mark : Nat) (board : Board) (cells : List (Nat × Nat))
    (best : Int) (move : Int × Int) :
    cells.foldl (rootStep gridSize mark) { board := board, bestScore := best, bestMove := move } =
      { board := board,
        bestScore := (pickBest (fun pos => miniMax gridSize (setCell board pos.1 pos.2 mark) 0 false)
          (best, move)
          (cells.filter (fun pos => cellAt board pos.1 pos.2 == Player.NONE.toChar))).1,
        bestMove := (pickBest (fun pos => miniMax gridSize (setCell board pos.1 pos.2 mark) 0 false)
          (best, move)
          (cells.filter (fun pos => cellAt board pos.1 pos.2 == Player.NONE.toChar))).2 } := by
  induction cells generalizing best move with
  | nil => rfl
  | cons pos cells ih =>
    rw [List.foldl_cons]
    by_cases h : cellAt board pos.1 pos.2 = Player.NONE.toChar
    · have hf : (pos :: cells).filter
            (fun pos => cellAt board pos.1 pos.2 == Player.NONE.toChar) =
          pos :: cells.filter (fun pos => cellAt board pos.1 pos.2 == Player.NONE.toChar) := by
        rw [List.filter_cons]
        simp [h]
      rw [hf]
      by_cases hs : miniMax gridSize (setCell board pos.1 pos.2 mark) 0 false > best
      · have hstep : rootStep gridSize mark
              { board := board, bestScore := best, bestMove := move } pos =
            { board := board,
              bestScore := miniMax gridSize (setCell board pos.1 pos.2 mark) 0 false,
              bestMove := ((pos.1 : Int), (pos.2 : Int)) } := by
          unfold rootStep
          simp only [h, if_true, setCell_restore, hs]
        rw [hstep, ih]
        simp only [pickBest, List.foldl_cons, hs, if_true]
      · have hstep : rootStep gridSize mark
              { board := board, bestScore := best, bestMove := move } pos =
            { board := board, bestScore := best, bestMove := move } := by
          unfold rootStep
          simp only [h, if_true, setCell_restore, hs, if_false]
        rw [hstep, ih]
        simp only [pickBest, List.foldl_cons, hs, if_false]
    · have hf : (pos :: cells).filter
            (fun pos => cellAt board pos.1 pos.2 == Player.NONE.toChar) =
          cells.filter (fun pos => cellAt board pos.1 pos.2 == Player.NONE.toChar) := by
        rw [List.filter_cons]
        simp [h]
      have hstep : rootStep gridSize mark
            { board := board, bestScore := best, bestMove := move } pos =
          { board := board, bestScore := best, bestMove := move } := by
        unfold rootStep
        simp only [h, if_false]
      rw [hstep, ih, hf]

theorem rootScan_eq (gridSize mark : Nat) (board : Board) :
    rootScan gridSize mark board =
      { board := board,
        bestScore := (pickBest (fun pos => miniMax gridSize (setCell board pos.1 pos.2 mark) 0 false)
          (INT_MIN, (-1, -1)) (availableMoves gridSize board)).1,
        bestMove := (pickBest (fun pos => miniMax gridSize (setCell board pos.1 pos.2 mark) 0 false)
          (INT_MIN, (-1, -1)) (availableMoves gridSize board)).2 } := by
  unfold rootScan availableMoves
  exact foldl_rootStep gridSize mark board _ _ _

theorem pickBest_spec (score : Nat × Nat → Int) (cells : List (Nat × Nat))
    (init : Int × (Int × Int)) :
    (pickBest score init cells = init ∧ ∀ q ∈ cells, score q ≤ init.1) ∨
    (∃ pre pos post, cells = pre ++ pos :: post ∧
      pickBest score init cells = (score pos, ((pos.1 : Int), (pos.2 : Int))) ∧
      init.1 < score pos ∧ (∀ q ∈ pre, score q < score pos) ∧
      (∀ q ∈ post, score q ≤ score pos)) := by
  induction cells generalizing init with
  | nil => left; exact ⟨rfl, fun q hq => absurd hq (List.not_mem_nil q)⟩
  | cons p cells ih =>
    by_cases hs : score p > init.1
    · have e : pickBest score init (p :: cells) =
          pickBest score (score p, ((p.1 : Int), (p.2 : Int))) cells := by
        simp only [pickBest, List.foldl_cons, hs, if_true]
      rw [e]
      right
      rcases ih (score p, ((p.1 : Int), (p.2 : Int))) with ⟨h1, h2⟩ | ⟨pre, pos, post, h1, h2, h3, h4, h5⟩
      · exact ⟨[], p, cells, rfl, h1, hs, fun q hq => absurd hq (List.not_mem_nil q), h2⟩
      · refine ⟨p :: pre, pos, post, by rw [h1]; rfl, h2, lt_trans hs h3, ?_, h5⟩
        intro q hq
        rcases List.mem_cons.1 hq with rfl | hq
        · exact h3
        · exact h4 q hq
    · have e : pickBest score init (p :: cells) = pickBest score init cells := by
        simp only [pickBest, List.foldl_cons, hs, if_false]
      rw [e]
      have hle : score p ≤ init.1 := not_lt.1 hs
      rcases ih init with ⟨h1, h2⟩ | ⟨pre, pos, post, h1, h2, h3, h4, h5⟩
      · left
        refine ⟨h1, ?_⟩
        intro q hq
        rcases List.mem_cons.1 hq with rfl | hq
        · exact hle
        · exact h2 q hq
      · right
        refine ⟨p :: pre, pos, post, by rw [h1]; rfl, h2, h3, ?_, h5⟩
        intro q hq
        rcases List.mem_cons.1 hq with rfl | hq
        · exact lt_of_le_of_lt hle h3
        · exact h4 q hq

theorem mem_availableMoves (gridSize : Nat) (board : Board) (i j : Nat) :
    (i, j) ∈ availableMoves gridSize board ↔
      (i < gridSize ∧ j < gridSize) ∧ cellAt board i j = Player.NONE.toChar := by
  unfold availableMoves
  simp only [List.mem_filter, mem_gridOrder, beq_iff_eq]

theorem gridOrder_three_sorted : (gridOrder 3).Pairwise Precedes := by
  decide

theorem availableMoves_three_sorted (board : Board) :
    (availableMoves 3 board).Pairwise Precedes :=
  List.Pairwise.sublist (List.filter_sublist _) gridOrder_three_sorted

/-- The outcome of a root scan on a 3 × 3 board with a `NONE` cell: the scan leaves the
board as it was and ends with `bestMove` on the first `NONE` cell, in row-major order,
of maximal score. -/
theorem rootScan_three (mark : Nat) (board : Board) (hgrid : IsGrid 3 board)
    (hnone : ∃ i j, cellAt board i j = Player.NONE.toChar) :
    ∃ i j, i < 3 ∧ j < 3 ∧ cellAt board i j = Player.NONE.toChar ∧
      rootScan 3 mark board =
        { board := board, bestScore := miniMax 3 (setCell board i j mark) 0 false,
          bestMove := ((i : Int), (j : Int)) } ∧
      (∀ k l, cellAt board k l = Player.NONE.toChar →
        miniMax 3 (setCell board k l mark) 0 false ≤
          miniMax 3 (setCell board i j mark) 0 false) ∧
      (∀ k l, cellAt board k l = Player.NONE.toChar → Precedes (k, l) (i, j) →
        miniMax 3 (setCell board k l mark) 0 false <
          miniMax 3 (setCell board i j mark) 0 false) := by
  obtain ⟨i0, j0, h0⟩ := hnone
  have hb0 := isGrid_inBounds hgrid (i := i0) (j := j0) (by rw [h0]; decide)
  have hmem0 := (mem_availableMoves 3 board i0 j0).2 ⟨hb0, h0⟩
  have hsorted := availableMoves_three_sorted board
  rcases pickBest_spec (fun pos => miniMax 3 (setCell board pos.1 pos.2 mark) 0 false)
      (availableMoves 3 board) (INT_MIN, (-1, -1)) with
    ⟨_, h2⟩ | ⟨pre, pos, post, h1, h2, _, h4, h5⟩
  · exfalso
    have hle := h2 _ hmem0
    have hlow := (miniMax_range 3 (setCell board i0 j0 mark) 0 false).1
    simp only [INT_MIN] at hle
    omega
  · have hposmem : pos ∈ availableMoves 3 board := by
      rw [h1]; exact List.mem_append_right _ (List.mem_cons_self _ _)
    obtain ⟨⟨hi, hj⟩, hc⟩ := (mem_availableMoves 3 board pos.1 pos.2).1 hposmem
    have h4b : ∀ q ∈ pre, miniMax 3 (setCell board q.1 q.2 mark) 0 false <
        miniMax 3 (setCell board pos.1 pos.2 mark) 0 false := h4
    have h5b : ∀ q ∈ post, miniMax 3 (setCell board q.1 q.2 mark) 0 false ≤
        miniMax 3 (setCell board pos.1 pos.2 mark) 0 false := h5
    refine ⟨pos.1, pos.2, hi, hj, hc, ?_, ?_, ?_⟩
    · rw [rootScan_eq, h2]
    · intro k l hkl
      have hb := isGrid_inBounds hgrid (i := k) (j := l) (by rw [hkl]; decide)
      have hmem := (mem_availableMoves 3 board k l).2 ⟨hb, hkl⟩
      rw [h1] at hmem
      rcases List.mem_append.1 hmem with hm | hm
      · exact le_of_lt (h4b (k, l) hm)
      · rcases List.mem_cons.1 hm with hm | hm
        · have hk : k = pos.1 := congrArg Prod.fst hm
          have hl : l = pos.2 := congrArg Prod.snd hm
          rw [hk, hl]
        · exact h5b (k, l) hm
    · intro k l hkl hprec
      have hb := isGrid_inBounds hgrid (i := k) (j := l) (by rw [hkl]; decide)
      have hmem := (mem_availableMoves 3 board k l).2 ⟨hb, hkl⟩
      rw [h1] at hmem hsorted
      rcases List.mem_append.1 hmem with hm | hm
      · exact h4b (k, l) hm
      · exfalso
        have hsorted2 := (List.pairwise_append.1 hsorted).2.1
        rcases List.mem_cons.1 hm with hm | hm
        · have hk : k = pos.1 := congrArg Prod.fst hm
          have hl : l = pos.2 := congrArg Prod.snd hm
          unfold Precedes at hprec
          simp only at hprec
          omega
        · have hlt : Precedes pos (k, l) := (List.pairwise_cons.1 hsorted2).1 _ hm
          unfold Precedes at hprec hlt
          simp only at hprec hlt
          omega

/-! ## The board evaluator (C1, C2, C3) -/

/-- C1. On an `N × N` board, `checkWin(player, board)` is true exactly when `player`
fills some row, or some column, or the main diagonal, or the anti-diagonal; no other
pattern makes it true.  (It holds for every `N` and every enumerator of `Player`.) -/
theorem checkWin_true_iff_line (N : Nat) (player : Player) (gameBoard : Board)
    (hgrid : IsGrid N gameBoard) :
    checkWin N player gameBoard = true ↔
      ((∃ i, i < N ∧ ∀ j, j < N → cellAt gameBoard i j = player.toChar) ∨
       (∃ j, j < N ∧ ∀ i, i < N → cellAt gameBoard i j = player.toChar) ∨
       (∀ i, i < N → cellAt gameBoard i i = player.toChar) ∨
       (∀ i, i < N → cellAt gameBoard i (N - 1 - i) = player.toChar)) := by
  have _ := hgrid
  exact checkWin_iff N player gameBoard

/-- Witness of C1 on the 3 × 3 board whose top row is filled by the human. -/
theorem checkWin_true_iff_line_witness :
    IsGrid 3 [[88, 88, 88], [79, 79, 32], [32, 32, 32]] ∧
    (checkWin 3 .HUMAN [[88, 88, 88], [79, 79, 32], [32, 32, 32]] = true ↔
      ((∃ i, i < 3 ∧ ∀ j, j < 3 →
          cellAt [[88, 88, 88], [79, 79, 32], [32, 32, 32]] i j = Player.HUMAN.toChar) ∨
       (∃ j, j < 3 ∧ ∀ i, i < 3 →
          cellAt [[88, 88, 88], [79, 79, 32], [32, 32, 32]] i j = Player.HUMAN.toChar) ∨
       (∀ i, i < 3 →
          cellAt [[88, 88, 88], [79, 79, 32], [32, 32, 32]] i i = Player.HUMAN.toChar) ∨
       (∀ i, i < 3 →
          cellAt [[88, 88, 88], [79, 79, 32], [32, 32, 32]] i (3 - 1 - i) =
            Player.HUMAN.toChar))) :=
  ⟨by decide, checkWin_true_iff_line 3 .HUMAN _ (by decide)⟩

/-- C2. On an `N × N` board, `isGameOver(board)` is true exactly when `checkWin` holds
for the human or for the machine, or no cell of the board is `NONE`; in particular a
completed line ends the game even when `NONE` cells remain. -/
theorem isGameOver_true_iff (N : Nat) (gameBoard : Board) (hgrid : IsGrid N gameBoard) :
    (isGameOver N gameBoard = true ↔
      (checkWin N .HUMAN gameBoard = true ∨ checkWin N .Machine gameBoard = true ∨
        ∀ i j, i < N → j < N → cellAt gameBoard i j ≠ Player.NONE.toChar)) ∧
    (∀ player, player ≠ Player.NONE → checkWin N player gameBoard = true →
      isGameOver N gameBoard = true) := by
  have key : (¬ ∃ i j, cellAt gameBoard i j = Player.NONE.toChar) ↔
      ∀ i j, i < N → j < N → cellAt gameBoard i j ≠ Player.NONE.toChar := by
    constructor
    · intro h i j _ _ e
      exact h ⟨i, j, e⟩
    · rintro h ⟨i, j, e⟩
      obtain ⟨hi, hj⟩ := isGrid_inBounds hgrid (i := i) (j := j) (by rw [e]; decide)
      exact h i j hi hj e
  refine ⟨by rw [isGameOver_eq_true_iff, key], ?_⟩
  intro player hp hw
  by_contra hn
  have hf : isGameOver N gameBoard = false := by simpa using hn
  rw [isGameOver_false_noWin hf player hp] at hw
  exact Bool.false_ne_true hw

/-- Witness of C2 on a 3 × 3 board with a completed human row and `NONE` cells left. -/
theorem isGameOver_true_iff_witness :
    IsGrid 3 [[88, 88, 88], [79, 79, 32], [32, 32, 32]] ∧
    ((isGameOver 3 [[88, 88, 88], [79, 79, 32], [32, 32, 32]] = true ↔
      (checkWin 3 .HUMAN [[88, 88, 88], [79, 79, 32], [32, 32, 32]] = true ∨
        checkWin 3 .Machine [[88, 88, 88], [79, 79, 32], [32, 32, 32]] = true ∨
        ∀ i j, i < 3 → j < 3 →
          cellAt [[88, 88, 88], [79, 79, 32], [32, 32, 32]] i j ≠ Player.NONE.toChar)) ∧
    (∀ player, player ≠ Player.NONE →
      checkWin 3 player [[88, 88, 88], [79, 79, 32], [32, 32, 32]] = true →
      isGameOver 3 [[88, 88, 88], [79, 79, 32], [32, 32, 32]] = true)) :=
  ⟨by decide, isGameOver_true_iff 3 _ (by decide)⟩

/-- C3. `calculateScore` (reference player: the human) returns `WIN` exactly when the
human has a completed line, `LOSE` exactly when the machine has one and the human has
none, and `TIE` exactly when neither has one; when both have a line the human's line
takes priority and the result is `WIN`. -/
theorem calculateScore_cases (N : Nat) (gameBoard : Board) :
    (calculateScore N gameBoard = HumanState.WIN ↔ checkWin N .HUMAN gameBoard = true) ∧
    (calculateScore N gameBoard = HumanState.LOSE ↔
      (checkWin N .Machine gameBoard = true ∧ checkWin N .HUMAN gameBoard = false)) ∧
    (calculateScore N gameBoard = HumanState.TIE ↔
      (checkWin N .HUMAN gameBoard = false ∧ checkWin N .Machine gameBoard = false)) ∧
    (checkWin N .HUMAN gameBoard = true → checkWin N .Machine gameBoard = true →
      calculateScore N gameBoard = HumanState.WIN) := by
  unfold calculateScore
  cases checkWin N .HUMAN gameBoard <;> cases checkWin N .Machine gameBoard <;> simp

/-! ## The recursion of `miniMax` (C4, C5) -/

/-- C4. On a non-terminal `N × N` board, for every depth, `miniMax(board, depth, true)`
is the maximum over the `NONE` cells `(i, j)` of `miniMax(board with Machine at (i, j),
depth + 1, false)` (it is attained at some `NONE` cell and no `NONE` cell exceeds it),
and `miniMax(board, depth, false)` is the minimum over the `NONE` cells of
`miniMax(board with HUMAN at (i, j), depth + 1, true)`; on a terminal board `miniMax`
is the integer value of `calculateScore(board)`. -/
theorem miniMax_recursion (N : Nat) (gameBoard : Board) (depth : Int)
    (hgrid : IsGrid N gameBoard) :
    (isGameOver N gameBoard = false →
      ((∃ i j, i < N ∧ j < N ∧ cellAt gameBoard i j = Player.NONE.toChar ∧
          miniMax N gameBoard depth true =
            miniMax N (setCell gameBoard i j Player.Machine.toChar) (depth + 1) false) ∧
        (∀ i j, i < N → j < N → cellAt gameBoard i j = Player.NONE.toChar →
          miniMax N (setCell gameBoard i j Player.Machine.toChar) (depth + 1) false ≤
            miniMax N gameBoard depth true)) ∧
      ((∃ i j, i < N ∧ j < N ∧ cellAt gameBoard i j = Player.NONE.toChar ∧
          miniMax N gameBoard depth false =
            miniMax N (setCell gameBoard i j Player.HUMAN.toChar) (depth + 1) true) ∧
        (∀ i j, i < N → j < N → cellAt gameBoard i j = Player.NONE.toChar →
          miniMax N gameBoard depth false ≤
            miniMax N (setCell gameBoard i j Player.HUMAN.toChar) (depth + 1) true))) ∧
    (isGameOver N gameBoard = true → ∀ isMachine,
      miniMax N gameBoard depth isMachine = (calculateScore N gameBoard).toInt) := by
  refine ⟨fun h => ⟨⟨?_, ?_⟩, ⟨?_, ?_⟩⟩, fun h isMachine => miniMax_terminal N _ _ _ h⟩
  · obtain ⟨i, j, hc, e⟩ := (miniMax_max N gameBoard depth h).1
    obtain ⟨hi, hj⟩ := isGrid_inBounds hgrid (i := i) (j := j) (by rw [hc]; decide)
    exact ⟨i, j, hi, hj, hc, e⟩
  · intro i j _ _ hc
    exact (miniMax_max N gameBoard depth h).2 i j hc
  · obtain ⟨i, j, hc, e⟩ := (miniMax_min N gameBoard depth h).1
    obtain ⟨hi, hj⟩ := isGrid_inBounds hgrid (i := i) (j := j) (by rw [hc]; decide)
    exact ⟨i, j, hi, hj, hc, e⟩
  · intro i j _ _ hc
    exact (miniMax_min N gameBoard depth h).2 i j hc

/-- Witness of C4 on a non-terminal 3 × 3 board with two `NONE` cells. -/
theorem miniMax_recursion_witness :
    IsGrid 3 [[88, 79, 88], [79, 79, 88], [88, 32, 32]] ∧
    isGameOver 3 [[88, 79, 88], [79, 79, 88], [88, 32, 32]] = false ∧
    ((∃ i j, i < 3 ∧ j < 3 ∧
          cellAt [[88, 79, 88], [79, 79, 88], [88, 32, 32]] i j = Player.NONE.toChar ∧
          miniMax 3 [[88, 79, 88], [79, 79, 88], [88, 32, 32]] 0 true =
            miniMax 3 (setCell [[88, 79, 88], [79, 79, 88], [88, 32, 32]] i j
              Player.Machine.toChar) (0 + 1) false) ∧
        (∀ i j, i < 3 → j < 3 →
          cellAt [[88, 79, 88], [79, 79, 88], [88, 32, 32]] i j = Player.NONE.toChar →
          miniMax 3 (setCell [[88, 79, 88], [79, 79, 88], [88, 32, 32]] i j
              Player.Machine.toChar) (0 + 1) false ≤
            miniMax 3 [[88, 79, 88], [79, 79, 88], [88, 32, 32]] 0 true)) :=
  ⟨by decide, by decide,
    ((miniMax_recursion 3 [[88, 79, 88], [79, 79, 88], [88, 32, 32]] 0 (by decide)).1
      (by decide)).1⟩

/-- C5, counterexample to the claim as stated.  On the terminal board whose top row is
filled by the human, `calculateScore` is `WIN` and `miniMax` returns `-1`, not `+1`. -/
theorem miniMax_win_not_plus_one :
    isGameOver 3 [[88, 88, 88], [79, 79, 32], [32, 32, 32]] = true ∧
    calculateScore 3 [[88, 88, 88], [79, 79, 32], [32, 32, 32]] = HumanState.WIN ∧
    miniMax 3 [[88, 88, 88], [79, 79, 32], [32, 32, 32]] 0 true = -1 ∧
    ¬ (calculateScore 3 [[88, 88, 88], [79, 79, 32], [32, 32, 32]] = HumanState.WIN →
      miniMax 3 [[88, 88, 88], [79, 79, 32], [32, 32, 32]] 0 true = 1) := by
  decide

/-- C5, amended.  On a terminal board `miniMax` returns the integer value of the
`HumanState` enumerator computed by `calculateScore`: `-1` when it is `WIN` (the human
has a line), `0` when it is `TIE` and `+1` when it is `LOSE` (the machine has a line):
the score is signed from the machine's side. -/
theorem miniMax_terminal_value (N : Nat) (gameBoard : Board) (depth : Int) (isMachine : Bool)
    (hover : isGameOver N gameBoard = true) :
    (calculateScore N gameBoard = HumanState.WIN → miniMax N gameBoard depth isMachine = -1) ∧
    (calculateScore N gameBoard = HumanState.TIE → miniMax N gameBoard depth isMachine = 0) ∧
    (calculateScore N gameBoard = HumanState.LOSE → miniMax N gameBoard depth isMachine = 1) := by
  rw [miniMax_terminal N gameBoard depth isMachine hover]
  refine ⟨fun h => ?_, fun h => ?_, fun h => ?_⟩ <;> rw [h] <;> rfl

/-- Witness of the amended C5 on a terminal board won by the machine. -/
theorem miniMax_terminal_value_witness :
    isGameOver 3 [[79, 79, 79], [88, 88, 32], [88, 32, 32]] = true ∧
    calculateScore 3 [[79, 79, 79], [88, 88, 32], [88, 32, 32]] = HumanState.LOSE ∧
    miniMax 3 [[79, 79, 79], [88, 88, 32], [88, 32, 32]] 0 false = 1 :=
  ⟨by decide, by decide,
    (miniMax_terminal_value 3 [[79, 79, 79], [88, 88, 32], [88, 32, 32]] 0 false
      (by decide)).2.2 (by decide)⟩

/-! ## Soundness of the bounded search -/

theorem isGrid_board9 (a b c d e f g h i : Nat) : IsGrid 3 (board9 a b c d e f g h i) := by
  refine ⟨rfl, ?_⟩
  intro row hrow
  simp only [board9, List.mem_cons, List.mem_singleton, List.not_mem_nil, or_false] at hrow
  rcases hrow with rfl | rfl | rfl <;> rfl

theorem atLeast_sound (bound : Int) (fuel : Nat) :
    ∀ (isMachine : Bool) (a b c d e f g h i : Nat) (depth : Int),
      atLeast bound fuel isMachine a b c d e f g h i = true →
      bound ≤ miniMax 3 (board9 a b c d e f g h i) depth isMachine := by
  induction fuel with
  | zero =>
    intro isMachine a b c d e f g h i depth hcert
    simp [atLeast] at hcert
  | succ fuel ih =>
    intro isMachine a b c d e f g h i depth hcert
    rw [atLeast] at hcert
    by_cases hover : isGameOver 3 (board9 a b c d e f g h i) = true
    · simp only [hover, if_true, decide_eq_true_eq] at hcert
      rw [miniMax_terminal _ _ _ _ hover]
      exact hcert
    · have hover2 : isGameOver 3 (board9 a b c d e f g h i) = false := by simpa using hover
      simp only [hover2, Bool.false_eq_true, if_false] at hcert
      cases isMachine with
      | true =>
        simp only [if_true, Bool.or_eq_true, Bool.and_eq_true, beq_iff_eq] at hcert
        have hmax := (miniMax_max 3 (board9 a b c d e f g h i) depth hover2).2
        rcases hcert with ((((((((⟨he, hc⟩ | ⟨he, hc⟩) | ⟨he, hc⟩) | ⟨he, hc⟩) | ⟨he, hc⟩) | ⟨he, hc⟩) | ⟨he, hc⟩) | ⟨he, hc⟩) | ⟨he, hc⟩)
        · exact le_trans (ih false a b c d 79 f g h i (depth + 1) hc)
            (hmax 1 1 he)
        · exact le_trans (ih false 79 b c d e f g h i (depth + 1) hc)
            (hmax 0 0 he)
        · exact le_trans (ih false a b 79 d e f g h i (depth + 1) hc)
            (hmax 0 2 he)
        · exact le_trans (ih false a b c d e f 79 h i (depth + 1) hc)
            (hmax 2 0 he)
        · exact le_trans (ih false a b c d e f g h 79 (depth + 1) hc)
            (hmax 2 2 he)
        · exact le_trans (ih false a 79 c d e f g h i (depth + 1) hc)
            (hmax 0 1 he)
        · exact le_trans (ih false a b c 79 e f g h i (depth + 1) hc)
            (hmax 1 0 he)
        · exact le_trans (ih false a b c d e 79 g h i (depth + 1) hc)
            (hmax 1 2 he)
        · exact le_trans (ih false a b c d e f g 79 i (depth + 1) hc)
            (hmax 2 1 he)
      | false =>
        simp only [Bool.false_eq_true, if_false, Bool.and_eq_true, Bool.or_eq_true,
          bne_iff_ne, ne_eq] at hcert
        obtain ⟨⟨⟨⟨⟨⟨⟨⟨h1, h2⟩, h3⟩, h4⟩, h5⟩, h6⟩, h7⟩, h8⟩, h9⟩ := hcert
        obtain ⟨⟨x, y, hc, hval⟩, _⟩ := miniMax_min 3 (board9 a b c d e f g h i) depth hover2
        obtain ⟨hx, hy⟩ := isGrid_inBounds (isGrid_board9 a b c d e f g h i) (i := x) (j := y)
          (by rw [hc]; decide)
        rw [hval]
        interval_cases x <;> interval_cases y
        · exact (h1.elim (fun hne => absurd hc hne)
            (fun hc2 => ih true 88 b c d e f g h i (depth + 1) hc2))
        · exact (h2.elim (fun hne => absurd hc hne)
            (fun hc2 => ih true a 88 c d e f g h i (depth + 1) hc2))
        · exact (h3.elim (fun hne => absurd hc hne)
            (fun hc2 => ih true a b 88 d e f g h i (depth + 1) hc2))
        · exact (h4.elim (fun hne => absurd hc hne)
            (fun hc2 => ih true a b c 88 e f g h i (depth + 1) hc2))
        · exact (h5.elim (fun hne => absurd hc hne)
            (fun hc2 => ih true a b c d 88 f g h i (depth + 1) hc2))
        · exact (h6.elim (fun hne => absurd hc hne)
            (fun hc2 => ih true a b c d e 88 g h i (depth + 1) hc2))
        · exact (h7.elim (fun hne => absurd hc hne)
            (fun hc2 => ih true a b c d e f 88 h i (depth + 1) hc2))
        · exact (h8.elim (fun hne => absurd hc hne)
            (fun hc2 => ih true a b c d e f g 88 i (depth + 1) hc2))
        · exact (h9.elim (fun hne => absurd hc hne)
            (fun hc2 => ih true a b c d e f g h 88 (depth + 1) hc2))

/-! ## Frame: the scans restore the board (C9) -/

/-- C9. The exploratory placements are undone: the working board of `miniMax` after its
scan loop is the board it was given, the member board after the hint search is the
member board before it, and the member board at the end of the Hard-mode scan loop of
`playTheBest` (before the chosen move is committed) is the member board before it. -/
theorem scans_restore_board (gridSize fuel : Nat) (depth : Int) (isMachine : Bool) (r : Nat)
    (board : Board) :
    (miniMaxScan (fun b => miniMaxAux gridSize fuel b (depth + 1) (!isMachine))
      isMachine board).1 = board ∧
    (on_actionGet_Hint_triggered gridSize r board).2 = board ∧
    (rootScan gridSize Player.Machine.toChar board).board = board := by
  refine ⟨by rw [miniMaxScan_eq], ?_, by rw [rootScan_eq]⟩
  unfold on_actionGet_Hint_triggered
  by_cases h3 : (gridSize == 3) = true
  · simp only [h3, if_true]
    rw [rootScan_eq]
  · simp only [h3, if_false, Bool.false_eq_true]
    split <;> rfl

/-! ## The Hard-mode root search (C6, C10) -/

theorem playTheBest_hard_three (r : Nat) (board : Board) :
    playTheBest "Hard" 3 r board =
      if (rootScan 3 Player.Machine.toChar board).bestMove.1 != -1 then
        setCell (rootScan 3 Player.Machine.toChar board).board
          (rootScan 3 Player.Machine.toChar board).bestMove.1.toNat
          (rootScan 3 Player.Machine.toChar board).bestMove.2.toNat Player.Machine.toChar
      else (rootScan 3 Player.Machine.toChar board).board := by
  have h1 : ("Hard" == "Easy" || decide (3 > 3)) = false := by decide
  have h2 : ("Hard" == "Hard" && decide (3 < 4)) = true := by decide
  unfold playTheBest
  simp only [h1, h2, Bool.false_eq_true, if_false, if_true]

theorem playTheBest_hard_move (r : Nat) (board : Board) (i j : Nat) (best : Int)
    (h : rootScan 3 Player.Machine.toChar board =
      { board := board, bestScore := best, bestMove := ((i : Int), (j : Int)) }) :
    playTheBest "Hard" 3 r board = setCell board i j Player.Machine.toChar := by
  rw [playTheBest_hard_three, h]
  have hne : ((i : Int) != -1) = true := by
    simp only [bne_iff_ne, ne_eq]
    omega
  simp only [hne, if_true, Int.toNat_ofNat]

/-- C6. On a 3 × 3 board with at least one `NONE` cell, the Hard-mode search of
`playTheBest` ends with `bestMove` on a `NONE` cell `(i, j)`, which `playTheBest` then
marks for the machine; the score `miniMax(board with Machine at (i, j), 0, false)` is the
maximum of that score over all `NONE` cells, and no `NONE` cell that precedes `(i, j)` in
row-major order has the same score. -/
theorem playTheBest_first_best (r : Nat) (board : Board) (hgrid : IsGrid 3 board)
    (hnone : ∃ i j, i < 3 ∧ j < 3 ∧ cellAt board i j = Player.NONE.toChar) :
    ∃ i j, i < 3 ∧ j < 3 ∧ cellAt board i j = Player.NONE.toChar ∧
      (rootScan 3 Player.Machine.toChar board).bestMove = ((i : Int), (j : Int)) ∧
      playTheBest "Hard" 3 r board = setCell board i j Player.Machine.toChar ∧
      (∀ k l, k < 3 → l < 3 → cellAt board k l = Player.NONE.toChar →
        miniMax 3 (setCell board k l Player.Machine.toChar) 0 false ≤
          miniMax 3 (setCell board i j Player.Machine.toChar) 0 false) ∧
      (∀ k l, k < 3 → l < 3 → cellAt board k l = Player.NONE.toChar →
        (k < i ∨ (k = i ∧ l < j)) →
        miniMax 3 (setCell board k l Player.Machine.toChar) 0 false ≠
          miniMax 3 (setCell board i j Player.Machine.toChar) 0 false) := by
  obtain ⟨i0, j0, _, _, h0⟩ := hnone
  obtain ⟨i, j, hi, hj, hc, hscan, hmax, hfirst⟩ :=
    rootScan_three Player.Machine.toChar board hgrid ⟨i0, j0, h0⟩
  refine ⟨i, j, hi, hj, hc, by rw [hscan], playTheBest_hard_move r board i j _ hscan, ?_, ?_⟩
  · intro k l _ _ hkl
    exact hmax k l hkl
  · intro k l _ _ hkl hprec
    exact ne_of_lt (hfirst k l hkl hprec)

/-- Witness of C6 on the board of scenario A. -/
theorem playTheBest_first_best_witness :
    IsGrid 3 [[88, 88, 32], [79, 79, 32], [32, 32, 32]] ∧
    (∃ i j, i < 3 ∧ j < 3 ∧
      cellAt [[88, 88, 32], [79, 79, 32], [32, 32, 32]] i j = Player.NONE.toChar) ∧
    (∃ i j, i < 3 ∧ j < 3 ∧
      cellAt [[88, 88, 32], [79, 79, 32], [32, 32, 32]] i j = Player.NONE.toChar ∧
      (rootScan 3 Player.Machine.toChar [[88, 88, 32], [79, 79, 32], [32, 32, 32]]).bestMove =
        ((i : Int), (j : Int)) ∧
      playTheBest "Hard" 3 0 [[88, 88, 32], [79, 79, 32], [32, 32, 32]] =
        setCell [[88, 88, 32], [79, 79, 32], [32, 32, 32]] i j Player.Machine.toChar ∧
      (∀ k l, k < 3 → l < 3 →
        cellAt [[88, 88, 32], [79, 79, 32], [32, 32, 32]] k l = Player.NONE.toChar →
        miniMax 3 (setCell [[88, 88, 32], [79, 79, 32], [32, 32, 32]] k l
            Player.Machine.toChar) 0 false ≤
          miniMax 3 (setCell [[88, 88, 32], [79, 79, 32], [32, 32, 32]] i j
            Player.Machine.toChar) 0 false) ∧
      (∀ k l, k < 3 → l < 3 →
        cellAt [[88, 88, 32], [79, 79, 32], [32, 32, 32]] k l = Player.NONE.toChar →
        (k < i ∨ (k = i ∧ l < j)) →
        miniMax 3 (setCell [[88, 88, 32], [79, 79, 32], [32, 32, 32]] k l
            Player.Machine.toChar) 0 false ≠
          miniMax 3 (setCell [[88, 88, 32], [79, 79, 32], [32, 32, 32]] i j
            Player.Machine.toChar) 0 false)) :=
  ⟨by decide, ⟨0, 2, by decide, by decide, by decide⟩,
    playTheBest_first_best 0 [[88, 88, 32], [79, 79, 32], [32, 32, 32]] (by decide)
      ⟨0, 2, by decide, by decide, by decide⟩⟩

theorem rootScan_scenarioA :
    rootScan 3 Player.Machine.toChar [[88, 88, 32], [79, 79, 32], [32, 32, 32]] =
      { board := [[88, 88, 32], [79, 79, 32], [32, 32, 32]], bestScore := 1,
        bestMove := (((0 : Nat) : Int), ((2 : Nat) : Int)) } := by
  decide!

/-- C10. On the board `[[X,X,_],[O,O,_],[_,_,_]]` with the machine to move, the Hard-mode
search of `playTheBest` selects the cell `(0, 2)` and `playTheBest` marks it. -/
theorem playTheBest_scenarioA (r : Nat) :
    (rootScan 3 Player.Machine.toChar [[88, 88, 32], [79, 79, 32], [32, 32, 32]]).bestMove =
      (0, 2) ∧
    playTheBest "Hard" 3 r [[88, 88, 32], [79, 79, 32], [32, 32, 32]] =
      [[88, 88, 79], [79, 79, 32], [32, 32, 32]] := by
  refine ⟨by rw [rootScan_scenarioA]; rfl, ?_⟩
  rw [playTheBest_hard_move r _ 0 2 1 rootScan_scenarioA]
  rfl

/-! ## The machine never loses in Hard mode (C7) -/

set_option maxRecDepth 100000 in
theorem atLeast_emptyBoard : atLeast 0 10 false 32 32 32 32 32 32 32 32 32 = true := by
  decide!

theorem miniMax_emptyBoard_nonneg : 0 ≤ miniMax 3 (emptyBoard 3) 0 false :=
  atLeast_sound 0 10 false 32 32 32 32 32 32 32 32 32 0 atLeast_emptyBoard

theorem hardGame_invariant {humanToMove : Bool} {board : Board}
    (hgame : HardGame humanToMove board) :
    IsGrid 3 board ∧ 0 ≤ miniMax 3 board 0 (!humanToMove) := by
  induction hgame with
  | start => exact ⟨by decide, miniMax_emptyBoard_nonneg⟩
  | @human board i j _ hover _ _ hc ih =>
    obtain ⟨hgrid, hval⟩ := ih
    refine ⟨isGrid_setCell hgrid _ _ _, ?_⟩
    have hle := (miniMax_min 3 board 0 hover).2 i j hc
    rw [miniMax_depth 3 _ (0 + 1) 0] at hle
    exact le_trans hval hle
  | @machine board r _ hover ih =>
    obtain ⟨hgrid, hval⟩ := ih
    obtain ⟨i, j, _, _, _, hscan, hmax, _⟩ :=
      rootScan_three Player.Machine.toChar board hgrid (isGameOver_false_hasNone hover)
    rw [playTheBest_hard_move r board i j _ hscan]
    refine ⟨isGrid_setCell hgrid _ _ _, ?_⟩
    obtain ⟨⟨k, l, hkl, e⟩, _⟩ := miniMax_max 3 board 0 hover
    have hle := hmax k l hkl
    rw [miniMax_depth 3 _ (0 + 1) 0] at e
    have hval2 : 0 ≤ miniMax 3 board 0 true := hval
    rw [e] at hval2
    exact le_trans hval2 hle

/-- C7. In a Hard-mode game on the 3 × 3 board that starts from the empty board with
the human moving first, whatever legal moves the human makes, if the machine always
replies with the move of `playTheBest`, then in every position reached (after a human
move or after a machine reply) the human has no completed line: the machine never loses. -/
theorem hard_mode_human_never_wins (humanToMove : Bool) (board : Board)
    (hgame : HardGame humanToMove board) : checkWin 3 .HUMAN board = false := by
  obtain ⟨_, hval⟩ := hardGame_invariant hgame
  by_contra hn
  have hw : checkWin 3 .HUMAN board = true := by simpa using hn
  have hover : isGameOver 3 board = true := (isGameOver_eq_true_iff 3 board).2 (Or.inl hw)
  have hscore : calculateScore 3 board = HumanState.WIN := by
    unfold calculateScore
    simp only [hw, if_true]
  rw [miniMax_terminal 3 board 0 _ hover, hscore] at hval
  exact absurd hval (by decide)

/-- Witness of C7: the position after the human opens in the centre. -/
theorem hard_mode_human_never_wins_witness :
    HardGame false (setCell (emptyBoard 3) 1 1 Player.HUMAN.toChar) ∧
    checkWin 3 .HUMAN (setCell (emptyBoard 3) 1 1 Player.HUMAN.toChar) = false :=
  ⟨HardGame.human HardGame.start (by decide) (by decide) (by decide) (by decide),
    hard_mode_human_never_wins false _
      (HardGame.human HardGame.start (by decide) (by decide) (by decide) (by decide))⟩

/-! ## The hint search (C8) -/

/-- C8, the code at a failing input.  On `[[X,O,_],[O,O,_],[X,X,_]]` with the human to
move, the cell `(2, 2)` is `NONE` and completes the human's bottom row, but the hint
search highlights `(0, 2)`, which completes no line; after the human plays `(0, 2)` the
position is lost for the human (`miniMax` with the machine to move is `+1`), while after
`(2, 2)` the human has won. -/
theorem hint_misses_winning_cell :
    (on_actionGet_Hint_triggered 3 0 [[88, 79, 32], [79, 79, 32], [88, 88, 32]]).1 =
      some (0, 2) ∧
    cellAt [[88, 79, 32], [79, 79, 32], [88, 88, 32]] 2 2 = Player.NONE.toChar ∧
    checkWin 3 .HUMAN
      (setCell [[88, 79, 32], [79, 79, 32], [88, 88, 32]] 2 2 Player.HUMAN.toChar) = true ∧
    checkWin 3 .HUMAN
      (setCell [[88, 79, 32], [79, 79, 32], [88, 88, 32]] 0 2 Player.HUMAN.toChar) = false ∧
    miniMax 3 (setCell [[88, 79, 32], [79, 79, 32], [88, 88, 32]] 0 2 Player.HUMAN.toChar)
      0 true = 1 := by
  decide!

/-! ## Root searches on boards without a `NONE` cell (C14) -/

theorem availableMoves_eq_nil {gridSize : Nat} {board : Board}
    (hfull : ∀ i j, i < gridSize → j < gridSize → cellAt board i j ≠ Player.NONE.toChar) :
    availableMoves gridSize board = [] := by
  apply List.eq_nil_iff_forall_not_mem.2
  intro pos hpos
  obtain ⟨⟨hi, hj⟩, hc⟩ := (mem_availableMoves gridSize board pos.1 pos.2).1 hpos
  exact hfull _ _ hi hj hc

theorem rootScan_full {gridSize : Nat} (mark : Nat) {board : Board}
    (hfull : ∀ i j, i < gridSize → j < gridSize → cellAt board i j ≠ Player.NONE.toChar) :
    rootScan gridSize mark board =
      { board := board, bestScore := INT_MIN, bestMove := (-1, -1) } := by
  rw [rootScan_eq, availableMoves_eq_nil hfull]
  rfl

theorem hint_three (r : Nat) (board : Board) :
    on_actionGet_Hint_triggered 3 r board =
      (if (rootScan 3 Player.HUMAN.toChar board).bestMove.1 != -1 then
          some (rootScan 3 Player.HUMAN.toChar board).bestMove else none,
        (rootScan 3 Player.HUMAN.toChar board).board) := by
  unfold on_actionGet_Hint_triggered
  simp only [beq_self_eq_true, if_true]

theorem hint_three_move (r : Nat) (board : Board) (i j : Nat) (best : Int)
    (h : rootScan 3 Player.HUMAN.toChar board =
      { board := board, bestScore := best, bestMove := ((i : Int), (j : Int)) }) :
    on_actionGet_Hint_triggered 3 r board = (some ((i : Int), (j : Int)), board) := by
  rw [hint_three, h]
  have hne : ((i : Int) != -1) = true := by
    simp only [bne_iff_ne, ne_eq]
    omega
  simp only [hne, if_true]

/-- C14. On a full 3 × 3 board (no `NONE` cell) with no completed line for either
player, the Hard-mode search of `playTheBest` and the hint search both end with
`bestMove` at the sentinel `(-1, -1)`: `playTheBest` leaves the board unchanged, the
hint highlights nothing and leaves the board unchanged, and `calculateScore` is `TIE`. -/
theorem full_board_no_move (r : Nat) (board : Board) (hgrid : IsGrid 3 board)
    (hfull : ∀ i j, i < 3 → j < 3 → cellAt board i j ≠ Player.NONE.toChar)
    (hhuman : checkWin 3 .HUMAN board = false) (hmachine : checkWin 3 .Machine board = false) :
    (rootScan 3 Player.Machine.toChar board).bestMove = (-1, -1) ∧
    playTheBest "Hard" 3 r board = board ∧
    (rootScan 3 Player.HUMAN.toChar board).bestMove = (-1, -1) ∧
    on_actionGet_Hint_triggered 3 r board = (none, board) ∧
    calculateScore 3 board = HumanState.TIE := by
  have _ := hgrid
  refine ⟨by rw [rootScan_full _ hfull], ?_, by rw [rootScan_full _ hfull], ?_, ?_⟩
  · rw [playTheBest_hard_three, rootScan_full _ hfull]
    rfl
  · rw [hint_three, rootScan_full _ hfull]
    rfl
  · unfold calculateScore
    simp only [hhuman, hmachine, Bool.false_eq_true, if_false]

/-- Witness of C14 on a drawn full board. -/
theorem full_board_no_move_witness :
    IsGrid 3 [[88, 79, 88], [88, 79, 79], [79, 88, 88]] ∧
    (∀ i j, i < 3 → j < 3 →
      cellAt [[88, 79, 88], [88, 79, 79], [79, 88, 88]] i j ≠ Player.NONE.toChar) ∧
    checkWin 3 .HUMAN [[88, 79, 88], [88, 79, 79], [79, 88, 88]] = false ∧
    checkWin 3 .Machine [[88, 79, 88], [88, 79, 79], [79, 88, 88]] = false ∧
    ((rootScan 3 Player.Machine.toChar [[88, 79, 88], [88, 79, 79], [79, 88, 88]]).bestMove =
        (-1, -1) ∧
      playTheBest "Hard" 3 0 [[88, 79, 88], [88, 79, 79], [79, 88, 88]] =
        [[88, 79, 88], [88, 79, 79], [79, 88, 88]] ∧
      (rootScan 3 Player.HUMAN.toChar [[88, 79, 88], [88, 79, 79], [79, 88, 88]]).bestMove =
        (-1, -1) ∧
      on_actionGet_Hint_triggered 3 0 [[88, 79, 88], [88, 79, 79], [79, 88, 88]] =
        (none, [[88, 79, 88], [88, 79, 79], [79, 88, 88]]) ∧
      calculateScore 3 [[88, 79, 88], [88, 79, 79], [79, 88, 88]] = HumanState.TIE) :=
  ⟨by decide, by intro i j hi hj; interval_cases i <;> interval_cases j <;> decide,
    by decide, by decide,
    full_board_no_move 0 [[88, 79, 88], [88, 79, 79], [79, 88, 88]] (by decide)
      (by intro i j hi hj; interval_cases i <;> interval_cases j <;> decide)
      (by decide) (by decide)⟩

/-! ## Root searches on terminal boards (C15) -/

/-- C15, counterexample to the claim as stated.  The board `[[X,X,X],[O,O,_],[_,_,_]]` is
terminal, yet the Hard-mode search ends with `bestMove = (1, 2)`, not `(-1, -1)`,
`playTheBest` marks that cell, and the hint highlights it. -/
theorem terminal_board_gets_move :
    isGameOver 3 [[88, 88, 88], [79, 79, 32], [32, 32, 32]] = true ∧
    (rootScan 3 Player.Machine.toChar [[88, 88, 88], [79, 79, 32], [32, 32, 32]]).bestMove =
      (1, 2) ∧
    ¬ (rootScan 3 Player.Machine.toChar [[88, 88, 88], [79, 79, 32], [32, 32, 32]]).bestMove =
      (-1, -1) ∧
    playTheBest "Hard" 3 0 [[88, 88, 88], [79, 79, 32], [32, 32, 32]] =
      [[88, 88, 88], [79, 79, 79], [32, 32, 32]] ∧
    on_actionGet_Hint_triggered 3 0 [[88, 88, 88], [79, 79, 32], [32, 32, 32]] =
      (some (1, 2), [[88, 88, 88], [79, 79, 32], [32, 32, 32]]) := by
  decide!

/-- C15, amended.  On a 3 × 3 board, terminal or not, the two root searches report no
move (`bestMove = (-1, -1)`, no mark placed, nothing highlighted) when the board has no
`NONE` cell; when it has one, terminal or not, each search selects a `NONE` cell, which
`playTheBest` marks and the hint highlights. -/
theorem root_search_move_iff_none_cell (r : Nat) (board : Board) (hgrid : IsGrid 3 board) :
    ((∀ i j, i < 3 → j < 3 → cellAt board i j ≠ Player.NONE.toChar) →
      (rootScan 3 Player.Machine.toChar board).bestMove = (-1, -1) ∧
      playTheBest "Hard" 3 r board = board ∧
      (rootScan 3 Player.HUMAN.toChar board).bestMove = (-1, -1) ∧
      on_actionGet_Hint_triggered 3 r board = (none, board)) ∧
    ((∃ i j, i < 3 ∧ j < 3 ∧ cellAt board i j = Player.NONE.toChar) →
      (∃ i j, i < 3 ∧ j < 3 ∧ cellAt board i j = Player.NONE.toChar ∧
        (rootScan 3 Player.Machine.toChar board).bestMove = ((i : Int), (j : Int)) ∧
        playTheBest "Hard" 3 r board = setCell board i j Player.Machine.toChar) ∧
      (∃ i j, i < 3 ∧ j < 3 ∧ cellAt board i j = Player.NONE.toChar ∧
        (rootScan 3 Player.HUMAN.toChar board).bestMove = ((i : Int), (j : Int)) ∧
        on_actionGet_Hint_triggered 3 r board = (some ((i : Int), (j : Int)), board))) := by
  constructor
  · intro hfull
    refine ⟨by rw [rootScan_full _ hfull], ?_, by rw [rootScan_full _ hfull], ?_⟩
    · rw [playTheBest_hard_three, rootScan_full _ hfull]
      rfl
    · rw [hint_three, rootScan_full _ hfull]
      rfl
  · rintro ⟨i0, j0, _, _, h0⟩
    constructor
    · obtain ⟨i, j, hi, hj, hc, hscan, _, _⟩ :=
        rootScan_three Player.Machine.toChar board hgrid ⟨i0, j0, h0⟩
      exact ⟨i, j, hi, hj, hc, by rw [hscan], playTheBest_hard_move r board i j _ hscan⟩
    · obtain ⟨i, j, hi, hj, hc, hscan, _, _⟩ :=
        rootScan_three Player.HUMAN.toChar board hgrid ⟨i0, j0, h0⟩
      exact ⟨i, j, hi, hj, hc, by rw [hscan], hint_three_move r board i j _ hscan⟩

/-- Witness of the amended C15 on a terminal board with `NONE` cells. -/
theorem root_search_move_iff_none_cell_witness :
    IsGrid 3 [[88, 88, 88], [79, 79, 32], [32, 32, 32]] ∧
    isGameOver 3 [[88, 88, 88], [79, 79, 32], [32, 32, 32]] = true ∧
    (∃ i j, i < 3 ∧ j < 3 ∧
      cellAt [[88, 88, 88], [79, 79, 32], [32, 32, 32]] i j = Player.NONE.toChar) ∧
    (∃ i j, i < 3 ∧ j < 3 ∧
      cellAt [[88, 88, 88], [79, 79, 32], [32, 32, 32]] i j = Player.NONE.toChar ∧
      (rootScan 3 Player.Machine.toChar [[88, 88, 88], [79, 79, 32], [32, 32, 32]]).bestMove =
        ((i : Int), (j : Int)) ∧
      playTheBest "Hard" 3 0 [[88, 88, 88], [79, 79, 32], [32, 32, 32]] =
        setCell [[88, 88, 88], [79, 79, 32], [32, 32, 32]] i j Player.Machine.toChar) :=
  ⟨by decide, by decide, ⟨1, 2, by decide, by decide, by decide⟩,
    ((root_search_move_iff_none_cell 0 [[88, 88, 88], [79, 79, 32], [32, 32, 32]]
      (by decide)).2 ⟨1, 2, by decide, by decide, by decide⟩).1⟩

/-! ## `calculateScore` on non-terminal boards (C16) -/

/-- C16, counterexample to the claim as stated.  The empty 3 × 3 board is not terminal
and `calculateScore` returns `TIE` on it: there is no failure. -/
theorem calculateScore_emptyBoard_tie :
    isGameOver 3 (emptyBoard 3) = false ∧
    calculateScore 3 (emptyBoard 3) = HumanState.TIE := by
  decide

/-- C16, amended.  On every board that is not terminal (`isGameOver` is false),
`calculateScore` returns `TIE`; it has no failure value. -/
theorem calculateScore_nonterminal (N : Nat) (gameBoard : Board)
    (hover : isGameOver N gameBoard = false) :
    calculateScore N gameBoard = HumanState.TIE := by
  unfold calculateScore
  rw [isGameOver_false_noWin hover .HUMAN (by decide),
    isGameOver_false_noWin hover .Machine (by decide)]
  rfl

/-- Witness of the amended C16 on a non-terminal board of a game in progress. -/
theorem calculateScore_nonterminal_witness :
    isGameOver 3 [[88, 88, 32], [79, 79, 32], [32, 32, 32]] = false ∧
    calculateScore 3 [[88, 88, 32], [79, 79, 32], [32, 32, 32]] = HumanState.TIE :=
  ⟨by decide, calculateScore_nonterminal 3 _ (by decide)⟩

/-! ## Depth independence (C17) -/

/-- C17. The score of `miniMax` does not depend on the depth argument: for every board,
every mover flag and all depths `d1`, `d2`, `miniMax(board, d1, isMachine) =
miniMax(board, d2, isMachine)`. -/
theorem miniMax_depth_independent (N : Nat) (gameBoard : Board) (isMachine : Bool)
    (d1 d2 : Int) :
    miniMax N gameBoard d1 isMachine = miniMax N gameBoard d2 isMachine :=
  miniMaxAux_depth N _ gameBoard d1 d2 isMachine

/-! ## Exchanging the players (C18) -/

theorem cellAt_swapMarks (gameBoard : Board) (i j : Nat) :
    cellAt (swapMarks gameBoard) i j = swapMark (cellAt gameBoard i j) := by
  unfold cellAt swapMarks
  have h1 := List.getD_map (l := gameBoard) (n := i) (d := [])
    (fun row : List Nat => row.map swapMark)
  have h2 := List.getD_map (l := gameBoard.getD i []) (n := j) (d := 0) swapMark
  have h0 : swapMark 0 = 0 := by decide
  rw [h0] at h2
  simp only [List.map_nil] at h1
  rw [h1, h2]

theorem swapMark_eq_human (c : Nat) :
    swapMark c = Player.HUMAN.toChar ↔ c = Player.Machine.toChar := by
  unfold swapMark
  simp only [Player.toChar]
  split
  · omega
  · split <;> omega

theorem swapMark_eq_machine (c : Nat) :
    swapMark c = Player.Machine.toChar ↔ c = Player.HUMAN.toChar := by
  unfold swapMark
  simp only [Player.toChar]
  split
  · omega
  · split <;> omega

theorem swapMark_eq_none (c : Nat) :
    swapMark c = Player.NONE.toChar ↔ c = Player.NONE.toChar := by
  unfold swapMark
  simp only [Player.toChar]
  split
  · omega
  · split <;> omega

theorem checkWin_swapMarks_human (gridSize : Nat) (gameBoard : Board) :
    checkWin gridSize .HUMAN (swapMarks gameBoard) = checkWin gridSize .Machine gameBoard := by
  rw [Bool.eq_iff_iff, checkWin_iff, checkWin_iff]
  unfold HasLine
  simp only [cellAt_swapMarks, swapMark_eq_human]

theorem checkWin_swapMarks_machine (gridSize : Nat) (gameBoard : Board) :
    checkWin gridSize .Machine (swapMarks gameBoard) = checkWin gridSize .HUMAN gameBoard := by
  rw [Bool.eq_iff_iff, checkWin_iff, checkWin_iff]
  unfold HasLine
  simp only [cellAt_swapMarks, swapMark_eq_machine]

/-- C18. On an `N × N` board, `isGameOver` is unchanged when the two players are
exchanged in every cell (`HUMAN` marks become `Machine` marks and conversely, `NONE`
cells stay): `isGameOver(swap(board)) = isGameOver(board)`. -/
theorem isGameOver_swapMarks (N : Nat) (gameBoard : Board) (hgrid : IsGrid N gameBoard) :
    isGameOver N (swapMarks gameBoard) = isGameOver N gameBoard := by
  have _ := hgrid
  rw [Bool.eq_iff_iff, isGameOver_eq_true_iff, isGameOver_eq_true_iff,
    checkWin_swapMarks_human, checkWin_swapMarks_machine]
  simp only [cellAt_swapMarks, swapMark_eq_none]
  tauto

/-- Witness of C18 on a board that is terminal through a completed line. -/
theorem isGameOver_swapMarks_witness :
    IsGrid 3 [[88, 88, 88], [79, 79, 32], [32, 32, 32]] ∧
    swapMarks [[88, 88, 88], [79, 79, 32], [32, 32, 32]] =
      [[79, 79, 79], [88, 88, 32], [32, 32, 32]] ∧
    isGameOver 3 (swapMarks [[88, 88, 88], [79, 79, 32], [32, 32, 32]]) =
      isGameOver 3 [[88, 88, 88], [79, 79, 32], [32, 32, 32]] :=
  ⟨by decide, by decide, isGameOver_swapMarks 3 _ (by decide)⟩

/-! ## The random move on large boards (C19) -/

theorem gridOrder_sorted (gridSize : Nat) : (gridOrder gridSize).Pairwise Precedes := by
  unfold gridOrder
  rw [List.pairwise_flatMap]
  constructor
  · intro i _
    rw [List.pairwise_map]
    exact (List.pairwise_lt_range gridSize).imp (fun h => Or.inr ⟨rfl, h⟩)
  · refine (List.pairwise_lt_range gridSize).imp ?_
    intro a b hab x hx y hy
    obtain ⟨_, _, rfl⟩ := List.mem_map.1 hx
    obtain ⟨_, _, rfl⟩ := List.mem_map.1 hy
    exact Or.inl hab

theorem availableMoves_sorted (gridSize : Nat) (board : Board) :
    (availableMoves gridSize board).Pairwise Precedes :=
  List.Pairwise.sublist (List.filter_sublist _) (gridOrder_sorted gridSize)

theorem availableMoves_pick {gridSize : Nat} {board : Board} (r : Nat)
    (hne : availableMoves gridSize board ≠ []) :
    ∃ i j, (availableMoves gridSize board)[r % (availableMoves gridSize board).length]? =
        some (i, j) ∧
      (availableMoves gridSize board).getD (r % (availableMoves gridSize board).length) (0, 0) =
        (i, j) ∧
      i < gridSize ∧ j < gridSize ∧ cellAt board i j = Player.NONE.toChar := by
  have hlen : 0 < (availableMoves gridSize board).length := List.length_pos.2 hne
  have hlt : r % (availableMoves gridSize board).length < (availableMoves gridSize board).length :=
    Nat.mod_lt _ hlen
  have hget : (availableMoves gridSize board)[r % (availableMoves gridSize board).length]? =
      some ((availableMoves gridSize board)[r % (availableMoves gridSize board).length]) :=
    List.getElem?_eq_getElem hlt
  have hmem := List.getElem_mem hlt
  obtain ⟨⟨hi, hj⟩, hc⟩ := (mem_availableMoves gridSize board _ _).1 hmem
  exact ⟨_, _, hget, List.getD_eq_getElem _ _ hlt, hi, hj, hc⟩

theorem isEmpty_availableMoves {gridSize : Nat} {board : Board}
    (hne : availableMoves gridSize board ≠ []) :
    (availableMoves gridSize board).isEmpty = false := by
  cases h : availableMoves gridSize board with
  | nil => exact absurd h hne
  | cons _ _ => rfl

/-- C19. For every `gridSize > 3`, every difficulty, every board and every value `r` of
`rand()`, `playTheBest` takes the random branch: with `availableMoves` the list of the
`NONE` cells of the grid in row-major order and `k` its length, it leaves the board
unchanged when `k = 0` and otherwise marks the cell of index `r mod k` of that list for
the machine; the hint does the same highlighting for every `gridSize ≠ 3`.  The cell
is a `NONE` cell of the grid, and `miniMax` is not consulted. -/
theorem large_grid_random_move (difficulty : String) (N r : Nat) (board : Board) :
    (∀ i j, (i, j) ∈ availableMoves N board ↔
      ((i < N ∧ j < N) ∧ cellAt board i j = Player.NONE.toChar)) ∧
    (availableMoves N board).Pairwise Precedes ∧
    (3 < N →
      (availableMoves N board = [] → playTheBest difficulty N r board = board) ∧
      (availableMoves N board ≠ [] →
        ∃ i j, (availableMoves N board)[r % (availableMoves N board).length]? = some (i, j) ∧
          i < N ∧ j < N ∧ cellAt board i j = Player.NONE.toChar ∧
          playTheBest difficulty N r board = setCell board i j Player.Machine.toChar)) ∧
    (N ≠ 3 →
      (availableMoves N board = [] →
        on_actionGet_Hint_triggered N r board = (none, board)) ∧
      (availableMoves N board ≠ [] →
        ∃ i j, (availableMoves N board)[r % (availableMoves N board).length]? = some (i, j) ∧
          i < N ∧ j < N ∧ cellAt board i j = Player.NONE.toChar ∧
          on_actionGet_Hint_triggered N r board = (some ((i : Int), (j : Int)), board))) := by
  refine ⟨mem_availableMoves N board, availableMoves_sorted N board, ?_, ?_⟩
  · intro hN
    have hbranch : (difficulty == "Easy" || decide (N > 3)) = true := by
      simp only [Bool.or_eq_true, decide_eq_true_eq]
      exact Or.inr hN
    constructor
    · intro hnil
      unfold playTheBest
      simp only [hbranch, if_true, hnil, List.isEmpty_nil]
    · intro hne
      obtain ⟨i, j, hget, hgetD, hi, hj, hc⟩ := availableMoves_pick r hne
      refine ⟨i, j, hget, hi, hj, hc, ?_⟩
      unfold playTheBest
      simp only [hbranch, if_true, isEmpty_availableMoves hne, Bool.false_eq_true, if_false,
        hgetD]
  · intro hN
    have hbranch : (N == 3) = false := by
      simp only [beq_eq_false_iff_ne, ne_eq]
      exact hN
    constructor
    · intro hnil
      unfold on_actionGet_Hint_triggered
      simp only [hbranch, Bool.false_eq_true, if_false, hnil, List.isEmpty_nil, if_true]
    · intro hne
      obtain ⟨i, j, hget, hgetD, hi, hj, hc⟩ := availableMoves_pick r hne
      refine ⟨i, j, hget, hi, hj, hc, ?_⟩
      unfold on_actionGet_Hint_triggered
      simp only [hbranch, Bool.false_eq_true, if_false, isEmpty_availableMoves hne, hgetD]

/-- Witness of C19 on a 4 × 4 board with three `NONE` cells and `rand() = 5`. -/
theorem large_grid_random_move_witness :
    3 < 4 ∧
    availableMoves 4 [[88, 79, 88, 79], [79, 32, 88, 88], [88, 79, 32, 79], [79, 88, 79, 32]] ≠
      [] ∧
    (∃ i j,
      (availableMoves 4
          [[88, 79, 88, 79], [79, 32, 88, 88], [88, 79, 32, 79], [79, 88, 79, 32]])[5 %
        (availableMoves 4
          [[88, 79, 88, 79], [79, 32, 88, 88], [88, 79, 32, 79], [79, 88, 79, 32]]).length]? =
        some (i, j) ∧
      i < 4 ∧ j < 4 ∧
      cellAt [[88, 79, 88, 79], [79, 32, 88, 88], [88, 79, 32, 79], [79, 88, 79, 32]] i j =
        Player.NONE.toChar ∧
      playTheBest "Hard" 4 5
          [[88, 79, 88, 79], [79, 32, 88, 88], [88, 79, 32, 79], [79, 88, 79, 32]] =
        setCell [[88, 79, 88, 79], [79, 32, 88, 88], [88, 79, 32, 79], [79, 88, 79, 32]] i j
          Player.Machine.toChar) :=
  ⟨by decide, by decide,
    ((large_grid_random_move "Hard" 4 5
      [[88, 79, 88, 79], [79, 32, 88, 88], [88, 79, 32, 79], [79, 88, 79, 32]]).2.2.1
        (by decide)).2 (by decide)⟩

/-! ## Boards of another shape than the grid (C20) -/

theorem hasLine_congr {gridSize : Nat} (player : Player) {b1 b2 : Board}
    (h : ∀ i j, i < gridSize → j < gridSize → cellAt b1 i j = cellAt b2 i j) :
    HasLine gridSize player b1 → HasLine gridSize player b2 := by
  unfold HasLine
  rintro (⟨i, hi, H⟩ | ⟨j, hj, H⟩ | H | H)
  · exact Or.inl ⟨i, hi, fun j hj => by rw [← h i j hi hj]; exact H j hj⟩
  · exact Or.inr (Or.inl ⟨j, hj, fun i hi => by rw [← h i j hi hj]; exact H i hi⟩)
  · exact Or.inr (Or.inr (Or.inl (fun i hi => by rw [← h i i hi hi]; exact H i hi)))
  · exact Or.inr (Or.inr (Or.inr (fun i hi => by
      rw [← h i (gridSize - 1 - i) hi (by omega)]; exact H i hi)))

theorem checkWin_congr {gridSize : Nat} (player : Player) {b1 b2 : Board}
    (h : ∀ i j, i < gridSize → j < gridSize → cellAt b1 i j = cellAt b2 i j) :
    checkWin gridSize player b1 = checkWin gridSize player b2 := by
  rw [Bool.eq_iff_iff, checkWin_iff, checkWin_iff]
  exact ⟨hasLine_congr player h, hasLine_congr player (fun i j hi hj => (h i j hi hj).symm)⟩

/-- C20, counterexample to the claim as stated.  With `gridSize = 3`, the board of four
rows of four cells whose first row is `X X X _` is not a 3 × 3 board, and neither is the
ragged board `[[X,X,X],[O,O],[_]]`; `checkWin`, `isGameOver` and `miniMax` return
ordinary results on both (a human win, computed from the leading cells only) instead
of rejecting them. -/
theorem malformed_board_not_rejected :
    ¬ IsGrid 3 [[88, 88, 88, 32], [79, 79, 32, 32], [32, 32, 32, 32], [32, 32, 32, 79]] ∧
    checkWin 3 .HUMAN
      [[88, 88, 88, 32], [79, 79, 32, 32], [32, 32, 32, 32], [32, 32, 32, 79]] = true ∧
    isGameOver 3
      [[88, 88, 88, 32], [79, 79, 32, 32], [32, 32, 32, 32], [32, 32, 32, 79]] = true ∧
    miniMax 3
      [[88, 88, 88, 32], [79, 79, 32, 32], [32, 32, 32, 32], [32, 32, 32, 79]] 0 true = -1 ∧
    ¬ IsGrid 3 [[88, 88, 88], [79, 79], [32]] ∧
    checkWin 3 .HUMAN [[88, 88, 88], [79, 79], [32]] = true ∧
    isGameOver 3 [[88, 88, 88], [79, 79], [32]] = true ∧
    miniMax 3 [[88, 88, 88], [79, 79], [32]] 0 true = -1 := by
  decide

/-- C20, amended.  `checkWin`, `isGameOver` and `miniMax` do not validate the shape of
the board and have no failure value.  On boards with at least `gridSize` rows of at least
`gridSize` cells (no read is out of bounds) `checkWin` reads only the cells `(i, j)` with
`i, j < gridSize`: two such boards that agree on these cells get the same result, and
when the result is true for a player, `isGameOver` is true and `miniMax` returns the
value of `calculateScore`, whatever the rest of the board holds. -/
theorem checkWin_reads_grid_only (N : Nat) (player : Player) (b1 b2 : Board)
    (h1 : CoversGrid N b1) (h2 : CoversGrid N b2)
    (hagree : ∀ i j, i < N → j < N → cellAt b1 i j = cellAt b2 i j) :
    checkWin N player b1 = checkWin N player b2 ∧
    (player ≠ Player.NONE → checkWin N player b1 = true →
      isGameOver N b1 = true ∧
      ∀ depth isMachine, miniMax N b1 depth isMachine = (calculateScore N b1).toInt) := by
  have _ := h1
  have _ := h2
  refine ⟨checkWin_congr player hagree, ?_⟩
  intro hp hw
  have hover : isGameOver N b1 = true := by
    by_contra hn
    have hf : isGameOver N b1 = false := by simpa using hn
    rw [isGameOver_false_noWin hf player hp] at hw
    exact Bool.false_ne_true hw
  exact ⟨hover, fun depth isMachine => miniMax_terminal N b1 depth isMachine hover⟩

/-- Witness of the amended C20: a board of four rows of four cells and the 3 × 3 board
of its leading cells. -/
theorem checkWin_reads_grid_only_witness :
    CoversGrid 3 [[88, 88, 88, 32], [79, 79, 32, 32], [32, 32, 32, 32], [32, 32, 32, 79]] ∧
    CoversGrid 3 [[88, 88, 88], [79, 79, 32], [32, 32, 32]] ∧
    checkWin 3 .HUMAN
        [[88, 88, 88, 32], [79, 79, 32, 32], [32, 32, 32, 32], [32, 32, 32, 79]] =
      checkWin 3 .HUMAN [[88, 88, 88], [79, 79, 32], [32, 32, 32]] :=
  ⟨by decide, by decide,
    (checkWin_reads_grid_only 3 .HUMAN
      [[88, 88, 88, 32], [79, 79, 32, 32], [32, 32, 32, 32], [32, 32, 32, 79]]
      [[88, 88, 88], [79, 79, 32], [32, 32, 32]] (by decide) (by decide)
      (by intro i j hi hj; interval_cases i <;> interval_cases j <;> rfl)).1⟩

/-! ## Soundness of the upper-bound search and of the root certificate -/

theorem atMost_sound (bound : Int) (fuel : Nat) :
    ∀ (isMachine : Bool) (a b c d e f g h i : Nat) (depth : Int),
      atMost bound fuel isMachine a b c d e f g h i = true →
      miniMax 3 (board9 a b c d e f g h i) depth isMachine ≤ bound := by
  induction fuel with
  | zero =>
    intro isMachine a b c d e f g h i depth hcert
    simp [atMost] at hcert
  | succ fuel ih =>
    intro isMachine a b c d e f g h i depth hcert
    rw [atMost] at hcert
    by_cases hover : isGameOver 3 (board9 a b c d e f g h i) = true
    · simp only [hover, if_true, decide_eq_true_eq] at hcert
      rw [miniMax_terminal _ _ _ _ hover]
      exact hcert
    · have hover2 : isGameOver 3 (board9 a b c d e f g h i) = false := by simpa using hover
      simp only [hover2, Bool.false_eq_true, if_false] at hcert
      cases isMachine with
      | true =>
        simp only [if_true, Bool.and_eq_true, Bool.or_eq_true, bne_iff_ne, ne_eq] at hcert
        obtain ⟨⟨⟨⟨⟨⟨⟨⟨h1, h2⟩, h3⟩, h4⟩, h5⟩, h6⟩, h7⟩, h8⟩, h9⟩ := hcert
        obtain ⟨⟨x, y, hc, hval⟩, _⟩ := miniMax_max 3 (board9 a b c d e f g h i) depth hover2
        obtain ⟨hx, hy⟩ := isGrid_inBounds (isGrid_board9 a b c d e f g h i) (i := x) (j := y)
          (by rw [hc]; decide)
        rw [hval]
        interval_cases x <;> interval_cases y
        · exact (h1.elim (fun hne => absurd hc hne)
            (fun hc2 => ih false 79 b c d e f g h i (depth + 1) hc2))
        · exact (h2.elim (fun hne => absurd hc hne)
            (fun hc2 => ih false a 79 c d e f g h i (depth + 1) hc2))
        · exact (h3.elim (fun hne => absurd hc hne)
            (fun hc2 => ih false a b 79 d e f g h i (depth + 1) hc2))
        · exact (h4.elim (fun hne => absurd hc hne)
            (fun hc2 => ih false a b c 79 e f g h i (depth + 1) hc2))
        · exact (h5.elim (fun hne => absurd hc hne)
            (fun hc2 => ih false a b c d 79 f g h i (depth + 1) hc2))
        · exact (h6.elim (fun hne => absurd hc hne)
            (fun hc2 => ih false a b c d e 79 g h i (depth + 1) hc2))
        · exact (h7.elim (fun hne => absurd hc hne)
            (fun hc2 => ih false a b c d e f 79 h i (depth + 1) hc2))
        · exact (h8.elim (fun hne => absurd hc hne)
            (fun hc2 => ih false a b c d e f g 79 i (depth + 1) hc2))
        · exact (h9.elim (fun hne => absurd hc hne)
            (fun hc2 => ih false a b c d e f g h 79 (depth + 1) hc2))
      | false =>
        simp only [Bool.false_eq_true, if_false, Bool.or_eq_true, Bool.and_eq_true,
          beq_iff_eq] at hcert
        have hmin := (miniMax_min 3 (board9 a b c d e f g h i) depth hover2).2
        rcases hcert with ((((((((⟨he, hc⟩ | ⟨he, hc⟩) | ⟨he, hc⟩) | ⟨he, hc⟩) | ⟨he, hc⟩) | ⟨he, hc⟩) | ⟨he, hc⟩) | ⟨he, hc⟩) | ⟨he, hc⟩)
        · exact le_trans (hmin 1 1 he)
            (ih true a b c d 88 f g h i (depth + 1) hc)
        · exact le_trans (hmin 0 0 he)
            (ih true 88 b c d e f g h i (depth + 1) hc)
        · exact le_trans (hmin 0 2 he)
            (ih true a b 88 d e f g h i (depth + 1) hc)
        · exact le_trans (hmin 2 0 he)
            (ih true a b c d e f 88 h i (depth + 1) hc)
        · exact le_trans (hmin 2 2 he)
            (ih true a b c d e f g h 88 (depth + 1) hc)
        · exact le_trans (hmin 0 1 he)
            (ih true a 88 c d e f g h i (depth + 1) hc)
        · exact le_trans (hmin 1 0 he)
            (ih true a b c 88 e f g h i (depth + 1) hc)
        · exact le_trans (hmin 1 2 he)
            (ih true a b c d e 88 g h i (depth + 1) hc)
        · exact le_trans (hmin 2 1 he)
            (ih true a b c d e f g 88 i (depth + 1) hc)

theorem certAtLeast_sound (bound : Int) (isMachine : Bool) (board : Board) (depth : Int)
    (hcert : certAtLeast bound isMachine board = true) :
    bound ≤ miniMax 3 board depth isMachine := by
  unfold certAtLeast at hcert
  split at hcert
  · next a b c d e f g h i =>
    simp only [Bool.or_eq_true, decide_eq_true_eq] at hcert
    rcases hcert with hb | h1
    · exact le_trans hb (miniMax_range 3 _ depth isMachine).1
    · exact atLeast_sound bound 10 isMachine a b c d e f g h i depth h1
  · exact absurd hcert Bool.false_ne_true

theorem certAtMost_sound (bound : Int) (isMachine : Bool) (board : Board) (depth : Int)
    (hcert : certAtMost bound isMachine board = true) :
    miniMax 3 board depth isMachine ≤ bound := by
  unfold certAtMost at hcert
  split at hcert
  · next a b c d e f g h i =>
    simp only [Bool.or_eq_true, decide_eq_true_eq] at hcert
    rcases hcert with hb | h1
    · exact le_trans (miniMax_range 3 _ depth isMachine).2 hb
    · exact atMost_sound bound 10 isMachine a b c d e f g h i depth h1
  · exact absurd hcert Bool.false_ne_true

theorem precedes_trichotomy (p q : Nat × Nat) : Precedes p q ∨ p = q ∨ Precedes q p := by
  unfold Precedes
  rcases Nat.lt_trichotomy p.1 q.1 with h | h | h
  · exact Or.inl (Or.inl h)
  · rcases Nat.lt_trichotomy p.2 q.2 with h2 | h2 | h2
    · exact Or.inl (Or.inr ⟨h, h2⟩)
    · exact Or.inr (Or.inl (Prod.ext h h2))
    · exact Or.inr (Or.inr (Or.inr ⟨h.symm, h2⟩))
  · exact Or.inr (Or.inr (Or.inl h))

/-- The root scan on a 3 × 3 board ends on the `NONE` cell `(ti, tj)` as soon as no `NONE`
cell scores more than it and every `NONE` cell scanned before it scores less. -/
theorem rootScan_three_eq (mark : Nat) (board : Board) (hgrid : IsGrid 3 board) (ti tj : Nat)
    (ht : cellAt board ti tj = Player.NONE.toChar)
    (hmax : ∀ k l, cellAt board k l = Player.NONE.toChar →
      miniMax 3 (setCell board k l mark) 0 false ≤ miniMax 3 (setCell board ti tj mark) 0 false)
    (hfirst : ∀ k l, cellAt board k l = Player.NONE.toChar → Precedes (k, l) (ti, tj) →
      miniMax 3 (setCell board k l mark) 0 false <
        miniMax 3 (setCell board ti tj mark) 0 false) :
    rootScan 3 mark board =
      { board := board, bestScore := miniMax 3 (setCell board ti tj mark) 0 false,
        bestMove := ((ti : Int), (tj : Int)) } := by
  obtain ⟨i, j, _, _, hc, hscan, hmax2, hfirst2⟩ := rootScan_three mark board hgrid ⟨ti, tj, ht⟩
  rcases precedes_trichotomy (i, j) (ti, tj) with hp | hp | hp
  · have h1 := hfirst i j hc hp
    have h2 := hmax2 ti tj ht
    omega
  · have hi : i = ti := congrArg Prod.fst hp
    have hj : j = tj := congrArg Prod.snd hp
    rw [hscan, hi, hj]
  · have h1 := hfirst2 ti tj ht hp
    have h2 := hmax i j hc
    omega

theorem rootCert_sound (mark : Nat) (board : Board) (ti tj : Nat) (score : Int)
    (hcert : rootCert mark board (ti, tj) score = true) :
    rootScan 3 mark board =
      { board := board, bestScore := miniMax 3 (setCell board ti tj mark) 0 false,
        bestMove := ((ti : Int), (tj : Int)) } := by
  unfold rootCert at hcert
  simp only [Bool.and_eq_true, decide_eq_true_eq, beq_iff_eq, List.all_eq_true] at hcert
  obtain ⟨hgrid, ht, hlow, hall⟩ := hcert
  have hlow2 := certAtLeast_sound score false _ 0 hlow
  have hbound : ∀ k l, cellAt board k l = Player.NONE.toChar → (k, l) ≠ (ti, tj) →
      miniMax 3 (setCell board k l mark) 0 false ≤
        (if Precedes (k, l) (ti, tj) then score - 1 else score) := by
    intro k l hkl hne
    have hb := isGrid_inBounds hgrid (i := k) (j := l) (by rw [hkl]; decide)
    have h := hall (k, l) ((mem_gridOrder 3 k l).2 hb)
    simp only [Bool.or_eq_true, bne_iff_ne, ne_eq, beq_iff_eq] at h
    rcases h with h | h | h
    · exact absurd hkl h
    · exact absurd h hne
    · exact certAtMost_sound _ false _ 0 h
  apply rootScan_three_eq mark board hgrid ti tj ht
  · intro k l hkl
    by_cases hne : (k, l) = (ti, tj)
    · have hk : k = ti := congrArg Prod.fst hne
      have hl : l = tj := congrArg Prod.snd hne
      rw [hk, hl]
    · have h := hbound k l hkl hne
      split at h <;> omega
  · intro k l hkl hprec
    have hne : (k, l) ≠ (ti, tj) := by
      intro e
      rw [e] at hprec
      unfold Precedes at hprec
      omega
    have h := hbound k l hkl hne
    rw [if_pos hprec] at h
    omega

/-! ## The root search on the empty board (C11) -/

set_option maxRecDepth 100000 in
theorem rootCert_empty_machine :
    rootCert Player.Machine.toChar (emptyBoard 3) (0, 0) 0 = true := by
  decide!

set_option maxRecDepth 100000 in
theorem rootCert_empty_hint :
    rootCert Player.HUMAN.toChar (emptyBoard 3) (0, 0) (-1) = true := by
  decide!

/-- C11. On the empty 3 × 3 board both root searches select the cell `(0, 0)`: the
Hard-mode search of `playTheBest` ends with `bestMove = (0, 0)` and `playTheBest` marks
that cell, and the hint search ends with `bestMove = (0, 0)` and highlights it. -/
theorem emptyBoard_root_search (r : Nat) :
    (rootScan 3 Player.Machine.toChar (emptyBoard 3)).bestMove = (0, 0) ∧
    playTheBest "Hard" 3 r (emptyBoard 3) =
      [[79, 32, 32], [32, 32, 32], [32, 32, 32]] ∧
    (rootScan 3 Player.HUMAN.toChar (emptyBoard 3)).bestMove = (0, 0) ∧
    on_actionGet_Hint_triggered 3 r (emptyBoard 3) = (some (0, 0), emptyBoard 3) := by
  have hm := rootCert_sound Player.Machine.toChar (emptyBoard 3) 0 0 0 rootCert_empty_machine
  have hh := rootCert_sound Player.HUMAN.toChar (emptyBoard 3) 0 0 (-1) rootCert_empty_hint
  refine ⟨by rw [hm]; rfl, ?_, by rw [hh]; rfl, ?_⟩
  · rw [playTheBest_hard_move r _ 0 0 _ hm]
    rfl
  · rw [hint_three_move r _ 0 0 _ hh]
    rfl

/-! ## A winning cell at `(2, 2)` (C12) -/

theorem cellAt_setCell_cases (gameBoard : Board) (i j c k l : Nat) :
    cellAt (setCell gameBoard i j c) k l = cellAt gameBoard k l ∨
      ((k, l) = (i, j) ∧ cellAt (setCell gameBoard i j c) k l = c) := by
  by_cases h : (i, j) = (k, l)
  · have hi : i = k := congrArg Prod.fst h
    have hj : j = l := congrArg Prod.snd h
    subst hi
    subst hj
    by_cases hb : j < (gameBoard.getD i []).length
    · exact Or.inr ⟨rfl, cellAt_setCell_self c hb⟩
    · left
      unfold cellAt
      rw [getD_setCell]
      simp only [if_true]
      rw [List.set_eq_of_length_le (Nat.le_of_not_lt hb)]
  · exact Or.inl (cellAt_setCell_ne gameBoard c h)

theorem checkWin_setCell_other {gridSize : Nat} (player : Player) (gameBoard : Board)
    (i j c : Nat) (hc : c ≠ player.toChar)
    (h : checkWin gridSize player (setCell gameBoard i j c) = true) :
    checkWin gridSize player gameBoard = true := by
  rw [checkWin_iff] at h ⊢
  have key : ∀ k l, cellAt (setCell gameBoard i j c) k l = player.toChar →
      cellAt gameBoard k l = player.toChar := by
    intro k l hkl
    rcases cellAt_setCell_cases gameBoard i j c k l with e | ⟨_, e⟩
    · rw [← e]; exact hkl
    · rw [e] at hkl; exact absurd hkl hc
  unfold HasLine at h ⊢
  rcases h with ⟨a, ha, H⟩ | ⟨a, ha, H⟩ | H | H
  · exact Or.inl ⟨a, ha, fun b hb => key _ _ (H b hb)⟩
  · exact Or.inr (Or.inl ⟨a, ha, fun b hb => key _ _ (H b hb)⟩)
  · exact Or.inr (Or.inr (Or.inl (fun b hb => key _ _ (H b hb))))
  · exact Or.inr (Or.inr (Or.inr (fun b hb => key _ _ (H b hb))))

theorem checkWin_setCell_same {gridSize : Nat} (player : Player) (gameBoard : Board)
    (i j : Nat) (h : checkWin gridSize player gameBoard = true) :
    checkWin gridSize player (setCell gameBoard i j player.toChar) = true := by
  rw [checkWin_iff] at h ⊢
  have key : ∀ k l, cellAt gameBoard k l = player.toChar →
      cellAt (setCell gameBoard i j player.toChar) k l = player.toChar := by
    intro k l hkl
    rcases cellAt_setCell_cases gameBoard i j player.toChar k l with e | ⟨_, e⟩
    · rw [e]; exact hkl
    · exact e
  unfold HasLine at h ⊢
  rcases h with ⟨a, ha, H⟩ | ⟨a, ha, H⟩ | H | H
  · exact Or.inl ⟨a, ha, fun b hb => key _ _ (H b hb)⟩
  · exact Or.inr (Or.inl ⟨a, ha, fun b hb => key _ _ (H b hb)⟩)
  · exact Or.inr (Or.inr (Or.inl (fun b hb => key _ _ (H b hb))))
  · exact Or.inr (Or.inr (Or.inr (fun b hb => key _ _ (H b hb))))

/-- The score of a cell that completes a line for the machine, on a board where the
human has no line, is `+1`. -/
theorem miniMax_winning_cell (board : Board) (i j : Nat)
    (hhuman : checkWin 3 .HUMAN board = false)
    (hwin : checkWin 3 .Machine (setCell board i j Player.Machine.toChar) = true) :
    miniMax 3 (setCell board i j Player.Machine.toChar) 0 false = 1 := by
  have hover : isGameOver 3 (setCell board i j Player.Machine.toChar) = true :=
    (isGameOver_eq_true_iff 3 _).2 (Or.inr (Or.inl hwin))
  have hh : checkWin 3 .HUMAN (setCell board i j Player.Machine.toChar) = false := by
    by_contra hn
    have ht : checkWin 3 .HUMAN (setCell board i j Player.Machine.toChar) = true := by
      simpa using hn
    have := checkWin_setCell_other .HUMAN board i j Player.Machine.toChar (by decide) ht
    rw [hhuman] at this
    exact Bool.false_ne_true this
  rw [miniMax_terminal 3 _ 0 false hover]
  unfold calculateScore
  simp only [hh, hwin, Bool.false_eq_true, if_false, if_true]
  rfl

set_option maxRecDepth 100000 in
theorem rootScan_scenarioD_variant :
    rootScan 3 Player.Machine.toChar [[79, 32, 32], [88, 79, 88], [32, 88, 32]] =
      { board := [[79, 32, 32], [88, 79, 88], [32, 88, 32]], bestScore := 1,
        bestMove := (((0 : Nat) : Int), ((1 : Nat) : Int)) } := by
  decide!

/-- C12, counterexample to the claim as stated.  On `[[O,_,_],[X,O,X],[_,X,_]]` the cell
`(2, 2)` is `NONE`, `O` at `(2, 2)` completes the diagonal, and no `NONE` cell completes
a line for `X`; yet the Hard-mode search selects `(0, 1)`, which also scores `+1` and is
scanned first, and `playTheBest` marks `(0, 1)`. -/
theorem scenarioD_earlier_cell_selected :
    IsGrid 3 [[79, 32, 32], [88, 79, 88], [32, 88, 32]] ∧
    cellAt [[79, 32, 32], [88, 79, 88], [32, 88, 32]] 2 2 = Player.NONE.toChar ∧
    checkWin 3 .Machine
      (setCell [[79, 32, 32], [88, 79, 88], [32, 88, 32]] 2 2 Player.Machine.toChar) = true ∧
    (∀ i j, i < 3 → j < 3 →
      cellAt [[79, 32, 32], [88, 79, 88], [32, 88, 32]] i j = Player.NONE.toChar →
      checkWin 3 .HUMAN
        (setCell [[79, 32, 32], [88, 79, 88], [32, 88, 32]] i j Player.HUMAN.toChar) = false) ∧
    (rootScan 3 Player.Machine.toChar [[79, 32, 32], [88, 79, 88], [32, 88, 32]]).bestMove =
      (0, 1) ∧
    ¬ (rootScan 3 Player.Machine.toChar [[79, 32, 32], [88, 79, 88], [32, 88, 32]]).bestMove =
      (2, 2) ∧
    playTheBest "Hard" 3 0 [[79, 32, 32], [88, 79, 88], [32, 88, 32]] =
      [[79, 79, 32], [88, 79, 88], [32, 88, 32]] := by
  refine ⟨by decide, by decide, by decide, ?_, ?_, ?_, ?_⟩
  · intro i j hi hj
    interval_cases i <;> interval_cases j <;> decide
  · rw [rootScan_scenarioD_variant]; rfl
  · rw [rootScan_scenarioD_variant]; decide
  · rw [playTheBest_hard_move 0 _ 0 1 1 rootScan_scenarioD_variant]
    rfl

/-- C12, amended.  On a 3 × 3 board on which `(2, 2)` is `NONE`, `O` at `(2, 2)`
completes a line for `O`, and no `NONE` cell completes a line for `X`, the Hard-mode
search of `playTheBest` selects the first `NONE` cell in row-major order whose score is
`+1` (every `NONE` cell scanned before it scores less), and `playTheBest` marks it; the
selected cell is `(2, 2)` exactly when no other `NONE` cell scores `+1`. -/
theorem scenarioD_first_winning_cell (r : Nat) (board : Board) (hgrid : IsGrid 3 board)
    (hcell : cellAt board 2 2 = Player.NONE.toChar)
    (hwin : checkWin 3 .Machine (setCell board 2 2 Player.Machine.toChar) = true)
    (hnothreat : ∀ i j, i < 3 → j < 3 → cellAt board i j = Player.NONE.toChar →
      checkWin 3 .HUMAN (setCell board i j Player.HUMAN.toChar) = false) :
    ∃ i j, i < 3 ∧ j < 3 ∧ cellAt board i j = Player.NONE.toChar ∧
      (rootScan 3 Player.Machine.toChar board).bestMove = ((i : Int), (j : Int)) ∧
      playTheBest "Hard" 3 r board = setCell board i j Player.Machine.toChar ∧
      miniMax 3 (setCell board i j Player.Machine.toChar) 0 false = 1 ∧
      (∀ k l, k < 3 → l < 3 → cellAt board k l = Player.NONE.toChar →
        (k < i ∨ (k = i ∧ l < j)) →
        miniMax 3 (setCell board k l Player.Machine.toChar) 0 false < 1) ∧
      ((i = 2 ∧ j = 2) ↔
        ∀ k l, k < 3 → l < 3 → cellAt board k l = Player.NONE.toChar → ¬ (k = 2 ∧ l = 2) →
          miniMax 3 (setCell board k l Player.Machine.toChar) 0 false ≠ 1) := by
  have hhuman : checkWin 3 .HUMAN board = false := by
    by_contra hn
    have ht : checkWin 3 .HUMAN board = true := by simpa using hn
    have := checkWin_setCell_same .HUMAN board 2 2 ht
    rw [hnothreat 2 2 (by decide) (by decide) hcell] at this
    exact Bool.false_ne_true this
  have hscore22 := miniMax_winning_cell board 2 2 hhuman hwin
  obtain ⟨i, j, hi, hj, hc, hscan, hmax, hfirst⟩ :=
    rootScan_three Player.Machine.toChar board hgrid ⟨2, 2, hcell⟩
  have hle := hmax 2 2 hcell
  have hup := (miniMax_range 3 (setCell board i j Player.Machine.toChar) 0 false).2
  have hscore : miniMax 3 (setCell board i j Player.Machine.toChar) 0 false = 1 := by
    rw [hscore22] at hle
    omega
  refine ⟨i, j, hi, hj, hc, by rw [hscan], playTheBest_hard_move r board i j _ hscan, hscore,
    ?_, ?_⟩
  · intro k l _ _ hkl hprec
    have := hfirst k l hkl hprec
    rw [hscore] at this
    exact this
  · constructor
    · rintro ⟨rfl, rfl⟩ k l hk hl hkl hne
      have hprec : Precedes (k, l) (2, 2) := by
        unfold Precedes
        simp only
        omega
      have := hfirst k l hkl hprec
      rw [hscore] at this
      omega
    · intro hno
      by_contra hne
      exact hno i j hi hj hc hne hscore

/-- Witness of the amended C12 on the board of the counterexample. -/
theorem scenarioD_first_winning_cell_witness :
    IsGrid 3 [[79, 32, 32], [88, 79, 88], [32, 88, 32]] ∧
    cellAt [[79, 32, 32], [88, 79, 88], [32, 88, 32]] 2 2 = Player.NONE.toChar ∧
    checkWin 3 .Machine
      (setCell [[79, 32, 32], [88, 79, 88], [32, 88, 32]] 2 2 Player.Machine.toChar) = true ∧
    (∃ i j, i < 3 ∧ j < 3 ∧
      cellAt [[79, 32, 32], [88, 79, 88], [32, 88, 32]] i j = Player.NONE.toChar ∧
      (rootScan 3 Player.Machine.toChar [[79, 32, 32], [88, 79, 88], [32, 88, 32]]).bestMove =
        ((i : Int), (j : Int)) ∧
      playTheBest "Hard" 3 0 [[79, 32, 32], [88, 79, 88], [32, 88, 32]] =
        setCell [[79, 32, 32], [88, 79, 88], [32, 88, 32]] i j Player.Machine.toChar ∧
      miniMax 3 (setCell [[79, 32, 32], [88, 79, 88], [32, 88, 32]] i j
        Player.Machine.toChar) 0 false = 1 ∧
      (∀ k l, k < 3 → l < 3 →
        cellAt [[79, 32, 32], [88, 79, 88], [32, 88, 32]] k l = Player.NONE.toChar →
        (k < i ∨ (k = i ∧ l < j)) →
        miniMax 3 (setCell [[79, 32, 32], [88, 79, 88], [32, 88, 32]] k l
          Player.Machine.toChar) 0 false < 1) ∧
      ((i = 2 ∧ j = 2) ↔
        ∀ k l, k < 3 → l < 3 →
          cellAt [[79, 32, 32], [88, 79, 88], [32, 88, 32]] k l = Player.NONE.toChar →
          ¬ (k = 2 ∧ l = 2) →
          miniMax 3 (setCell [[79, 32, 32], [88, 79, 88], [32, 88, 32]] k l
            Player.Machine.toChar) 0 false ≠ 1)) :=
  ⟨by decide, by decide, by decide,
    scenarioD_first_winning_cell 0 [[79, 32, 32], [88, 79, 88], [32, 88, 32]] (by decide)
      (by decide) (by decide)
      (by intro i j hi hj; interval_cases i <;> interval_cases j <;> decide)⟩

/-! ## Engine against engine (C13) -/

theorem engineGame_over (fuel : Nat) (humanToMove : Bool) (board : Board)
    (hover : isGameOver 3 board = true) :
    engineGame (fuel + 1) humanToMove board = board := by
  rw [engineGame]
  simp only [hover, if_true]

theorem engineGame_human_step (fuel : Nat) (board : Board) (i j : Nat) (score : Int)
    (hover : isGameOver 3 board = false)
    (hcert : rootCert Player.HUMAN.toChar board (i, j) score = true) :
    engineGame (fuel + 1) true board =
      engineGame fuel false (setCell board i j Player.HUMAN.toChar) := by
  have hhint := hint_three_move 0 board i j _ (rootCert_sound _ board i j score hcert)
  rw [engineGame]
  unfold engineMove
  simp only [hover, Bool.false_eq_true, if_false, if_true, hhint, Int.toNat_ofNat,
    Bool.not_true]

theorem engineGame_machine_step (fuel : Nat) (board : Board) (i j : Nat) (score : Int)
    (hover : isGameOver 3 board = false)
    (hcert : rootCert Player.Machine.toChar board (i, j) score = true) :
    engineGame (fuel + 1) false board =
      engineGame fuel true (setCell board i j Player.Machine.toChar) := by
  have hmove := playTheBest_hard_move 0 board i j _ (rootCert_sound _ board i j score hcert)
  rw [engineGame]
  unfold engineMove
  simp only [hover, Bool.false_eq_true, if_false, hmove, Bool.not_false]

set_option maxRecDepth 100000 in
theorem rootCert_game_move2 :
    rootCert Player.Machine.toChar [[88, 32, 32], [32, 32, 32], [32, 32, 32]] (1, 1) 0 =
      true := by
  decide!

set_option maxRecDepth 100000 in
theorem rootCert_game_move3 :
    rootCert Player.HUMAN.toChar [[88, 32, 32], [32, 79, 32], [32, 32, 32]] (0, 1) (-1) =
      true := by
  decide!

set_option maxRecDepth 100000 in
theorem rootCert_game_move4 :
    rootCert Player.Machine.toChar [[88, 88, 32], [32, 79, 32], [32, 32, 32]] (0, 2) 0 =
      true := by
  decide!

set_option maxRecDepth 100000 in
theorem rootCert_game_move5 :
    rootCert Player.HUMAN.toChar [[88, 88, 79], [32, 79, 32], [32, 32, 32]] (1, 2) 0 =
      true := by
  decide!

set_option maxRecDepth 100000 in
theorem rootCert_game_move6 :
    rootCert Player.Machine.toChar [[88, 88, 79], [32, 79, 88], [32, 32, 32]] (2, 0) 1 =
      true := by
  decide!

/-- C13, the code at the failing input.  Engine against engine from the empty 3 × 3
board (the hint search moves for `X`, `playTheBest` in Hard mode for `O`) plays
`X (0,0)`, `O (1,1)`, `X (0,1)`, `O (0,2)`, `X (1,2)`, `O (2,0)` and ends on
`[[X,X,O],[_,O,X],[O,_,_]]`, where the machine has completed the anti-diagonal:
`calculateScore` is `LOSE`, not `TIE`. -/
theorem engine_game_machine_wins :
    engineGame 10 true (emptyBoard 3) = [[88, 88, 79], [32, 79, 88], [79, 32, 32]] ∧
    isGameOver 3 [[88, 88, 79], [32, 79, 88], [79, 32, 32]] = true ∧
    checkWin 3 .Machine [[88, 88, 79], [32, 79, 88], [79, 32, 32]] = true ∧
    calculateScore 3 [[88, 88, 79], [32, 79, 88], [79, 32, 32]] = HumanState.LOSE ∧
    ¬ calculateScore 3 (engineGame 10 true (emptyBoard 3)) = HumanState.TIE := by
  have s1 : engineGame 10 true (emptyBoard 3) =
      engineGame 9 false [[88, 32, 32], [32, 32, 32], [32, 32, 32]] :=
    engineGame_human_step 9 (emptyBoard 3) 0 0 (-1) (by decide) rootCert_empty_hint
  have s2 : engineGame 9 false [[88, 32, 32], [32, 32, 32], [32, 32, 32]] =
      engineGame 8 true [[88, 32, 32], [32, 79, 32], [32, 32, 32]] :=
    engineGame_machine_step 8 _ 1 1 0 (by decide) rootCert_game_move2
  have s3 : engineGame 8 true [[88, 32, 32], [32, 79, 32], [32, 32, 32]] =
      engineGame 7 false [[88, 88, 32], [32, 79, 32], [32, 32, 32]] :=
    engineGame_human_step 7 _ 0 1 (-1) (by decide) rootCert_game_move3
  have s4 : engineGame 7 false [[88, 88, 32], [32, 79, 32], [32, 32, 32]] =
      engineGame 6 true [[88, 88, 79], [32, 79, 32], [32, 32, 32]] :=
    engineGame_machine_step 6 _ 0 2 0 (by decide) rootCert_game_move4
  have s5 : engineGame 6 true [[88, 88, 79], [32, 79, 32], [32, 32, 32]] =
      engineGame 5 false [[88, 88, 79], [32, 79, 88], [32, 32, 32]] :=
    engineGame_human_step 5 _ 1 2 0 (by decide) rootCert_game_move5
  have s6 : engineGame 5 false [[88, 88, 79], [32, 79, 88], [32, 32, 32]] =
      engineGame 4 true [[88, 88, 79], [32, 79, 88], [79, 32, 32]] :=
    engineGame_machine_step 4 _ 2 0 1 (by decide) rootCert_game_move6
  have s7 : engineGame 4 true [[88, 88, 79], [32, 79, 88], [79, 32, 32]] =
      [[88, 88, 79], [32, 79, 88], [79, 32, 32]] :=
    engineGame_over 3 true _ (by decide)
  have hfinal : engineGame 10 true (emptyBoard 3) =
      [[88, 88, 79], [32, 79, 88], [79, 32, 32]] := by
    rw [s1, s2, s3, s4, s5, s6, s7]
  refine ⟨hfinal, by decide, by decide, by decide, ?_⟩
  rw [hfinal]
  decide

/-! ## The documented difficulty "Medium" (C21) -/

/-- C22. For every `N ≥ 1` and every `N × N` board, `miniMax` returns `-1`, `0` or `1`;
it never returns the sentinels `INT_MIN`, `INT_MAX` that initialise `bestScore`, because
a board that is not terminal has a `NONE` cell. -/
theorem miniMax_value_range (N : Nat) (gameBoard : Board) (depth : Int) (isMachine : Bool)
    (hN : 1 ≤ N) (hgrid : IsGrid N gameBoard) :
    (miniMax N gameBoard depth isMachine = -1 ∨ miniMax N gameBoard depth isMachine = 0 ∨
      miniMax N gameBoard depth isMachine = 1) ∧
    miniMax N gameBoard depth isMachine ≠ INT_MIN ∧
    miniMax N gameBoard depth isMachine ≠ INT_MAX ∧
    (isGameOver N gameBoard = false →
      ∃ i j, i < N ∧ j < N ∧ cellAt gameBoard i j = Player.NONE.toChar) := by
  have _ := hN
  obtain ⟨h1, h2⟩ := miniMax_range N gameBoard depth isMachine
  refine ⟨by omega, by unfold INT_MIN; omega, by unfold INT_MAX; omega, ?_⟩
  intro hover
  obtain ⟨i, j, hc⟩ := isGameOver_false_hasNone hover
  obtain ⟨hi, hj⟩ := isGrid_inBounds hgrid (i := i) (j := j) (by rw [hc]; decide)
  exact ⟨i, j, hi, hj, hc⟩

/-- Witness of C22 on a 3 × 3 board of a game in progress. -/
theorem miniMax_value_range_witness :
    1 ≤ 3 ∧ IsGrid 3 [[88, 88, 32], [79, 79, 32], [32, 32, 32]] ∧
    (miniMax 3 [[88, 88, 32], [79, 79, 32], [32, 32, 32]] 0 true = -1 ∨
      miniMax 3 [[88, 88, 32], [79, 79, 32], [32, 32, 32]] 0 true = 0 ∨
      miniMax 3 [[88, 88, 32], [79, 79, 32], [32, 32, 32]] 0 true = 1) :=
  ⟨by decide, by decide,
    (miniMax_value_range 3 [[88, 88, 32], [79, 79, 32], [32, 32, 32]] 0 true (by decide)
      (by decide)).1⟩

theorem countNone_pos_of_cell {gameBoard : Board} {i j : Nat}
    (h : cellAt gameBoard i j = Player.NONE.toChar) : 0 < countNone gameBoard := by
  have := countNone_setCell Player.HUMAN.toChar h (by decide)
  omega

theorem foldl_max_le (bound : Nat) (values : List Nat) (init : Nat) (hinit : init ≤ bound)
    (h : ∀ v ∈ values, v ≤ bound) : values.foldl max init ≤ bound := by
  induction values generalizing init with
  | nil => exact hinit
  | cons v values ih =>
    rw [List.foldl_cons]
    apply ih
    · exact max_le hinit (h v (List.mem_cons_self _ _))
    · intro w hw
      exact h w (List.mem_cons_of_mem _ hw)

theorem miniMaxDepth_le (gridSize fuel : Nat) (gameBoard : Board) (isMachine : Bool) :
    miniMaxDepth gridSize fuel gameBoard isMachine ≤ countNone gameBoard := by
  induction fuel generalizing gameBoard isMachine with
  | zero => simp [miniMaxDepth]
  | succ fuel ih =>
    rw [miniMaxDepth]
    by_cases hover : isGameOver gridSize gameBoard = true
    · simp only [hover, if_true]
      omega
    · have hover2 : isGameOver gridSize gameBoard = false := by simpa using hover
      simp only [hover2, Bool.false_eq_true, if_false]
      obtain ⟨i, j, hc⟩ := isGameOver_false_hasNone hover2
      have hpos := countNone_pos_of_cell hc
      have hle : ((emptyCells gameBoard).map (fun pos =>
          miniMaxDepth gridSize fuel (setCell gameBoard pos.1 pos.2 (moverMark isMachine))
            (!isMachine))).foldl max 0 ≤ countNone gameBoard - 1 := by
        apply foldl_max_le _ _ _ (Nat.zero_le _)
        intro v hv
        obtain ⟨pos, hpos2, rfl⟩ := List.mem_map.1 hv
        have hcell := (mem_emptyCells gameBoard pos.1 pos.2).1 hpos2
        have hcount := countNone_setCell (moverMark isMachine) hcell (moverMark_ne_none isMachine)
        have := ih (setCell gameBoard pos.1 pos.2 (moverMark isMachine)) (!isMachine)
        omega
      omega

theorem bounded_execution_eq (N : Nat) (F : Nat → Board → Int → Bool → Int)
    (hF : ∀ fuel b d m, F (fuel + 1) b d m =
      if isGameOver N b then (calculateScore N b).toInt
      else (miniMaxScan (fun b2 => F fuel b2 (d + 1) (!m)) m b).2) :
    ∀ fuel gameBoard depth isMachine, countNone gameBoard < fuel →
      F fuel gameBoard depth isMachine = miniMax N gameBoard depth isMachine := by
  intro fuel
  induction fuel with
  | zero => intro gameBoard depth isMachine h; omega
  | succ fuel ih =>
    intro gameBoard depth isMachine hfuel
    rw [hF]
    by_cases hover : isGameOver N gameBoard = true
    · rw [if_pos hover, miniMax_terminal N gameBoard depth isMachine hover]
    · have hover2 : isGameOver N gameBoard = false := by simpa using hover
      rw [if_neg hover, miniMaxScan_eq, miniMax_step N gameBoard depth isMachine hover2]
      show bestOf isMachine _ _ = bestOf isMachine _ _
      congr 1
      apply List.map_congr_left
      intro pos hpos
      have hc := (mem_emptyCells gameBoard pos.1 pos.2).1 hpos
      have hcount := countNone_setCell (moverMark isMachine) hc (moverMark_ne_none isMachine)
      exact ih _ _ _ (by omega)

/-- C23. `miniMax` terminates on every board.  The scan loop of `miniMax` makes its
recursive calls on the boards obtained from `gameBoard` by writing the mover's mark on a
`NONE` cell, one call for each `NONE` cell in scan order (`recurse` stands for the
recursive call), and nowhere else; each of these boards has exactly one `NONE` cell
fewer.  Hence the nesting depth of the recursion never exceeds the number of `NONE`
cells; and every execution `F` of the recursion that is cut at a nesting depth `fuel`
above that number returns the value of `miniMax`, whatever it returns at the cut: the
cut is never reached.  `miniMaxAux`, which returns `0` at the cut, is one of them. -/
theorem miniMax_terminates (N : Nat) (gameBoard : Board) (depth : Int) (isMachine : Bool) :
    (∀ recurse : Board → Int,
      miniMaxScan recurse isMachine gameBoard =
        (gameBoard, bestOf isMachine (if isMachine then INT_MIN else INT_MAX)
          ((emptyCells gameBoard).map
            (fun pos => recurse (setCell gameBoard pos.1 pos.2 (moverMark isMachine)))))) ∧
    (∀ pos ∈ emptyCells gameBoard,
      cellAt gameBoard pos.1 pos.2 = Player.NONE.toChar ∧
      countNone (setCell gameBoard pos.1 pos.2 (moverMark isMachine)) + 1 =
        countNone gameBoard) ∧
    (∀ fuel, miniMaxDepth N fuel gameBoard isMachine ≤ countNone gameBoard) ∧
    (∀ F : Nat → Board → Int → Bool → Int,
      (∀ fuel b d m, F (fuel + 1) b d m =
        if isGameOver N b then (calculateScore N b).toInt
        else (miniMaxScan (fun b2 => F fuel b2 (d + 1) (!m)) m b).2) →
      ∀ fuel, countNone gameBoard < fuel →
        F fuel gameBoard depth isMachine = miniMax N gameBoard depth isMachine) ∧
    (∀ fuel b d m, miniMaxAux N (fuel + 1) b d m =
      if isGameOver N b then (calculateScore N b).toInt
      else (miniMaxScan (fun b2 => miniMaxAux N fuel b2 (d + 1) (!m)) m b).2) ∧
    (∀ fuel, countNone gameBoard < fuel →
      miniMaxAux N fuel gameBoard depth isMachine = miniMax N gameBoard depth isMachine) := by
  refine ⟨fun recurse => miniMaxScan_eq recurse isMachine gameBoard, ?_,
    fun fuel => miniMaxDepth_le N fuel gameBoard isMachine, ?_, fun _ _ _ _ => rfl, ?_⟩
  · intro pos hpos
    have hc := (mem_emptyCells gameBoard pos.1 pos.2).1 hpos
    exact ⟨hc, countNone_setCell _ hc (moverMark_ne_none isMachine)⟩
  · intro F hF fuel hfuel
    exact bounded_execution_eq N F hF fuel gameBoard depth isMachine hfuel
  · intro fuel hfuel
    exact miniMaxAux_fuel N fuel (countNone gameBoard + 1) gameBoard depth isMachine hfuel
      (Nat.lt_succ_self _)

end TicTacToe

namespace Game2048

open TicTacToe (Board cellAt setCell IsGrid)

/-! ## The 2048 game: lines of the grid -/

theorem cellAt_setCell_line {pos : Nat → Nat × Nat} (hpos : ValidLine pos) {g : Board}
    (hg : IsGrid 4 g) {m k : Nat} (hm : m < 4) (hk : k < 4) (v : Nat) :
    cellAt (setCell g (pos m).1 (pos m).2 v) (pos k).1 (pos k).2 =
      if k = m then v else cellAt g (pos k).1 (pos k).2 := by
  by_cases hkm : k = m
  · subst hkm
    rw [if_pos rfl]
    apply TicTacToe.cellAt_setCell_self
    rw [TicTacToe.isGrid_rowLength hg (hpos.1 k hk).1]
    exact (hpos.1 k hk).2
  · rw [if_neg hkm]
    apply TicTacToe.cellAt_setCell_ne
    intro h
    exact hkm (hpos.2 k m hk hm (Prod.ext (congrArg Prod.fst h).symm (congrArg Prod.snd h).symm))

theorem lineOf_setCell {pos : Nat → Nat × Nat} (hpos : ValidLine pos) {g : Board}
    (hg : IsGrid 4 g) {m : Nat} (hm : m < 4) (v : Nat) :
    lineOf pos (setCell g (pos m).1 (pos m).2 v) = (lineOf pos g).set m v := by
  unfold lineOf
  rw [cellAt_setCell_line hpos hg hm (by decide : 0 < 4),
    cellAt_setCell_line hpos hg hm (by decide : 1 < 4),
    cellAt_setCell_line hpos hg hm (by decide : 2 < 4),
    cellAt_setCell_line hpos hg hm (by decide : 3 < 4)]
  interval_cases m <;> simp

theorem lineOf_getD (pos : Nat → Nat × Nat) (g : Board) {k : Nat} (hk : k < 4) :
    (lineOf pos g).getD k 0 = cellAt g (pos k).1 (pos k).2 := by
  interval_cases k <;> rfl

theorem sameOff_refl (pos : Nat → Nat × Nat) (g : Board) : SameOff pos g g :=
  fun _ _ _ => rfl

theorem sameOff_trans {pos : Nat → Nat × Nat} {g1 g2 g3 : Board} (h12 : SameOff pos g1 g2)
    (h23 : SameOff pos g2 g3) : SameOff pos g1 g3 :=
  fun i j h => (h23 i j h).trans (h12 i j h)

theorem sameOff_setCell (pos : Nat → Nat × Nat) (g : Board) {m : Nat} (hm : m < 4) (v : Nat) :
    SameOff pos g (setCell g (pos m).1 (pos m).2 v) := by
  intro i j h
  apply TicTacToe.cellAt_setCell_ne
  exact h m hm

theorem slideStep_view {pos : Nat → Nat × Nat} (hpos : ValidLine pos) (next : Nat → Nat)
    {g : Board} (hg : IsGrid 4 g) {index k : Nat} (hindex : index < 4) (hk : k < 4)
    (moved : Bool) :
    IsGrid 4 (slideStep pos next (g, index, moved) k).1 ∧
    SameOff pos g (slideStep pos next (g, index, moved) k).1 ∧
    (lineOf pos (slideStep pos next (g, index, moved) k).1,
      (slideStep pos next (g, index, moved) k).2) =
        lineSlideStep next (lineOf pos g, index, moved) k := by
  unfold slideStep lineSlideStep
  simp only [lineOf_getD pos g hk]
  by_cases hz : cellAt g (pos k).1 (pos k).2 ≠ 0
  · rw [if_pos hz, if_pos hz]
    by_cases hik : index ≠ k
    · rw [if_pos hik, if_pos hik]
      have hg1 : IsGrid 4 (setCell g (pos index).1 (pos index).2 (cellAt g (pos k).1 (pos k).2)) :=
        TicTacToe.isGrid_setCell hg _ _ _
      refine ⟨TicTacToe.isGrid_setCell hg1 _ _ _, ?_, ?_⟩
      · exact sameOff_trans (sameOff_setCell pos g hindex _) (sameOff_setCell pos _ hk _)
      · simp only [lineOf_setCell hpos hg1 hk, lineOf_setCell hpos hg hindex]
    · rw [if_neg hik, if_neg hik]
      exact ⟨hg, sameOff_refl pos g, rfl⟩
  · rw [if_neg hz, if_neg hz]
    exact ⟨hg, sameOff_refl pos g, rfl⟩

theorem mergeStep_view {pos : Nat → Nat × Nat} (hpos : ValidLine pos) (other : Nat → Nat)
    {g : Board} (hg : IsGrid 4 g) {k : Nat} (hk : k < 4) (hother : other k < 4)
    (score : Nat) (merged : Bool) :
    IsGrid 4 (mergeStep pos other (g, score, merged) k).1 ∧
    SameOff pos g (mergeStep pos other (g, score, merged) k).1 ∧
    (lineOf pos (mergeStep pos other (g, score, merged) k).1,
      (mergeStep pos other (g, score, merged) k).2) =
        lineMergeStep other (lineOf pos g, score, merged) k := by
  unfold mergeStep lineMergeStep
  simp only [lineOf_getD pos g hk, lineOf_getD pos g hother]
  by_cases hz : cellAt g (pos k).1 (pos k).2 ≠ 0 ∧
      cellAt g (pos k).1 (pos k).2 = cellAt g (pos (other k)).1 (pos (other k)).2
  · rw [if_pos hz, if_pos hz]
    have hg1 : IsGrid 4 (setCell g (pos k).1 (pos k).2 (cellAt g (pos k).1 (pos k).2 * 2)) :=
      TicTacToe.isGrid_setCell hg _ _ _
    refine ⟨TicTacToe.isGrid_setCell hg1 _ _ _, ?_, ?_⟩
    · exact sameOff_trans (sameOff_setCell pos g hk _) (sameOff_setCell pos _ hother _)
    · simp only [lineOf_setCell hpos hg1 hother, lineOf_setCell hpos hg hk]
  · rw [if_neg hz, if_neg hz]
    exact ⟨hg, sameOff_refl pos g, rfl⟩

theorem foldl_view {σ : Type} (pos : Nat → Nat × Nat) (step : Board × σ → Nat → Board × σ)
    (lstep : List Nat × σ → Nat → List Nat × σ) (ok : Nat → Prop) (inv : Nat → σ → Prop)
    (hstep : ∀ g s k n, IsGrid 4 g → ok k → inv (n + 1) s →
      (IsGrid 4 (step (g, s) k).1 ∧ SameOff pos g (step (g, s) k).1 ∧
        (lineOf pos (step (g, s) k).1, (step (g, s) k).2) = lstep (lineOf pos g, s) k) ∧
      inv n (step (g, s) k).2) :
    ∀ (ks : List Nat) (g : Board) (s : σ), (∀ k ∈ ks, ok k) → IsGrid 4 g → inv ks.length s →
      IsGrid 4 (ks.foldl step (g, s)).1 ∧ SameOff pos g (ks.foldl step (g, s)).1 ∧
      (lineOf pos (ks.foldl step (g, s)).1, (ks.foldl step (g, s)).2) =
        ks.foldl lstep (lineOf pos g, s) := by
  intro ks
  induction ks with
  | nil =>
    intro g s _ hg _
    exact ⟨hg, sameOff_refl pos g, rfl⟩
  | cons k ks ih =>
    intro g s hks hg hinv
    obtain ⟨⟨h1, h2, h3⟩, h4⟩ := hstep g s k ks.length hg (hks k (List.mem_cons_self _ _)) hinv
    obtain ⟨i1, i2, i3⟩ := ih (step (g, s) k).1 (step (g, s) k).2
      (fun k hk => hks k (List.mem_cons_of_mem _ hk)) h1 h4
    rw [List.foldl_cons, List.foldl_cons]
    exact ⟨i1, sameOff_trans h2 i2, by rw [i3, h3]⟩

theorem slideStep_index_le (pos : Nat → Nat × Nat) (next : Nat → Nat) (st : Board × Nat × Bool)
    (k : Nat) :
    (slideStep pos next st k).2.1 = st.2.1 ∨ (slideStep pos next st k).2.1 = next st.2.1 := by
  unfold slideStep
  split_ifs <;> simp

theorem slideLoop_forward_view {pos : Nat → Nat × Nat} (hpos : ValidLine pos) {g : Board}
    (hg : IsGrid 4 g) (moved : Bool) :
    IsGrid 4 ([0, 1, 2, 3].foldl (slideStep pos (fun index => index + 1)) (g, 0, moved)).1 ∧
    SameOff pos g
      ([0, 1, 2, 3].foldl (slideStep pos (fun index => index + 1)) (g, 0, moved)).1 ∧
    (lineOf pos ([0, 1, 2, 3].foldl (slideStep pos (fun index => index + 1)) (g, 0, moved)).1,
      ([0, 1, 2, 3].foldl (slideStep pos (fun index => index + 1)) (g, 0, moved)).2) =
        [0, 1, 2, 3].foldl (lineSlideStep (fun index => index + 1)) (lineOf pos g, 0, moved) := by
  apply foldl_view pos (slideStep pos (fun index => index + 1))
    (lineSlideStep (fun index => index + 1)) (fun k => k < 4)
    (fun n s => s.1 + n ≤ 4)
  · intro g s k n hg hk hinv
    have hinv2 : s.1 + (n + 1) ≤ 4 := hinv
    refine ⟨slideStep_view hpos _ hg (by omega) hk s.2, ?_⟩
    have := slideStep_index_le pos (fun index => index + 1) (g, s) k
    show (slideStep pos (fun index => index + 1) (g, s) k).2.1 + n ≤ 4
    simp only at this
    omega
  · intro k hk
    simp only [List.mem_cons, List.mem_singleton, List.not_mem_nil, or_false] at hk
    omega
  · exact hg
  · show 0 + 4 ≤ 4
    omega

theorem slideLoop_backward_view {pos : Nat → Nat × Nat} (hpos : ValidLine pos) {g : Board}
    (hg : IsGrid 4 g) (moved : Bool) :
    IsGrid 4 ([3, 2, 1, 0].foldl (slideStep pos (fun index => index - 1)) (g, 3, moved)).1 ∧
    SameOff pos g
      ([3, 2, 1, 0].foldl (slideStep pos (fun index => index - 1)) (g, 3, moved)).1 ∧
    (lineOf pos ([3, 2, 1, 0].foldl (slideStep pos (fun index => index - 1)) (g, 3, moved)).1,
      ([3, 2, 1, 0].foldl (slideStep pos (fun index => index - 1)) (g, 3, moved)).2) =
        [3, 2, 1, 0].foldl (lineSlideStep (fun index => index - 1)) (lineOf pos g, 3, moved) := by
  apply foldl_view pos (slideStep pos (fun index => index - 1))
    (lineSlideStep (fun index => index - 1)) (fun k => k < 4)
    (fun _ s => s.1 < 4)
  · intro g s k n hg hk hinv
    have hinv2 : s.1 < 4 := hinv
    refine ⟨slideStep_view hpos _ hg hinv2 hk s.2, ?_⟩
    have := slideStep_index_le pos (fun index => index - 1) (g, s) k
    show (slideStep pos (fun index => index - 1) (g, s) k).2.1 < 4
    simp only at this
    omega
  · intro k hk
    simp only [List.mem_cons, List.mem_singleton, List.not_mem_nil, or_false] at hk
    omega
  · exact hg
  · show 3 < 4
    omega

theorem mergeLoop_view {pos : Nat → Nat × Nat} (hpos : ValidLine pos) (other : Nat → Nat)
    (order : List Nat) (horder : ∀ k ∈ order, k < 4 ∧ other k < 4) {g : Board}
    (hg : IsGrid 4 g) (score : Nat) (merged : Bool) :
    IsGrid 4 (order.foldl (mergeStep pos other) (g, score, merged)).1 ∧
    SameOff pos g (order.foldl (mergeStep pos other) (g, score, merged)).1 ∧
    (lineOf pos (order.foldl (mergeStep pos other) (g, score, merged)).1,
      (order.foldl (mergeStep pos other) (g, score, merged)).2) =
        order.foldl (lineMergeStep other) (lineOf pos g, score, merged) := by
  apply foldl_view pos (mergeStep pos other) (lineMergeStep other)
    (fun k => k < 4 ∧ other k < 4) (fun _ _ => True)
  · intro g s k n hg hk _
    exact ⟨mergeStep_view hpos other hg hk.1 hk.2 s.1 s.2, trivial⟩
  · exact horder
  · exact hg
  · trivial

theorem lineSlide_forward (a b c d : Nat) (moved : Bool) :
    ([0, 1, 2, 3].foldl (lineSlideStep (fun index => index + 1)) ([a, b, c, d], 0, moved)).1 =
      packFront [a, b, c, d] ∧
    ([0, 1, 2, 3].foldl (lineSlideStep (fun index => index + 1)) ([a, b, c, d], 0, moved)).2.2 =
      (moved || decide (packFront [a, b, c, d] ≠ [a, b, c, d])) := by
  simp only [List.foldl_cons, List.foldl_nil]
  by_cases ha : a = 0 <;> by_cases hb : b = 0 <;> by_cases hc : c = 0 <;> by_cases hd : d = 0 <;>
    simp [lineSlideStep, packFront, ha, hb, hc, hd, List.filter]

theorem lineSlide_backward (a b c d : Nat) (moved : Bool) :
    ([3, 2, 1, 0].foldl (lineSlideStep (fun index => index - 1)) ([a, b, c, d], 3, moved)).1 =
      packBack [a, b, c, d] ∧
    ([3, 2, 1, 0].foldl (lineSlideStep (fun index => index - 1)) ([a, b, c, d], 3, moved)).2.2 =
      (moved || decide (packBack [a, b, c, d] ≠ [a, b, c, d])) := by
  simp only [List.foldl_cons, List.foldl_nil]
  by_cases ha : a = 0 <;> by_cases hb : b = 0 <;> by_cases hc : c = 0 <;> by_cases hd : d = 0 <;>
    simp [lineSlideStep, packBack, ha, hb, hc, hd, List.filter]

theorem lineMergeStep_front0 (a b c d score : Nat) (merged : Bool) :
    lineMergeStep (fun k => k + 1) ([a, b, c, d], score, merged) 0 =
      if a ≠ 0 ∧ a = b then ([a * 2, 0, c, d], score + a * 2, true)
      else ([a, b, c, d], score, merged) :=
  rfl

theorem lineMergeStep_front1 (a b c d score : Nat) (merged : Bool) :
    lineMergeStep (fun k => k + 1) ([a, b, c, d], score, merged) 1 =
      if b ≠ 0 ∧ b = c then ([a, b * 2, 0, d], score + b * 2, true)
      else ([a, b, c, d], score, merged) :=
  rfl

theorem lineMergeStep_front2 (a b c d score : Nat) (merged : Bool) :
    lineMergeStep (fun k => k + 1) ([a, b, c, d], score, merged) 2 =
      if c ≠ 0 ∧ c = d then ([a, b, c * 2, 0], score + c * 2, true)
      else ([a, b, c, d], score, merged) :=
  rfl

theorem lineMergeLoop_forward (a b c d score : Nat) (merged : Bool) :
    [0, 1, 2].foldl (lineMergeStep (fun k => k + 1)) ([a, b, c, d], score, merged) =
      if a ≠ 0 ∧ a = b then
        if c ≠ 0 ∧ c = d then ([a * 2, 0, c * 2, 0], score + a * 2 + c * 2, true)
        else ([a * 2, 0, c, d], score + a * 2, true)
      else if b ≠ 0 ∧ b = c then ([a, b * 2, 0, d], score + b * 2, true)
      else if c ≠ 0 ∧ c = d then ([a, b, c * 2, 0], score + c * 2, true)
      else ([a, b, c, d], score, merged) := by
  have hzero : ∀ x : Nat, ¬ ((0 : Nat) ≠ 0 ∧ 0 = x) := fun x h => h.1 rfl
  simp only [List.foldl_cons, List.foldl_nil]
  rw [lineMergeStep_front0]
  by_cases h1 : a ≠ 0 ∧ a = b
  · rw [if_pos h1, if_pos h1, lineMergeStep_front1, if_neg (hzero c), lineMergeStep_front2]
  · rw [if_neg h1, if_neg h1, lineMergeStep_front1]
    by_cases h2 : b ≠ 0 ∧ b = c
    · rw [if_pos h2, if_pos h2, lineMergeStep_front2, if_neg (hzero d)]
    · rw [if_neg h2, if_neg h2, lineMergeStep_front2]

theorem lineMergeStep_back3 (a b c d score : Nat) (merged : Bool) :
    lineMergeStep (fun k => k - 1) ([a, b, c, d], score, merged) 3 =
      if d ≠ 0 ∧ d = c then ([a, b, 0, d * 2], score + d * 2, true)
      else ([a, b, c, d], score, merged) :=
  rfl

theorem lineMergeStep_back2 (a b c d score : Nat) (merged : Bool) :
    lineMergeStep (fun k => k - 1) ([a, b, c, d], score, merged) 2 =
      if c ≠ 0 ∧ c = b then ([a, 0, c * 2, d], score + c * 2, true)
      else ([a, b, c, d], score, merged) :=
  rfl

theorem lineMergeStep_back1 (a b c d score : Nat) (merged : Bool) :
    lineMergeStep (fun k => k - 1) ([a, b, c, d], score, merged) 1 =
      if b ≠ 0 ∧ b = a then ([0, b * 2, c, d], score + b * 2, true)
      else ([a, b, c, d], score, merged) :=
  rfl

theorem lineMergeLoop_backward (a b c d score : Nat) (merged : Bool) :
    [3, 2, 1].foldl (lineMergeStep (fun k => k - 1)) ([a, b, c, d], score, merged) =
      if d ≠ 0 ∧ d = c then
        if b ≠ 0 ∧ b = a then ([0, b * 2, 0, d * 2], score + d * 2 + b * 2, true)
        else ([a, b, 0, d * 2], score + d * 2, true)
      else if c ≠ 0 ∧ c = b then ([a, 0, c * 2, d], score + c * 2, true)
      else if b ≠ 0 ∧ b = a then ([0, b * 2, c, d], score + b * 2, true)
      else ([a, b, c, d], score, merged) := by
  have hzero : ∀ x : Nat, ¬ ((0 : Nat) ≠ 0 ∧ 0 = x) := fun x h => h.1 rfl
  simp only [List.foldl_cons, List.foldl_nil]
  rw [lineMergeStep_back3]
  by_cases h1 : d ≠ 0 ∧ d = c
  · rw [if_pos h1, if_pos h1, lineMergeStep_back2, if_neg (hzero b), lineMergeStep_back1]
  · rw [if_neg h1, if_neg h1, lineMergeStep_back2]
    by_cases h2 : c ≠ 0 ∧ c = b
    · rw [if_pos h2, if_pos h2, lineMergeStep_back1, if_neg (hzero a)]
    · rw [if_neg h2, if_neg h2, lineMergeStep_back1]

theorem mergedFront_eq (a b c d : Nat) :
    mergedFront [a, b, c, d] =
      if a ≠ 0 ∧ a = b then
        if c ≠ 0 ∧ c = d then [a * 2, 0, c * 2, 0] else [a * 2, 0, c, d]
      else if b ≠ 0 ∧ b = c then [a, b * 2, 0, d]
      else if c ≠ 0 ∧ c = d then [a, b, c * 2, 0]
      else [a, b, c, d] := by
  unfold mergedFront
  rw [lineMergeLoop_forward]
  split_ifs <;> rfl

theorem mergedBack_eq (a b c d : Nat) :
    mergedBack [a, b, c, d] =
      if d ≠ 0 ∧ d = c then
        if b ≠ 0 ∧ b = a then [0, b * 2, 0, d * 2] else [a, b, 0, d * 2]
      else if c ≠ 0 ∧ c = b then [a, 0, c * 2, d]
      else if b ≠ 0 ∧ b = a then [0, b * 2, c, d]
      else [a, b, c, d] := by
  unfold mergedBack
  rw [lineMergeLoop_backward]
  split_ifs <;> rfl

theorem lineMerge_forward (a b c d score : Nat) (merged : Bool) :
    [0, 1, 2].foldl (lineMergeStep (fun k => k + 1)) ([a, b, c, d], score, merged) =
      (mergedFront [a, b, c, d], score + lineCreated [a, b, c, d] (mergedFront [a, b, c, d]),
        merged || decide (mergedFront [a, b, c, d] ≠ [a, b, c, d])) := by
  rw [lineMergeLoop_forward, mergedFront_eq]
  by_cases h1 : a ≠ 0 ∧ a = b
  · obtain ⟨ha, rfl⟩ := h1
    by_cases h3 : c ≠ 0 ∧ c = d
    · obtain ⟨hc, rfl⟩ := h3
      simp [lineCreated, List.range, List.range.loop, ha, hc]
      omega
    · simp [lineCreated, List.range, List.range.loop, ha, h3]
  · by_cases h2 : b ≠ 0 ∧ b = c
    · obtain ⟨hb, rfl⟩ := h2
      simp [lineCreated, List.range, List.range.loop, h1, hb]
    · by_cases h3 : c ≠ 0 ∧ c = d
      · obtain ⟨hc, rfl⟩ := h3
        simp [lineCreated, List.range, List.range.loop, h1, h2, hc]
      · simp [lineCreated, List.range, List.range.loop, h1, h2, h3]

theorem lineMerge_backward (a b c d score : Nat) (merged : Bool) :
    [3, 2, 1].foldl (lineMergeStep (fun k => k - 1)) ([a, b, c, d], score, merged) =
      (mergedBack [a, b, c, d], score + lineCreated [a, b, c, d] (mergedBack [a, b, c, d]),
        merged || decide (mergedBack [a, b, c, d] ≠ [a, b, c, d])) := by
  rw [lineMergeLoop_backward, mergedBack_eq]
  by_cases h1 : d ≠ 0 ∧ d = c
  · obtain ⟨hd, rfl⟩ := h1
    by_cases h3 : b ≠ 0 ∧ b = a
    · obtain ⟨hb, rfl⟩ := h3
      simp [lineCreated, List.range, List.range.loop, hd, hb]
      omega
    · simp [lineCreated, List.range, List.range.loop, hd, h3]
  · by_cases h2 : c ≠ 0 ∧ c = b
    · obtain ⟨hc, rfl⟩ := h2
      simp [lineCreated, List.range, List.range.loop, h1, hc]
    · by_cases h3 : b ≠ 0 ∧ b = a
      · obtain ⟨hb, rfl⟩ := h3
        simp [lineCreated, List.range, List.range.loop, h1, h2, hb]
      · simp [lineCreated, List.range, List.range.loop, h1, h2, h3]

theorem mergedFront_facts (a b c d : Nat) :
    (mergedFront [a, b, c, d]).length = 4 ∧
    (mergedFront [a, b, c, d]).sum = [a, b, c, d].sum ∧
    (mergedFront [a, b, c, d] ≠ [a, b, c, d] ↔
      (a ≠ 0 ∧ a = b) ∨ (b ≠ 0 ∧ b = c) ∨ (c ≠ 0 ∧ c = d)) ∧
    ∀ bound, (∀ x ∈ [a, b, c, d], x * 2 < bound) →
      ∀ x ∈ mergedFront [a, b, c, d], x < bound := by
  rw [mergedFront_eq]
  by_cases h1 : a ≠ 0 ∧ a = b
  · obtain ⟨ha, rfl⟩ := h1
    by_cases h3 : c ≠ 0 ∧ c = d
    · obtain ⟨hc, rfl⟩ := h3
      refine ⟨by simp [ha, hc], by simp [ha, hc]; omega, by simp [ha, hc], ?_⟩
      intro bound hb x hx
      simp [ha, hc] at hx hb
      omega
    · refine ⟨by simp [ha, h3], by simp [ha, h3]; omega, by simp [ha, h3], ?_⟩
      intro bound hb x hx
      simp [ha, h3] at hx hb
      omega
  · by_cases h2 : b ≠ 0 ∧ b = c
    · obtain ⟨hb, rfl⟩ := h2
      refine ⟨by simp [h1, hb], by simp [h1, hb]; omega, by simp [h1, hb], ?_⟩
      intro bound hb2 x hx
      simp [h1, hb] at hx hb2
      omega
    · by_cases h3 : c ≠ 0 ∧ c = d
      · obtain ⟨hc, rfl⟩ := h3
        refine ⟨by simp [h1, h2, hc], by simp [h1, h2, hc]; omega,
          by simp [h1, h2, hc], ?_⟩
        intro bound hb2 x hx
        simp [h1, h2, hc] at hx hb2
        omega
      · refine ⟨by simp [h1, h2, h3], by simp [h1, h2, h3],
          by simp [h1, h2, h3], ?_⟩
        intro bound hb2 x hx
        simp [h1, h2, h3] at hx hb2
        omega

theorem adjacent_pairs_symm (a b c d : Nat) :
    ((d ≠ 0 ∧ d = c) ∨ (c ≠ 0 ∧ c = b) ∨ (b ≠ 0 ∧ b = a)) ↔
      ((a ≠ 0 ∧ a = b) ∨ (b ≠ 0 ∧ b = c) ∨ (c ≠ 0 ∧ c = d)) := by
  omega

theorem mergedBack_facts (a b c d : Nat) :
    (mergedBack [a, b, c, d]).length = 4 ∧
    (mergedBack [a, b, c, d]).sum = [a, b, c, d].sum ∧
    (mergedBack [a, b, c, d] ≠ [a, b, c, d] ↔
      (a ≠ 0 ∧ a = b) ∨ (b ≠ 0 ∧ b = c) ∨ (c ≠ 0 ∧ c = d)) ∧
    ∀ bound, (∀ x ∈ [a, b, c, d], x * 2 < bound) →
      ∀ x ∈ mergedBack [a, b, c, d], x < bound := by
  rw [← adjacent_pairs_symm, mergedBack_eq]
  by_cases h1 : d ≠ 0 ∧ d = c
  · obtain ⟨hd, rfl⟩ := h1
    by_cases h3 : b ≠ 0 ∧ b = a
    · obtain ⟨hb, rfl⟩ := h3
      refine ⟨by simp [hd, hb], by simp [hd, hb]; omega, by simp [hd, hb], ?_⟩
      intro bound hb2 x hx
      simp [hd, hb] at hx hb2
      omega
    · refine ⟨by simp [hd, h3], by simp [hd, h3]; omega, by simp [hd, h3], ?_⟩
      intro bound hb2 x hx
      simp [hd, h3] at hx hb2
      omega
  · by_cases h2 : c ≠ 0 ∧ c = b
    · obtain ⟨hc, rfl⟩ := h2
      refine ⟨by simp [h1, hc], by simp [h1, hc]; omega, by simp [h1, hc], ?_⟩
      intro bound hb2 x hx
      simp [h1, hc] at hx hb2
      omega
    · by_cases h3 : b ≠ 0 ∧ b = a
      · obtain ⟨hb, rfl⟩ := h3
        refine ⟨by simp [h1, h2, hb], by simp [h1, h2, hb]; omega, by simp [h1, h2, hb], ?_⟩
        intro bound hb2 x hx
        simp [h1, h2, hb] at hx hb2
        omega
      · refine ⟨by simp [h1, h2, h3], by simp [h1, h2, h3], by simp [h1, h2, h3], ?_⟩
        intro bound hb2 x hx
        simp [h1, h2, h3] at hx hb2
        omega

theorem packFront_length (a b c d : Nat) : (packFront [a, b, c, d]).length = 4 := by
  by_cases ha : a = 0 <;> by_cases hb : b = 0 <;> by_cases hc : c = 0 <;> by_cases hd : d = 0 <;>
    simp [packFront, ha, hb, hc, hd, List.filter]

theorem packBack_length (a b c d : Nat) : (packBack [a, b, c, d]).length = 4 := by
  by_cases ha : a = 0 <;> by_cases hb : b = 0 <;> by_cases hc : c = 0 <;> by_cases hd : d = 0 <;>
    simp [packBack, ha, hb, hc, hd, List.filter]

theorem packed_both_ways (a b c d : Nat) :
    (packFront [a, b, c, d] = [a, b, c, d] ∧ packBack [a, b, c, d] = [a, b, c, d]) ↔
      ((a = 0 ∧ b = 0 ∧ c = 0 ∧ d = 0) ∨ (a ≠ 0 ∧ b ≠ 0 ∧ c ≠ 0 ∧ d ≠ 0)) := by
  by_cases ha : a = 0 <;> by_cases hb : b = 0 <;> by_cases hc : c = 0 <;> by_cases hd : d = 0 <;>
    simp [packFront, packBack, ha, hb, hc, hd, List.filter]

theorem lineOf_sameOff {pos : Nat → Nat → Nat × Nat} (hpos : ValidLines pos) {l m : Nat}
    (hl : l < 4) (hm : m < 4) (hlm : l ≠ m) {g g2 : Board} (h : SameOff (pos m) g g2) :
    lineOf (pos l) g2 = lineOf (pos l) g := by
  have hcell : ∀ k, k < 4 →
      cellAt g2 (pos l k).1 (pos l k).2 = cellAt g (pos l k).1 (pos l k).2 := by
    intro k hk
    apply h
    intro t ht heq
    exact hlm (hpos.2.1 m t l k hm ht hl hk heq).1.symm
  unfold lineOf
  rw [hcell 0 (by decide), hcell 1 (by decide), hcell 2 (by decide), hcell 3 (by decide)]

theorem validLines_line {pos : Nat → Nat → Nat × Nat} (hpos : ValidLines pos) {l : Nat}
    (hl : l < 4) : ValidLine (pos l) :=
  ⟨fun k hk => hpos.1 l k hl hk, fun k m hk hm h => (hpos.2.1 l k l m hl hk hl hm h).2⟩

theorem sweep_lines {τ : Type} {pos : Nat → Nat → Nat × Nat} (hpos : ValidLines pos)
    (op : Board × τ → Nat → Board × τ) (f : List Nat → List Nat) (upd : τ → List Nat → τ)
    (hop : ∀ g t l, l < 4 → IsGrid 4 g →
      IsGrid 4 (op (g, t) l).1 ∧ SameOff (pos l) g (op (g, t) l).1 ∧
      lineOf (pos l) (op (g, t) l).1 = f (lineOf (pos l) g) ∧
      (op (g, t) l).2 = upd t (lineOf (pos l) g))
    (g : Board) (t : τ) (hg : IsGrid 4 g) :
    IsGrid 4 ([0, 1, 2, 3].foldl op (g, t)).1 ∧
    (∀ l, l < 4 → lineOf (pos l) ([0, 1, 2, 3].foldl op (g, t)).1 = f (lineOf (pos l) g)) ∧
    ([0, 1, 2, 3].foldl op (g, t)).2 =
      upd (upd (upd (upd t (lineOf (pos 0) g)) (lineOf (pos 1) g)) (lineOf (pos 2) g))
        (lineOf (pos 3) g) := by
  obtain ⟨a1, a2, a3, a4⟩ := hop g t 0 (by decide) hg
  obtain ⟨b1, b2, b3, b4⟩ := hop (op (g, t) 0).1 (op (g, t) 0).2 1 (by decide) a1
  obtain ⟨c1, c2, c3, c4⟩ := hop (op (op (g, t) 0) 1).1 (op (op (g, t) 0) 1).2 2 (by decide) b1
  obtain ⟨d1, d2, d3, d4⟩ :=
    hop (op (op (op (g, t) 0) 1) 2).1 (op (op (op (g, t) 0) 1) 2).2 3 (by decide) c1
  have e : [0, 1, 2, 3].foldl op (g, t) = op (op (op (op (g, t) 0) 1) 2) 3 := rfl
  rw [e]
  have n01 : (0 : Nat) ≠ 1 := by decide
  have n02 : (0 : Nat) ≠ 2 := by decide
  have n03 : (0 : Nat) ≠ 3 := by decide
  have n12 : (1 : Nat) ≠ 2 := by decide
  have n13 : (1 : Nat) ≠ 3 := by decide
  have n23 : (2 : Nat) ≠ 3 := by decide
  have h0 : (0 : Nat) < 4 := by decide
  have h1 : (1 : Nat) < 4 := by decide
  have h2 : (2 : Nat) < 4 := by decide
  have h3 : (3 : Nat) < 4 := by decide
  have l1 : lineOf (pos 1) (op (g, t) 0).1 = lineOf (pos 1) g :=
    lineOf_sameOff hpos h1 h0 n01.symm a2
  have l2 : lineOf (pos 2) (op (op (g, t) 0) 1).1 = lineOf (pos 2) g :=
    (lineOf_sameOff hpos h2 h1 n12.symm b2).trans (lineOf_sameOff hpos h2 h0 n02.symm a2)
  have l3 : lineOf (pos 3) (op (op (op (g, t) 0) 1) 2).1 = lineOf (pos 3) g :=
    (lineOf_sameOff hpos h3 h2 n23.symm c2).trans
      ((lineOf_sameOff hpos h3 h1 n13.symm b2).trans (lineOf_sameOff hpos h3 h0 n03.symm a2))
  refine ⟨d1, ?_, ?_⟩
  · intro l hl
    interval_cases l
    · exact (lineOf_sameOff hpos h0 h3 n03 d2).trans
        ((lineOf_sameOff hpos h0 h2 n02 c2).trans
          ((lineOf_sameOff hpos h0 h1 n01 b2).trans a3))
    · exact (lineOf_sameOff hpos h1 h3 n13 d2).trans
        ((lineOf_sameOff hpos h1 h2 n12 c2).trans (b3.trans (congrArg f l1)))
    · exact (lineOf_sameOff hpos h2 h3 n23 d2).trans (c3.trans (congrArg f l2))
    · exact d3.trans (congrArg f l3)
  · rw [d4, c4, b4, a4, l1, l2, l3]

theorem grid_ext {g g2 : Board} (hg : IsGrid 4 g) (hg2 : IsGrid 4 g2)
    (h : ∀ i j, i < 4 → j < 4 → cellAt g i j = cellAt g2 i j) : g = g2 := by
  apply List.ext_getElem (by rw [hg.1, hg2.1])
  intro i hi hi2
  have hi4 : i < 4 := by rw [← hg.1]; exact hi
  have hr : g[i].length = 4 := hg.2 _ (List.getElem_mem hi)
  have hr2 : g2[i].length = 4 := hg2.2 _ (List.getElem_mem hi2)
  apply List.ext_getElem (by rw [hr, hr2])
  intro j hj hj2
  have hj4 : j < 4 := by rw [← hr]; exact hj
  rw [← TicTacToe.cellAt_eq_getElem hi hj, ← TicTacToe.cellAt_eq_getElem hi2 hj2]
  exact h i j hi4 hj4

theorem lines_ext {pos : Nat → Nat → Nat × Nat} (hpos : ValidLines pos) {g g2 : Board}
    (hg : IsGrid 4 g) (hg2 : IsGrid 4 g2)
    (h : ∀ l, l < 4 → lineOf (pos l) g = lineOf (pos l) g2) : g = g2 := by
  apply grid_ext hg hg2
  intro i j hi hj
  obtain ⟨l, k, hl, hk, hlk⟩ := hpos.2.2 i j hi hj
  have h1 := lineOf_getD (pos l) g hk
  have h2 := lineOf_getD (pos l) g2 hk
  rw [hlk] at h1 h2
  rw [← h1, ← h2, h l hl]

theorem changed_iff {pos : Nat → Nat → Nat × Nat} (hpos : ValidLines pos) {g g2 : Board}
    (hg : IsGrid 4 g) (hg2 : IsGrid 4 g2) (f : List Nat → List Nat)
    (h : ∀ l, l < 4 → lineOf (pos l) g2 = f (lineOf (pos l) g)) :
    ((((false || decide (f (lineOf (pos 0) g) ≠ lineOf (pos 0) g)) ||
        decide (f (lineOf (pos 1) g) ≠ lineOf (pos 1) g)) ||
        decide (f (lineOf (pos 2) g) ≠ lineOf (pos 2) g)) ||
        decide (f (lineOf (pos 3) g) ≠ lineOf (pos 3) g)) = true ↔ g2 ≠ g := by
  constructor
  · intro hflag heq
    subst heq
    have e0 := h 0 (by decide)
    have e1 := h 1 (by decide)
    have e2 := h 2 (by decide)
    have e3 := h 3 (by decide)
    rw [← e0, ← e1, ← e2, ← e3] at hflag
    simp at hflag
  · intro hne
    by_contra hflag
    apply hne
    simp only [Bool.false_or, Bool.or_eq_true, decide_eq_true_eq, not_or, not_not] at hflag
    obtain ⟨⟨⟨e0, e1⟩, e2⟩, e3⟩ := hflag
    apply lines_ext hpos hg2 hg
    intro l hl
    rw [h l hl]
    interval_cases l
    · exact e0
    · exact e1
    · exact e2
    · exact e3

theorem lineOf_eq (pos : Nat → Nat × Nat) (g : Board) :
    lineOf pos g = [cellAt g (pos 0).1 (pos 0).2, cellAt g (pos 1).1 (pos 1).2,
      cellAt g (pos 2).1 (pos 2).2, cellAt g (pos 3).1 (pos 3).2] :=
  rfl

theorem slideLine_forward {pos : Nat → Nat × Nat} (hpos : ValidLine pos) {g : Board}
    (hg : IsGrid 4 g) (moved : Bool) :
    IsGrid 4 (slideLine pos [0, 1, 2, 3] 0 (fun index => index + 1) (g, moved)).1 ∧
    SameOff pos g (slideLine pos [0, 1, 2, 3] 0 (fun index => index + 1) (g, moved)).1 ∧
    lineOf pos (slideLine pos [0, 1, 2, 3] 0 (fun index => index + 1) (g, moved)).1 =
      packFront (lineOf pos g) ∧
    (slideLine pos [0, 1, 2, 3] 0 (fun index => index + 1) (g, moved)).2 =
      (moved || decide (packFront (lineOf pos g) ≠ lineOf pos g)) := by
  obtain ⟨h1, h2, h3⟩ := slideLoop_forward_view hpos hg moved
  obtain ⟨h4, h5⟩ := lineSlide_forward (cellAt g (pos 0).1 (pos 0).2)
    (cellAt g (pos 1).1 (pos 1).2) (cellAt g (pos 2).1 (pos 2).2)
    (cellAt g (pos 3).1 (pos 3).2) moved
  rw [← lineOf_eq pos g] at h4 h5
  simp only [slideLine]
  refine ⟨h1, h2, ?_, ?_⟩
  · rw [← h4, ← h3]
  · rw [← h5, ← h3]

theorem slideLine_backward {pos : Nat → Nat × Nat} (hpos : ValidLine pos) {g : Board}
    (hg : IsGrid 4 g) (moved : Bool) :
    IsGrid 4 (slideLine pos [3, 2, 1, 0] 3 (fun index => index - 1) (g, moved)).1 ∧
    SameOff pos g (slideLine pos [3, 2, 1, 0] 3 (fun index => index - 1) (g, moved)).1 ∧
    lineOf pos (slideLine pos [3, 2, 1, 0] 3 (fun index => index - 1) (g, moved)).1 =
      packBack (lineOf pos g) ∧
    (slideLine pos [3, 2, 1, 0] 3 (fun index => index - 1) (g, moved)).2 =
      (moved || decide (packBack (lineOf pos g) ≠ lineOf pos g)) := by
  obtain ⟨h1, h2, h3⟩ := slideLoop_backward_view hpos hg moved
  obtain ⟨h4, h5⟩ := lineSlide_backward (cellAt g (pos 0).1 (pos 0).2)
    (cellAt g (pos 1).1 (pos 1).2) (cellAt g (pos 2).1 (pos 2).2)
    (cellAt g (pos 3).1 (pos 3).2) moved
  rw [← lineOf_eq pos g] at h4 h5
  simp only [slideLine]
  refine ⟨h1, h2, ?_, ?_⟩
  · rw [← h4, ← h3]
  · rw [← h5, ← h3]

theorem slideLines_forward {pos : Nat → Nat → Nat × Nat} (hpos : ValidLines pos) {g : Board}
    (hg : IsGrid 4 g) :
    IsGrid 4 (slideLines pos [0, 1, 2, 3] 0 (fun index => index + 1) g).1 ∧
    (∀ l, l < 4 → lineOf (pos l) (slideLines pos [0, 1, 2, 3] 0 (fun index => index + 1) g).1 =
      packFront (lineOf (pos l) g)) ∧
    ((slideLines pos [0, 1, 2, 3] 0 (fun index => index + 1) g).2 = true ↔
      (slideLines pos [0, 1, 2, 3] 0 (fun index => index + 1) g).1 ≠ g) := by
  obtain ⟨s1, s2, s3⟩ := sweep_lines hpos
    (fun st l => slideLine (pos l) [0, 1, 2, 3] 0 (fun index => index + 1) st)
    packFront (fun moved line => moved || decide (packFront line ≠ line))
    (fun g t l hl hg => slideLine_forward (validLines_line hpos hl) hg t) g false hg
  unfold slideLines
  refine ⟨s1, s2, ?_⟩
  rw [s3]
  exact changed_iff hpos hg s1 packFront s2

theorem slideLines_backward {pos : Nat → Nat → Nat × Nat} (hpos : ValidLines pos) {g : Board}
    (hg : IsGrid 4 g) :
    IsGrid 4 (slideLines pos [3, 2, 1, 0] 3 (fun index => index - 1) g).1 ∧
    (∀ l, l < 4 → lineOf (pos l) (slideLines pos [3, 2, 1, 0] 3 (fun index => index - 1) g).1 =
      packBack (lineOf (pos l) g)) ∧
    ((slideLines pos [3, 2, 1, 0] 3 (fun index => index - 1) g).2 = true ↔
      (slideLines pos [3, 2, 1, 0] 3 (fun index => index - 1) g).1 ≠ g) := by
  obtain ⟨s1, s2, s3⟩ := sweep_lines hpos
    (fun st l => slideLine (pos l) [3, 2, 1, 0] 3 (fun index => index - 1) st)
    packBack (fun moved line => moved || decide (packBack line ≠ line))
    (fun g t l hl hg => slideLine_backward (validLines_line hpos hl) hg t) g false hg
  unfold slideLines
  refine ⟨s1, s2, ?_⟩
  rw [s3]
  exact changed_iff hpos hg s1 packBack s2

theorem validLines_rows : ValidLines (fun i j => (i, j)) := by
  refine ⟨fun l k hl hk => ⟨hl, hk⟩, ?_, fun i j hi hj => ⟨i, j, hi, hj, rfl⟩⟩
  intro l k m n _ _ _ _ h
  exact ⟨congrArg Prod.fst h, congrArg Prod.snd h⟩

theorem validLines_columns : ValidLines (fun j i => (i, j)) := by
  refine ⟨fun l k hl hk => ⟨hk, hl⟩, ?_, fun i j hi hj => ⟨j, i, hj, hi, rfl⟩⟩
  intro l k m n _ _ _ _ h
  exact ⟨congrArg Prod.snd h, congrArg Prod.fst h⟩

theorem mergeLine_view {pos : Nat → Nat × Nat} (hpos : ValidLine pos) (order : List Nat)
    (other : Nat → Nat) (horder : ∀ k ∈ order, k < 4 ∧ other k < 4) (f : List Nat → List Nat)
    (hf : ∀ a b c d score merged,
      order.foldl (lineMergeStep other) ([a, b, c, d], score, merged) =
        (f [a, b, c, d], score + lineCreated [a, b, c, d] (f [a, b, c, d]),
          merged || decide (f [a, b, c, d] ≠ [a, b, c, d])))
    {g : Board} (hg : IsGrid 4 g) (t : Nat × Bool) :
    IsGrid 4 (mergeLine pos order other (g, t)).1 ∧
    SameOff pos g (mergeLine pos order other (g, t)).1 ∧
    lineOf pos (mergeLine pos order other (g, t)).1 = f (lineOf pos g) ∧
    (mergeLine pos order other (g, t)).2 =
      (t.1 + lineCreated (lineOf pos g) (f (lineOf pos g)),
        t.2 || decide (f (lineOf pos g) ≠ lineOf pos g)) := by
  obtain ⟨h1, h2, h3⟩ := mergeLoop_view hpos other order horder hg t.1 t.2
  have h4 := hf (cellAt g (pos 0).1 (pos 0).2) (cellAt g (pos 1).1 (pos 1).2)
    (cellAt g (pos 2).1 (pos 2).2) (cellAt g (pos 3).1 (pos 3).2) t.1 t.2
  rw [← lineOf_eq pos g] at h4
  rw [h4] at h3
  simp only [mergeLine]
  obtain ⟨h3a, h3b⟩ := Prod.mk.inj h3
  exact ⟨h1, h2, h3a, h3b⟩

theorem mergeLines_view {pos : Nat → Nat → Nat × Nat} (hpos : ValidLines pos)
    (order : List Nat) (other : Nat → Nat) (horder : ∀ k ∈ order, k < 4 ∧ other k < 4)
    (f : List Nat → List Nat)
    (hf : ∀ a b c d score merged,
      order.foldl (lineMergeStep other) ([a, b, c, d], score, merged) =
        (f [a, b, c, d], score + lineCreated [a, b, c, d] (f [a, b, c, d]),
          merged || decide (f [a, b, c, d] ≠ [a, b, c, d])))
    {g : Board} (hg : IsGrid 4 g) (score : Nat) :
    IsGrid 4 (mergeLines pos order other g score).1 ∧
    (∀ l, l < 4 → lineOf (pos l) (mergeLines pos order other g score).1 = f (lineOf (pos l) g)) ∧
    (mergeLines pos order other g score).2.1 =
      score + lineCreated (lineOf (pos 0) g) (f (lineOf (pos 0) g)) +
        lineCreated (lineOf (pos 1) g) (f (lineOf (pos 1) g)) +
        lineCreated (lineOf (pos 2) g) (f (lineOf (pos 2) g)) +
        lineCreated (lineOf (pos 3) g) (f (lineOf (pos 3) g)) ∧
    ((mergeLines pos order other g score).2.2 = true ↔
      (mergeLines pos order other g score).1 ≠ g) := by
  obtain ⟨s1, s2, s3⟩ := sweep_lines hpos
    (fun st l => mergeLine (pos l) order other st) f
    (fun (t : Nat × Bool) line => (t.1 + lineCreated line (f line), t.2 || decide (f line ≠ line)))
    (fun g t l hl hg => mergeLine_view (validLines_line hpos hl) order other horder f hf hg t)
    g (score, false) hg
  unfold mergeLines
  refine ⟨s1, s2, ?_, ?_⟩
  · rw [s3]
  · rw [s3]
    exact changed_iff hpos hg s1 f s2

theorem lineOf_rows (g : Board) (i : Nat) : lineOf (fun j => (i, j)) g = rowOf g i :=
  rfl

theorem lineOf_columns (g : Board) (j : Nat) : lineOf (fun i => (i, j)) g = columnOf g j :=
  rfl

theorem tileSum_rows (g : Board) :
    tileSum g = (lineOf (fun j => (0, j)) g).sum + (lineOf (fun j => (1, j)) g).sum +
      (lineOf (fun j => (2, j)) g).sum + (lineOf (fun j => (3, j)) g).sum := by
  simp only [tileSum, lineOf, List.range, List.range.loop, List.map_cons, List.map_nil,
    List.sum_cons, List.sum_nil]
  ring

theorem tileSum_columns (g : Board) :
    tileSum g = (lineOf (fun i => (i, 0)) g).sum + (lineOf (fun i => (i, 1)) g).sum +
      (lineOf (fun i => (i, 2)) g).sum + (lineOf (fun i => (i, 3)) g).sum := by
  simp only [tileSum, lineOf, List.range, List.range.loop, List.map_cons, List.map_nil,
    List.sum_cons, List.sum_nil]
  ring

theorem createdSum_rows (g g2 : Board) :
    createdSum g g2 =
      lineCreated (lineOf (fun j => (0, j)) g) (lineOf (fun j => (0, j)) g2) +
      lineCreated (lineOf (fun j => (1, j)) g) (lineOf (fun j => (1, j)) g2) +
      lineCreated (lineOf (fun j => (2, j)) g) (lineOf (fun j => (2, j)) g2) +
      lineCreated (lineOf (fun j => (3, j)) g) (lineOf (fun j => (3, j)) g2) := by
  simp only [createdSum, lineCreated, lineOf, List.range, List.range.loop, List.map_cons,
    List.map_nil, List.sum_cons, List.sum_nil, List.getD_cons_zero, List.getD_cons_succ]
  ring

theorem createdSum_columns (g g2 : Board) :
    createdSum g g2 =
      lineCreated (lineOf (fun i => (i, 0)) g) (lineOf (fun i => (i, 0)) g2) +
      lineCreated (lineOf (fun i => (i, 1)) g) (lineOf (fun i => (i, 1)) g2) +
      lineCreated (lineOf (fun i => (i, 2)) g) (lineOf (fun i => (i, 2)) g2) +
      lineCreated (lineOf (fun i => (i, 3)) g) (lineOf (fun i => (i, 3)) g2) := by
  simp only [createdSum, lineCreated, lineOf, List.range, List.range.loop, List.map_cons,
    List.map_nil, List.sum_cons, List.sum_nil, List.getD_cons_zero, List.getD_cons_succ]
  ring

theorem line_pairs_iff (pos : Nat → Nat × Nat) (g : Board) :
    ((cellAt g (pos 0).1 (pos 0).2 ≠ 0 ∧
        cellAt g (pos 0).1 (pos 0).2 = cellAt g (pos 1).1 (pos 1).2) ∨
      (cellAt g (pos 1).1 (pos 1).2 ≠ 0 ∧
        cellAt g (pos 1).1 (pos 1).2 = cellAt g (pos 2).1 (pos 2).2) ∨
      (cellAt g (pos 2).1 (pos 2).2 ≠ 0 ∧
        cellAt g (pos 2).1 (pos 2).2 = cellAt g (pos 3).1 (pos 3).2)) ↔
    ∃ k, k < 3 ∧ cellAt g (pos k).1 (pos k).2 ≠ 0 ∧
      cellAt g (pos k).1 (pos k).2 = cellAt g (pos (k + 1)).1 (pos (k + 1)).2 := by
  constructor
  · rintro (h | h | h)
    · exact ⟨0, by decide, h⟩
    · exact ⟨1, by decide, h⟩
    · exact ⟨2, by decide, h⟩
  · rintro ⟨k, hk, h⟩
    interval_cases k
    · exact Or.inl h
    · exact Or.inr (Or.inl h)
    · exact Or.inr (Or.inr h)

theorem changed_iff_line {pos : Nat → Nat → Nat × Nat} (hpos : ValidLines pos) {g g2 : Board}
    (hg : IsGrid 4 g) (hg2 : IsGrid 4 g2) (f : List Nat → List Nat)
    (h : ∀ l, l < 4 → lineOf (pos l) g2 = f (lineOf (pos l) g)) :
    g2 ≠ g ↔ ∃ l, l < 4 ∧ f (lineOf (pos l) g) ≠ lineOf (pos l) g := by
  constructor
  · intro hne
    by_contra hall
    apply hne
    apply lines_ext hpos hg2 hg
    intro l hl
    rw [h l hl]
    by_contra hl2
    exact hall ⟨l, hl, hl2⟩
  · rintro ⟨l, hl, hne⟩ heq
    apply hne
    rw [← h l hl, heq]

theorem mergeLines_facts {pos : Nat → Nat → Nat × Nat} (hpos : ValidLines pos)
    (hsum : ∀ g, tileSum g = (lineOf (pos 0) g).sum + (lineOf (pos 1) g).sum +
      (lineOf (pos 2) g).sum + (lineOf (pos 3) g).sum)
    (hcreated : ∀ g g2, createdSum g g2 =
      lineCreated (lineOf (pos 0) g) (lineOf (pos 0) g2) +
      lineCreated (lineOf (pos 1) g) (lineOf (pos 1) g2) +
      lineCreated (lineOf (pos 2) g) (lineOf (pos 2) g2) +
      lineCreated (lineOf (pos 3) g) (lineOf (pos 3) g2))
    (order : List Nat) (other : Nat → Nat) (horder : ∀ k ∈ order, k < 4 ∧ other k < 4)
    (f : List Nat → List Nat)
    (hf : ∀ a b c d score merged,
      order.foldl (lineMergeStep other) ([a, b, c, d], score, merged) =
        (f [a, b, c, d], score + lineCreated [a, b, c, d] (f [a, b, c, d]),
          merged || decide (f [a, b, c, d] ≠ [a, b, c, d])))
    (hfacts : ∀ a b c d, (f [a, b, c, d]).length = 4 ∧
      (f [a, b, c, d]).sum = [a, b, c, d].sum ∧
      (f [a, b, c, d] ≠ [a, b, c, d] ↔
        (a ≠ 0 ∧ a = b) ∨ (b ≠ 0 ∧ b = c) ∨ (c ≠ 0 ∧ c = d)) ∧
      ∀ bound, (∀ x ∈ [a, b, c, d], x * 2 < bound) → ∀ x ∈ f [a, b, c, d], x < bound)
    {g : Board} (hg : IsGrid 4 g) (score : Nat) :
    IsGrid 4 (mergeLines pos order other g score).1 ∧
    tileSum (mergeLines pos order other g score).1 = tileSum g ∧
    (mergeLines pos order other g score).2.1 =
      score + createdSum g (mergeLines pos order other g score).1 ∧
    ((mergeLines pos order other g score).2.2 = true ↔
      (mergeLines pos order other g score).1 ≠ g) ∧
    ((mergeLines pos order other g score).2.2 = true ↔
      ∃ l k, l < 4 ∧ k < 3 ∧ cellAt g (pos l k).1 (pos l k).2 ≠ 0 ∧
        cellAt g (pos l k).1 (pos l k).2 = cellAt g (pos l (k + 1)).1 (pos l (k + 1)).2) ∧
    ∀ bound, (∀ i j, i < 4 → j < 4 → cellAt g i j * 2 < bound) →
      ∀ i j, i < 4 → j < 4 → cellAt (mergeLines pos order other g score).1 i j < bound := by
  obtain ⟨m1, m2, m3, m4⟩ := mergeLines_view hpos order other horder f hf hg score
  have hline : ∀ l, (f (lineOf (pos l) g)).length = 4 ∧
      (f (lineOf (pos l) g)).sum = (lineOf (pos l) g).sum ∧
      (f (lineOf (pos l) g) ≠ lineOf (pos l) g ↔
        ∃ k, k < 3 ∧ cellAt g (pos l k).1 (pos l k).2 ≠ 0 ∧
          cellAt g (pos l k).1 (pos l k).2 = cellAt g (pos l (k + 1)).1 (pos l (k + 1)).2) ∧
      ∀ bound, (∀ x ∈ lineOf (pos l) g, x * 2 < bound) →
        ∀ x ∈ f (lineOf (pos l) g), x < bound := by
    intro l
    obtain ⟨f1, f2, f3, f4⟩ := hfacts (cellAt g (pos l 0).1 (pos l 0).2)
      (cellAt g (pos l 1).1 (pos l 1).2) (cellAt g (pos l 2).1 (pos l 2).2)
      (cellAt g (pos l 3).1 (pos l 3).2)
    rw [← lineOf_eq (pos l) g] at f1 f2 f3 f4
    exact ⟨f1, f2, f3.trans (line_pairs_iff (pos l) g), f4⟩
  refine ⟨m1, ?_, ?_, m4, ?_, ?_⟩
  · rw [hsum, hsum g, m2 0 (by decide), m2 1 (by decide), m2 2 (by decide), m2 3 (by decide),
      (hline 0).2.1, (hline 1).2.1, (hline 2).2.1, (hline 3).2.1]
  · rw [m3, hcreated, m2 0 (by decide), m2 1 (by decide), m2 2 (by decide), m2 3 (by decide)]
    simp only [add_assoc]
  · rw [m4, changed_iff_line hpos hg m1 f m2]
    constructor
    · rintro ⟨l, hl, hne⟩
      obtain ⟨k, hk, h⟩ := (hline l).2.2.1.1 hne
      exact ⟨l, k, hl, hk, h⟩
    · rintro ⟨l, k, hl, hk, h⟩
      exact ⟨l, hl, (hline l).2.2.1.2 ⟨k, hk, h⟩⟩
  · intro bound hbound i j hi hj
    obtain ⟨l, k, hl, hk, hlk⟩ := hpos.2.2 i j hi hj
    have hcell := lineOf_getD (pos l) (mergeLines pos order other g score).1 hk
    rw [hlk, m2 l hl] at hcell
    rw [← hcell]
    apply (hline l).2.2.2 bound
    · intro x hx
      rw [lineOf_eq] at hx
      simp only [List.mem_cons, List.mem_singleton, List.not_mem_nil, or_false] at hx
      rcases hx with rfl | rfl | rfl | rfl
      · exact hbound _ _ (hpos.1 l 0 hl (by decide)).1 (hpos.1 l 0 hl (by decide)).2
      · exact hbound _ _ (hpos.1 l 1 hl (by decide)).1 (hpos.1 l 1 hl (by decide)).2
      · exact hbound _ _ (hpos.1 l 2 hl (by decide)).1 (hpos.1 l 2 hl (by decide)).2
      · exact hbound _ _ (hpos.1 l 3 hl (by decide)).1 (hpos.1 l 3 hl (by decide)).2
    · rw [List.getD_eq_getElem _ _ (by rw [(hline l).1]; exact hk)]
      exact List.getElem_mem _

theorem merge_w (g : Board) (score : Nat) :
    merge 'w' g score = mergeLines (fun j i => (i, j)) [0, 1, 2] (fun i => i + 1) g score := by
  unfold merge
  rw [if_pos rfl]

theorem merge_s (g : Board) (score : Nat) :
    merge 's' g score = mergeLines (fun j i => (i, j)) [3, 2, 1] (fun i => i - 1) g score := by
  unfold merge
  rw [if_neg (by decide), if_pos rfl]

theorem merge_a (g : Board) (score : Nat) :
    merge 'a' g score = mergeLines (fun i j => (i, j)) [0, 1, 2] (fun j => j + 1) g score := by
  unfold merge
  rw [if_neg (by decide), if_neg (by decide), if_pos rfl]

theorem merge_d (g : Board) (score : Nat) :
    merge 'd' g score = mergeLines (fun i j => (i, j)) [3, 2, 1] (fun j => j - 1) g score := by
  unfold merge
  rw [if_neg (by decide), if_neg (by decide), if_neg (by decide), if_pos rfl]

theorem verticalPair_iff (g : Board) :
    (∃ l k, l < 4 ∧ k < 3 ∧ cellAt g k l ≠ 0 ∧ cellAt g k l = cellAt g (k + 1) l) ↔
      VerticalPair g := by
  constructor
  · rintro ⟨l, k, hl, hk, h⟩
    exact ⟨k, l, hk, hl, h⟩
  · rintro ⟨i, j, hi, hj, h⟩
    exact ⟨j, i, hj, hi, h⟩

theorem horizontalPair_iff (g : Board) :
    (∃ l k, l < 4 ∧ k < 3 ∧ cellAt g l k ≠ 0 ∧ cellAt g l k = cellAt g l (k + 1)) ↔
      HorizontalPair g :=
  Iff.rfl

theorem mergeColumns_facts (order : List Nat) (other : Nat → Nat)
    (horder : ∀ k ∈ order, k < 4 ∧ other k < 4) (f : List Nat → List Nat)
    (hf : ∀ a b c d score merged,
      order.foldl (lineMergeStep other) ([a, b, c, d], score, merged) =
        (f [a, b, c, d], score + lineCreated [a, b, c, d] (f [a, b, c, d]),
          merged || decide (f [a, b, c, d] ≠ [a, b, c, d])))
    (hfacts : ∀ a b c d, (f [a, b, c, d]).length = 4 ∧
      (f [a, b, c, d]).sum = [a, b, c, d].sum ∧
      (f [a, b, c, d] ≠ [a, b, c, d] ↔
        (a ≠ 0 ∧ a = b) ∨ (b ≠ 0 ∧ b = c) ∨ (c ≠ 0 ∧ c = d)) ∧
      ∀ bound, (∀ x ∈ [a, b, c, d], x * 2 < bound) → ∀ x ∈ f [a, b, c, d], x < bound)
    {g : Board} (hg : IsGrid 4 g) (score : Nat) :
    IsGrid 4 (mergeLines (fun j i => (i, j)) order other g score).1 ∧
    tileSum (mergeLines (fun j i => (i, j)) order other g score).1 = tileSum g ∧
    (mergeLines (fun j i => (i, j)) order other g score).2.1 =
      score + createdSum g (mergeLines (fun j i => (i, j)) order other g score).1 ∧
    ((mergeLines (fun j i => (i, j)) order other g score).2.2 = true ↔
      (mergeLines (fun j i => (i, j)) order other g score).1 ≠ g) ∧
    ((mergeLines (fun j i => (i, j)) order other g score).2.2 = true ↔ VerticalPair g) ∧
    ∀ bound, (∀ i j, i < 4 → j < 4 → cellAt g i j * 2 < bound) →
      ∀ i j, i < 4 → j < 4 →
        cellAt (mergeLines (fun j i => (i, j)) order other g score).1 i j < bound := by
  obtain ⟨h1, h2, h3, h4, h5, h6⟩ := mergeLines_facts validLines_columns tileSum_columns
    createdSum_columns order other horder f hf hfacts hg score
  exact ⟨h1, h2, h3, h4, h5.trans (verticalPair_iff g), h6⟩

theorem mergeRows_facts (order : List Nat) (other : Nat → Nat)
    (horder : ∀ k ∈ order, k < 4 ∧ other k < 4) (f : List Nat → List Nat)
    (hf : ∀ a b c d score merged,
      order.foldl (lineMergeStep other) ([a, b, c, d], score, merged) =
        (f [a, b, c, d], score + lineCreated [a, b, c, d] (f [a, b, c, d]),
          merged || decide (f [a, b, c, d] ≠ [a, b, c, d])))
    (hfacts : ∀ a b c d, (f [a, b, c, d]).length = 4 ∧
      (f [a, b, c, d]).sum = [a, b, c, d].sum ∧
      (f [a, b, c, d] ≠ [a, b, c, d] ↔
        (a ≠ 0 ∧ a = b) ∨ (b ≠ 0 ∧ b = c) ∨ (c ≠ 0 ∧ c = d)) ∧
      ∀ bound, (∀ x ∈ [a, b, c, d], x * 2 < bound) → ∀ x ∈ f [a, b, c, d], x < bound)
    {g : Board} (hg : IsGrid 4 g) (score : Nat) :
    IsGrid 4 (mergeLines (fun i j => (i, j)) order other g score).1 ∧
    tileSum (mergeLines (fun i j => (i, j)) order other g score).1 = tileSum g ∧
    (mergeLines (fun i j => (i, j)) order other g score).2.1 =
      score + createdSum g (mergeLines (fun i j => (i, j)) order other g score).1 ∧
    ((mergeLines (fun i j => (i, j)) order other g score).2.2 = true ↔
      (mergeLines (fun i j => (i, j)) order other g score).1 ≠ g) ∧
    ((mergeLines (fun i j => (i, j)) order other g score).2.2 = true ↔ HorizontalPair g) ∧
    ∀ bound, (∀ i j, i < 4 → j < 4 → cellAt g i j * 2 < bound) →
      ∀ i j, i < 4 → j < 4 →
        cellAt (mergeLines (fun i j => (i, j)) order other g score).1 i j < bound := by
  obtain ⟨h1, h2, h3, h4, h5, h6⟩ := mergeLines_facts validLines_rows tileSum_rows
    createdSum_rows order other horder f hf hfacts hg score
  exact ⟨h1, h2, h3, h4, h5.trans (horizontalPair_iff g), h6⟩

theorem order_front : ∀ k ∈ [0, 1, 2], k < 4 ∧ (fun i => i + 1) k < 4 := by
  decide

theorem order_back : ∀ k ∈ [3, 2, 1], k < 4 ∧ (fun i => i - 1) k < 4 := by
  decide

/-! ## The four moves of 2048 (C25) -/

/-- C25. On every 4 × 4 grid, `moveUp`, `moveDown`, `moveLeft` and `moveRight` slide every
line towards their edge: afterwards each column (for `moveUp`, `moveDown`) or row (for
`moveLeft`, `moveRight`) consists of its non-zero tiles in their original order, packed
against the top (left) edge and followed by zeros, or against the bottom (right) edge
and preceded by zeros; and the function returns `true` if and only if the grid
changed. -/
theorem moves_pack_lines (grid : Board) (hgrid : IsGrid 4 grid) :
    (IsGrid 4 (moveUp grid).1 ∧
      (∀ j, j < 4 → columnOf (moveUp grid).1 j = packFront (columnOf grid j)) ∧
      ((moveUp grid).2 = true ↔ (moveUp grid).1 ≠ grid)) ∧
    (IsGrid 4 (moveDown grid).1 ∧
      (∀ j, j < 4 → columnOf (moveDown grid).1 j = packBack (columnOf grid j)) ∧
      ((moveDown grid).2 = true ↔ (moveDown grid).1 ≠ grid)) ∧
    (IsGrid 4 (moveLeft grid).1 ∧
      (∀ i, i < 4 → rowOf (moveLeft grid).1 i = packFront (rowOf grid i)) ∧
      ((moveLeft grid).2 = true ↔ (moveLeft grid).1 ≠ grid)) ∧
    (IsGrid 4 (moveRight grid).1 ∧
      (∀ i, i < 4 → rowOf (moveRight grid).1 i = packBack (rowOf grid i)) ∧
      ((moveRight grid).2 = true ↔ (moveRight grid).1 ≠ grid)) := by
  obtain ⟨u1, u2, u3⟩ := slideLines_forward validLines_columns hgrid
  obtain ⟨d1, d2, d3⟩ := slideLines_backward validLines_columns hgrid
  obtain ⟨l1, l2, l3⟩ := slideLines_forward validLines_rows hgrid
  obtain ⟨r1, r2, r3⟩ := slideLines_backward validLines_rows hgrid
  simp only [lineOf_columns] at u2 d2
  simp only [lineOf_rows] at l2 r2
  unfold moveUp moveDown moveLeft moveRight
  exact ⟨⟨u1, u2, u3⟩, ⟨d1, d2, d3⟩, ⟨l1, l2, l3⟩, ⟨r1, r2, r3⟩⟩

/-- Witness of C25: the top row `2, 0, 2, 4` is packed to the left as `2, 2, 4, 0`. -/
theorem moves_pack_lines_witness :
    IsGrid 4 [[2, 0, 2, 4], [0, 0, 0, 0], [0, 4, 0, 4], [2, 2, 2, 2]] ∧
    rowOf (moveLeft [[2, 0, 2, 4], [0, 0, 0, 0], [0, 4, 0, 4], [2, 2, 2, 2]]).1 0 =
      packFront (rowOf [[2, 0, 2, 4], [0, 0, 0, 0], [0, 4, 0, 4], [2, 2, 2, 2]] 0) ∧
    packFront (rowOf [[2, 0, 2, 4], [0, 0, 0, 0], [0, 4, 0, 4], [2, 2, 2, 2]] 0) =
      [2, 2, 4, 0] :=
  ⟨by decide,
    (moves_pack_lines [[2, 0, 2, 4], [0, 0, 0, 0], [0, 4, 0, 4], [2, 2, 2, 2]]
      (by decide)).2.2.1.2.1 0 (by decide),
    by decide⟩

/-! ## The merge of 2048 (C26) -/

/-- C26. On every 4 × 4 grid and for every direction `'w'`, `'s'`, `'a'`, `'d'`,
`merge(direction)` leaves the sum of the sixteen tiles unchanged; increases `score` by the
sum of the values of the tiles it created (the cells whose value changed and is not
zero); returns `true` if and only if the grid changed, which is the case if and only if
two equal non-zero tiles were neighbours along the direction (in a column for `'w'`,
`'s'`, in a row for `'a'`, `'d'`).  When the double of every tile is below `bound`
(`2 ^ 31` for an `int`), every tile of the result is below `bound`: no doubling
overflows. -/
theorem merge_sum_score_flag (grid : Board) (score : Nat) (direction : Char)
    (hgrid : IsGrid 4 grid)
    (hdir : direction = 'w' ∨ direction = 's' ∨ direction = 'a' ∨ direction = 'd') :
    IsGrid 4 (merge direction grid score).1 ∧
    tileSum (merge direction grid score).1 = tileSum grid ∧
    (merge direction grid score).2.1 = score + createdSum grid (merge direction grid score).1 ∧
    ((merge direction grid score).2.2 = true ↔ (merge direction grid score).1 ≠ grid) ∧
    ((merge direction grid score).2.2 = true ↔
      ((direction = 'w' ∨ direction = 's') ∧ VerticalPair grid) ∨
      ((direction = 'a' ∨ direction = 'd') ∧ HorizontalPair grid)) ∧
    ∀ bound, (∀ i j, i < 4 → j < 4 → cellAt grid i j * 2 < bound) →
      ∀ i j, i < 4 → j < 4 → cellAt (merge direction grid score).1 i j < bound := by
  rcases hdir with rfl | rfl | rfl | rfl
  · rw [merge_w]
    obtain ⟨h1, h2, h3, h4, h5, h6⟩ := mergeColumns_facts [0, 1, 2] (fun i => i + 1)
      order_front mergedFront lineMerge_forward mergedFront_facts hgrid score
    refine ⟨h1, h2, h3, h4, h5.trans ?_, h6⟩
    simp
  · rw [merge_s]
    obtain ⟨h1, h2, h3, h4, h5, h6⟩ := mergeColumns_facts [3, 2, 1] (fun i => i - 1)
      order_back mergedBack lineMerge_backward mergedBack_facts hgrid score
    refine ⟨h1, h2, h3, h4, h5.trans ?_, h6⟩
    simp
  · rw [merge_a]
    obtain ⟨h1, h2, h3, h4, h5, h6⟩ := mergeRows_facts [0, 1, 2] (fun i => i + 1)
      order_front mergedFront lineMerge_forward mergedFront_facts hgrid score
    refine ⟨h1, h2, h3, h4, h5.trans ?_, h6⟩
    simp
  · rw [merge_d]
    obtain ⟨h1, h2, h3, h4, h5, h6⟩ := mergeRows_facts [3, 2, 1] (fun i => i - 1)
      order_back mergedBack lineMerge_backward mergedBack_facts hgrid score
    refine ⟨h1, h2, h3, h4, h5.trans ?_, h6⟩
    simp

/-- Witness of C26: the merge to the left of a grid with the rows `0, 4, 4, 4` and
`2, 2, 2, 2` creates the tiles `8`, `4`, `4` and adds `16` to the score. -/
theorem merge_sum_score_flag_witness :
    IsGrid 4 [[2, 0, 2, 4], [0, 0, 0, 0], [0, 4, 4, 4], [2, 2, 2, 2]] ∧
    ('a' = 'w' ∨ 'a' = 's' ∨ 'a' = 'a' ∨ 'a' = 'd') ∧
    merge 'a' [[2, 0, 2, 4], [0, 0, 0, 0], [0, 4, 4, 4], [2, 2, 2, 2]] 10 =
      ([[2, 0, 2, 4], [0, 0, 0, 0], [0, 8, 0, 4], [4, 0, 4, 0]], 26, true) ∧
    tileSum (merge 'a' [[2, 0, 2, 4], [0, 0, 0, 0], [0, 4, 4, 4], [2, 2, 2, 2]] 10).1 =
      tileSum [[2, 0, 2, 4], [0, 0, 0, 0], [0, 4, 4, 4], [2, 2, 2, 2]] :=
  ⟨by decide, by decide, by decide,
    (merge_sum_score_flag [[2, 0, 2, 4], [0, 0, 0, 0], [0, 4, 4, 4], [2, 2, 2, 2]] 10 'a'
      (by decide) (by decide)).2.1⟩

/-! ## The lost game of 2048 (C24) -/

theorem checkLose_iff (g : Board) :
    checkLose g = true ↔
      (∀ i j, i < 4 → j < 4 → cellAt g i j ≠ 0) ∧
      (∀ i j, i < 4 → j < 3 → cellAt g i j ≠ cellAt g i (j + 1)) ∧
      (∀ i j, i < 3 → j < 4 → cellAt g i j ≠ cellAt g (i + 1) j) := by
  have m4 : ∀ x : Nat, x ∈ [0, 1, 2, 3] ↔ x < 4 := by
    intro x
    simp only [List.mem_cons, List.mem_singleton, List.not_mem_nil, or_false]
    omega
  have m3 : ∀ x : Nat, x ∈ [0, 1, 2] ↔ x < 3 := by
    intro x
    simp only [List.mem_cons, List.mem_singleton, List.not_mem_nil, or_false]
    omega
  unfold checkLose hasAdjacentDuplicates
  simp only [Bool.and_eq_true, Bool.not_eq_true', Bool.or_eq_false_iff, List.any_eq_false,
    List.any_eq_true, not_exists, not_and, beq_iff_eq, m4, m3]
  constructor
  · rintro ⟨⟨h1, h2⟩, h3⟩
    exact ⟨fun i j hi hj => h3 i hi j hj, fun i j hi hj => h1 i hi j hj,
      fun i j hi hj => h2 i hi j hj⟩
  · rintro ⟨h1, h2, h3⟩
    exact ⟨⟨fun i hi j hj => h2 i j hi hj, fun i hi j hj => h3 i j hi hj⟩,
      fun i hi j hj => h1 i j hi hj⟩

theorem unchanged_iff_lines {pos : Nat → Nat → Nat × Nat} (hpos : ValidLines pos) {g g2 : Board}
    (hg : IsGrid 4 g) (hg2 : IsGrid 4 g2) (f : List Nat → List Nat)
    (h : ∀ l, l < 4 → lineOf (pos l) g2 = f (lineOf (pos l) g)) :
    g2 = g ↔ ∀ l, l < 4 → f (lineOf (pos l) g) = lineOf (pos l) g := by
  have hc := changed_iff_line hpos hg hg2 f h
  constructor
  · intro heq l hl
    by_contra hne
    exact hc.2 ⟨l, hl, hne⟩ heq
  · intro hall
    by_contra hne
    obtain ⟨l, hl, hne2⟩ := hc.1 hne
    exact hne2 (hall l hl)

theorem line_zero_or_full (pos : Nat → Nat × Nat) (g : Board)
    (hfront : packFront (lineOf pos g) = lineOf pos g)
    (hback : packBack (lineOf pos g) = lineOf pos g) :
    (∀ k, k < 4 → cellAt g (pos k).1 (pos k).2 = 0) ∨
      (∀ k, k < 4 → cellAt g (pos k).1 (pos k).2 ≠ 0) := by
  rw [lineOf_eq] at hfront hback
  rcases (packed_both_ways _ _ _ _).1 ⟨hfront, hback⟩ with ⟨h0, h1, h2, h3⟩ | ⟨h0, h1, h2, h3⟩
  · left
    intro k hk
    interval_cases k
    · exact h0
    · exact h1
    · exact h2
    · exact h3
  · right
    intro k hk
    interval_cases k
    · exact h0
    · exact h1
    · exact h2
    · exact h3

theorem line_full_packed (pos : Nat → Nat × Nat) (g : Board)
    (h : ∀ k, k < 4 → cellAt g (pos k).1 (pos k).2 ≠ 0) :
    packFront (lineOf pos g) = lineOf pos g ∧ packBack (lineOf pos g) = lineOf pos g := by
  rw [lineOf_eq]
  exact (packed_both_ways _ _ _ _).2
    (Or.inr ⟨h 0 (by decide), h 1 (by decide), h 2 (by decide), h 3 (by decide)⟩)

theorem moves_false_iff (g : Board) (hg : IsGrid 4 g) :
    ((moveUp g).2 = false ↔ ∀ j, j < 4 → packFront (columnOf g j) = columnOf g j) ∧
    ((moveDown g).2 = false ↔ ∀ j, j < 4 → packBack (columnOf g j) = columnOf g j) ∧
    ((moveLeft g).2 = false ↔ ∀ i, i < 4 → packFront (rowOf g i) = rowOf g i) ∧
    ((moveRight g).2 = false ↔ ∀ i, i < 4 → packBack (rowOf g i) = rowOf g i) := by
  obtain ⟨u1, u2, u3⟩ := slideLines_forward validLines_columns hg
  obtain ⟨d1, d2, d3⟩ := slideLines_backward validLines_columns hg
  obtain ⟨l1, l2, l3⟩ := slideLines_forward validLines_rows hg
  obtain ⟨r1, r2, r3⟩ := slideLines_backward validLines_rows hg
  have hu := unchanged_iff_lines validLines_columns hg u1 packFront u2
  have hd := unchanged_iff_lines validLines_columns hg d1 packBack d2
  have hl := unchanged_iff_lines validLines_rows hg l1 packFront l2
  have hr := unchanged_iff_lines validLines_rows hg r1 packBack r2
  simp only [lineOf_columns] at hu hd
  simp only [lineOf_rows] at hl hr
  unfold moveUp moveDown moveLeft moveRight
  refine ⟨?_, ?_, ?_, ?_⟩
  · rw [← hu, ← not_iff_not, Bool.not_eq_false, u3]
  · rw [← hd, ← not_iff_not, Bool.not_eq_false, d3]
  · rw [← hl, ← not_iff_not, Bool.not_eq_false, l3]
  · rw [← hr, ← not_iff_not, Bool.not_eq_false, r3]

theorem merge_flags (g : Board) (score : Nat) (hg : IsGrid 4 g) :
    (((merge 'w' g score).2.2 = false ↔ ¬ VerticalPair g) ∧
      ((merge 'w' g score).2.2 = false ↔ (merge 'w' g score).1 = g)) ∧
    (((merge 's' g score).2.2 = false ↔ ¬ VerticalPair g) ∧
      ((merge 's' g score).2.2 = false ↔ (merge 's' g score).1 = g)) ∧
    (((merge 'a' g score).2.2 = false ↔ ¬ HorizontalPair g) ∧
      ((merge 'a' g score).2.2 = false ↔ (merge 'a' g score).1 = g)) ∧
    (((merge 'd' g score).2.2 = false ↔ ¬ HorizontalPair g) ∧
      ((merge 'd' g score).2.2 = false ↔ (merge 'd' g score).1 = g)) := by
  obtain ⟨_, _, _, w4, w5, _⟩ := mergeColumns_facts [0, 1, 2] (fun i => i + 1)
    order_front mergedFront lineMerge_forward mergedFront_facts hg score
  obtain ⟨_, _, _, s4, s5, _⟩ := mergeColumns_facts [3, 2, 1] (fun i => i - 1)
    order_back mergedBack lineMerge_backward mergedBack_facts hg score
  obtain ⟨_, _, _, a4, a5, _⟩ := mergeRows_facts [0, 1, 2] (fun i => i + 1)
    order_front mergedFront lineMerge_forward mergedFront_facts hg score
  obtain ⟨_, _, _, d4, d5, _⟩ := mergeRows_facts [3, 2, 1] (fun i => i - 1)
    order_back mergedBack lineMerge_backward mergedBack_facts hg score
  rw [merge_w, merge_s, merge_a, merge_d]
  refine ⟨⟨?_, ?_⟩, ⟨?_, ?_⟩, ⟨?_, ?_⟩, ⟨?_, ?_⟩⟩
  · rw [← w5, Bool.not_eq_true]
  · rw [← not_iff_not, Bool.not_eq_false, w4]
  · rw [← s5, Bool.not_eq_true]
  · rw [← not_iff_not, Bool.not_eq_false, s4]
  · rw [← a5, Bool.not_eq_true]
  · rw [← not_iff_not, Bool.not_eq_false, a4]
  · rw [← d5, Bool.not_eq_true]
  · rw [← not_iff_not, Bool.not_eq_false, d4]

theorem moves_unchanged_iff (g : Board) (hg : IsGrid 4 g) :
    ((moveUp g).2 = false ↔ (moveUp g).1 = g) ∧
    ((moveDown g).2 = false ↔ (moveDown g).1 = g) ∧
    ((moveLeft g).2 = false ↔ (moveLeft g).1 = g) ∧
    ((moveRight g).2 = false ↔ (moveRight g).1 = g) := by
  obtain ⟨_, _, u3⟩ := slideLines_forward validLines_columns hg
  obtain ⟨_, _, d3⟩ := slideLines_backward validLines_columns hg
  obtain ⟨_, _, l3⟩ := slideLines_forward validLines_rows hg
  obtain ⟨_, _, r3⟩ := slideLines_backward validLines_rows hg
  unfold moveUp moveDown moveLeft moveRight
  refine ⟨?_, ?_, ?_, ?_⟩
  · rw [← not_iff_not, Bool.not_eq_false, u3]
  · rw [← not_iff_not, Bool.not_eq_false, d3]
  · rw [← not_iff_not, Bool.not_eq_false, l3]
  · rw [← not_iff_not, Bool.not_eq_false, r3]

theorem lose_of_no_move (g : Board)
    (htile : ∃ i j, i < 4 ∧ j < 4 ∧ cellAt g i j ≠ 0)
    (hU : ∀ j, j < 4 → packFront (columnOf g j) = columnOf g j)
    (hD : ∀ j, j < 4 → packBack (columnOf g j) = columnOf g j)
    (hL : ∀ i, i < 4 → packFront (rowOf g i) = rowOf g i)
    (hR : ∀ i, i < 4 → packBack (rowOf g i) = rowOf g i)
    (hV : ¬ VerticalPair g) (hH : ¬ HorizontalPair g) : checkLose g = true := by
  obtain ⟨i0, j0, hi0, hj0, hne⟩ := htile
  have hrow : ∀ j, j < 4 → cellAt g i0 j ≠ 0 := by
    rcases line_zero_or_full (fun j => (i0, j)) g (hL i0 hi0) (hR i0 hi0) with h | h
    · exact absurd (h j0 hj0) hne
    · exact h
  have hall : ∀ i j, i < 4 → j < 4 → cellAt g i j ≠ 0 := by
    intro i j hi hj
    rcases line_zero_or_full (fun i => (i, j)) g (hU j hj) (hD j hj) with h | h
    · exact absurd (h i0 hi0) (hrow j hj)
    · exact h i hi
  rw [checkLose_iff]
  refine ⟨hall, ?_, ?_⟩
  · intro i j hi hj heq
    exact hH ⟨i, j, hi, hj, hall i j hi (by omega), heq⟩
  · intro i j hi hj heq
    exact hV ⟨i, j, hi, hj, hall i j (by omega) hj, heq⟩

theorem no_move_of_lose (g : Board) (h : checkLose g = true) :
    (∀ j, j < 4 → packFront (columnOf g j) = columnOf g j) ∧
    (∀ j, j < 4 → packBack (columnOf g j) = columnOf g j) ∧
    (∀ i, i < 4 → packFront (rowOf g i) = rowOf g i) ∧
    (∀ i, i < 4 → packBack (rowOf g i) = rowOf g i) ∧
    ¬ VerticalPair g ∧ ¬ HorizontalPair g := by
  obtain ⟨hall, hnoH, hnoV⟩ := (checkLose_iff g).1 h
  refine ⟨?_, ?_, ?_, ?_, ?_, ?_⟩
  · intro j hj
    exact (line_full_packed (fun i => (i, j)) g (fun k hk => hall k j hk hj)).1
  · intro j hj
    exact (line_full_packed (fun i => (i, j)) g (fun k hk => hall k j hk hj)).2
  · intro i hi
    exact (line_full_packed (fun j => (i, j)) g (fun k hk => hall i k hi hk)).1
  · intro i hi
    exact (line_full_packed (fun j => (i, j)) g (fun k hk => hall i k hi hk)).2
  · rintro ⟨i, j, hi, hj, _, heq⟩
    exact hnoV i j hi hj heq
  · rintro ⟨i, j, hi, hj, _, heq⟩
    exact hnoH i j hi hj heq

/-- C24. On every 4 × 4 grid with at least one non-zero tile, `checkLose()` is true if and
only if no valid move is left: for each of the four directions `merge(direction)` and the
move function of the direction both return `false`, which is to say that both leave the
grid unchanged. -/
theorem checkLose_iff_no_valid_move (grid : Board) (score : Nat) (hgrid : IsGrid 4 grid)
    (htile : ∃ i j, i < 4 ∧ j < 4 ∧ cellAt grid i j ≠ 0) :
    (checkLose grid = true ↔
      ((merge 'w' grid score).2.2 = false ∧ (moveUp grid).2 = false) ∧
      ((merge 's' grid score).2.2 = false ∧ (moveDown grid).2 = false) ∧
      ((merge 'a' grid score).2.2 = false ∧ (moveLeft grid).2 = false) ∧
      ((merge 'd' grid score).2.2 = false ∧ (moveRight grid).2 = false)) ∧
    (checkLose grid = true ↔
      ((merge 'w' grid score).1 = grid ∧ (moveUp grid).1 = grid) ∧
      ((merge 's' grid score).1 = grid ∧ (moveDown grid).1 = grid) ∧
      ((merge 'a' grid score).1 = grid ∧ (moveLeft grid).1 = grid) ∧
      ((merge 'd' grid score).1 = grid ∧ (moveRight grid).1 = grid)) := by
  obtain ⟨⟨w1, w2⟩, ⟨s1, s2⟩, ⟨a1, a2⟩, ⟨d1, d2⟩⟩ := merge_flags grid score hgrid
  obtain ⟨mu, md, ml, mr⟩ := moves_false_iff grid hgrid
  obtain ⟨cu, cd, cl, cr⟩ := moves_unchanged_iff grid hgrid
  have hfirst : checkLose grid = true ↔
      ((merge 'w' grid score).2.2 = false ∧ (moveUp grid).2 = false) ∧
      ((merge 's' grid score).2.2 = false ∧ (moveDown grid).2 = false) ∧
      ((merge 'a' grid score).2.2 = false ∧ (moveLeft grid).2 = false) ∧
      ((merge 'd' grid score).2.2 = false ∧ (moveRight grid).2 = false) := by
    rw [w1, s1, a1, d1, mu, md, ml, mr]
    constructor
    · intro h
      obtain ⟨hU, hD, hL, hR, hV, hH⟩ := no_move_of_lose grid h
      exact ⟨⟨hV, hU⟩, ⟨hV, hD⟩, ⟨hH, hL⟩, ⟨hH, hR⟩⟩
    · rintro ⟨⟨hV, hU⟩, ⟨_, hD⟩, ⟨hH, hL⟩, ⟨_, hR⟩⟩
      exact lose_of_no_move grid htile hU hD hL hR hV hH
  refine ⟨hfirst, ?_⟩
  rw [hfirst, w2, s2, a2, d2, cu, cd, cl, cr]

/-- Witness of C24 on a full grid without equal neighbours. -/
theorem checkLose_iff_no_valid_move_witness :
    IsGrid 4 [[2, 4, 2, 4], [4, 2, 4, 2], [2, 4, 2, 4], [4, 2, 4, 2]] ∧
    (∃ i j, i < 4 ∧ j < 4 ∧
      cellAt [[2, 4, 2, 4], [4, 2, 4, 2], [2, 4, 2, 4], [4, 2, 4, 2]] i j ≠ 0) ∧
    checkLose [[2, 4, 2, 4], [4, 2, 4, 2], [2, 4, 2, 4], [4, 2, 4, 2]] = true ∧
    (merge 'a' [[2, 4, 2, 4], [4, 2, 4, 2], [2, 4, 2, 4], [4, 2, 4, 2]] 0).2.2 = false ∧
    (moveLeft [[2, 4, 2, 4], [4, 2, 4, 2], [2, 4, 2, 4], [4, 2, 4, 2]]).2 = false :=
  ⟨by decide, ⟨0, 0, by decide, by decide, by decide⟩, by decide,
    (((checkLose_iff_no_valid_move [[2, 4, 2, 4], [4, 2, 4, 2], [2, 4, 2, 4], [4, 2, 4, 2]] 0
      (by decide) ⟨0, 0, by decide, by decide, by decide⟩).1).1 (by decide)).2.2.1⟩

/-! ## The key handler of 2048 (C27) -/

/-- C27, the code at the failing input.  On the started grid whose top row is
`2, 0, 2, 4` (the other rows empty) the key Left gives `merge('a')` nothing to merge,
`moveLeft()` packs the row to `2, 2, 4, 0` and returns `true`, and the second
`merge('a')` then leaves `4, 0, 4, 0`: before the random tile is spawned the top row has
a zero to the left of a non-zero tile, so it is not packed against the left edge. -/
theorem keyPressEvent_leaves_gap :
    IsGrid 4 [[2, 0, 2, 4], [0, 0, 0, 0], [0, 0, 0, 0], [0, 0, 0, 0]] ∧
    checkLose [[2, 0, 2, 4], [0, 0, 0, 0], [0, 0, 0, 0], [0, 0, 0, 0]] = false ∧
    merge 'a' [[2, 0, 2, 4], [0, 0, 0, 0], [0, 0, 0, 0], [0, 0, 0, 0]] 0 =
      ([[2, 0, 2, 4], [0, 0, 0, 0], [0, 0, 0, 0], [0, 0, 0, 0]], 0, false) ∧
    moveLeft [[2, 0, 2, 4], [0, 0, 0, 0], [0, 0, 0, 0], [0, 0, 0, 0]] =
      ([[2, 2, 4, 0], [0, 0, 0, 0], [0, 0, 0, 0], [0, 0, 0, 0]], true) ∧
    merge 'a' [[2, 2, 4, 0], [0, 0, 0, 0], [0, 0, 0, 0], [0, 0, 0, 0]] 0 =
      ([[4, 0, 4, 0], [0, 0, 0, 0], [0, 0, 0, 0], [0, 0, 0, 0]], 4, true) ∧
    keyPressEvent Key.Left
        { gameStarted := true,
          grid := [[2, 0, 2, 4], [0, 0, 0, 0], [0, 0, 0, 0], [0, 0, 0, 0]], score := 0 } =
      ({ gameStarted := true,
         grid := [[4, 0, 4, 0], [0, 0, 0, 0], [0, 0, 0, 0], [0, 0, 0, 0]], score := 4 },
        true, true) ∧
    cellAt (keyPressEvent Key.Left
        { gameStarted := true,
          grid := [[2, 0, 2, 4], [0, 0, 0, 0], [0, 0, 0, 0], [0, 0, 0, 0]],
          score := 0 }).1.grid 0 1 = 0 ∧
    cellAt (keyPressEvent Key.Left
        { gameStarted := true,
          grid := [[2, 0, 2, 4], [0, 0, 0, 0], [0, 0, 0, 0], [0, 0, 0, 0]],
          score := 0 }).1.grid 0 2 ≠ 0 ∧
    rowOf (keyPressEvent Key.Left
        { gameStarted := true,
          grid := [[2, 0, 2, 4], [0, 0, 0, 0], [0, 0, 0, 0], [0, 0, 0, 0]],
          score := 0 }).1.grid 0 ≠
      packFront (rowOf (keyPressEvent Key.Left
        { gameStarted := true,
          grid := [[2, 0, 2, 4], [0, 0, 0, 0], [0, 0, 0, 0], [0, 0, 0, 0]],
          score := 0 }).1.grid 0) := by
  refine ⟨by decide, by decide, by decide, by decide, by decide, by decide, by decide,
    by decide, by decide⟩

end Game2048

namespace FifteenPuzzle

/-! ## The easy layouts of the fifteen puzzle (C28) -/

theorem range_fifteen : List.range (gridSize * gridSize - 1) =
    [0, 1, 2, 3, 4, 5, 6, 7, 8, 9, 10, 11, 12, 13, 14] := by
  decide

theorem setupEasyPuzzle_one_cells (a b c d e f g h i j k l m n o p : Label) :
    setupEasyPuzzle 1 [a, b, c, d, e, f, g, h, i, j, k, l, m, n, o, p] =
      [some 1, some 2, some 3, some 4, some 5, some 6, some 7, some 8, some 9, some 10,
        some 12, some 15, some 13, some 14, some 11, none] := by
  unfold setupEasyPuzzle
  rw [range_fifteen]
  have e15 : gridSize * gridSize - 1 = 15 := by decide
  have e1 : ((1 : Nat) == 1) = true := by decide
  rw [e15]
  simp only [e1, if_true]
  simp only [List.foldl_cons, List.foldl_nil]
  simp only [List.set_cons_succ, List.set_cons_zero]

theorem setupEasyPuzzle_zero_cells (a b c d e f g h i j k l m n o p : Label) :
    setupEasyPuzzle 0 [a, b, c, d, e, f, g, h, i, j, k, l, m, n, o, p] =
      [some 1, some 2, some 3, some 4, some 5, some 6, some 7, some 8, some 9, some 10,
        some 15, none, some 13, some 14, some 12, some 11] := by
  unfold setupEasyPuzzle
  rw [range_fifteen]
  have e15 : gridSize * gridSize - 1 = 15 := by decide
  have e0 : ((0 : Nat) == 1) = false := by decide
  rw [e15]
  simp only [e0, Bool.false_eq_true, if_false]
  simp only [List.foldl_cons, List.foldl_nil]
  simp only [List.set_cons_succ, List.set_cons_zero]

theorem length_sixteen {α : Type} (xs : List α) (hlen : xs.length = 16) :
    ∃ a b c d e f g h i j k l m n o p, xs = [a, b, c, d, e, f, g, h, i, j, k, l, m, n, o, p] := by
  match xs, hlen with
  | [a, b, c, d, e, f, g, h, i, j, k, l, m, n, o, p], _ =>
    exact ⟨a, b, c, d, e, f, g, h, i, j, k, l, m, n, o, p, rfl⟩

theorem setupEasyPuzzle_one (labels : List Label) (hlen : labels.length = 16) :
    setupEasyPuzzle 1 labels =
      [some 1, some 2, some 3, some 4, some 5, some 6, some 7, some 8, some 9, some 10,
        some 12, some 15, some 13, some 14, some 11, none] := by
  obtain ⟨a, b, c, d, e, f, g, h, i, j, k, l, m, n, o, p, rfl⟩ := length_sixteen labels hlen
  exact setupEasyPuzzle_one_cells a b c d e f g h i j k l m n o p

theorem setupEasyPuzzle_zero (labels : List Label) (hlen : labels.length = 16) :
    setupEasyPuzzle 0 labels =
      [some 1, some 2, some 3, some 4, some 5, some 6, some 7, some 8, some 9, some 10,
        some 15, none, some 13, some 14, some 12, some 11] := by
  obtain ⟨a, b, c, d, e, f, g, h, i, j, k, l, m, n, o, p, rfl⟩ := length_sixteen labels hlen
  exact setupEasyPuzzle_zero_cells a b c d e f g h i j k l m n o p

/-- C28. Each of the two layouts that `setupEasyPuzzle` produces (`ran = 1` and
`ran = 0`) is solved by at most five clicks, each on a tile that `isAdjacent` accepts as
a neighbour of the empty cell: after the swap of the last click `isSolved()` is true
(the test that `buttonClicked` makes before it starts a new game).  The clicks are on
the buttons of index 11, 10, 14, 15 for `ran = 1`, and 15, 14, 10, 11, 15 for
`ran = 0`. -/
theorem easy_puzzle_solvable (labels : List Label) (h : labels.length = 16) :
    (∃ clicks, clicks.length ≤ 5 ∧ (∀ c ∈ clicks, c < 16) ∧
      ∃ st, playClicks clicks { labels := setupEasyPuzzle 1 labels, movesCount := 0 } = some st ∧
        isSolved st.labels = true) ∧
    (∃ clicks, clicks.length ≤ 5 ∧ (∀ c ∈ clicks, c < 16) ∧
      ∃ st, playClicks clicks { labels := setupEasyPuzzle 0 labels, movesCount := 0 } = some st ∧
        isSolved st.labels = true) := by
  rw [setupEasyPuzzle_one labels h, setupEasyPuzzle_zero labels h]
  refine ⟨⟨[11, 10, 14, 15], by decide, by decide,
      { labels := [some 1, some 2, some 3, some 4, some 5, some 6, some 7, some 8, some 9,
          some 10, some 11, some 12, some 13, some 14, some 15, none], movesCount := 4 },
      by decide, by decide⟩,
    ⟨[15, 14, 10, 11, 15], by decide, by decide,
      { labels := [some 1, some 2, some 3, some 4, some 5, some 6, some 7, some 8, some 9,
          some 10, some 11, some 12, some 13, some 14, some 15, none], movesCount := 5 },
      by decide, by decide⟩⟩

/-- Witness of C28, from the solved arrangement. -/
theorem easy_puzzle_solvable_witness :
    ([some 1, some 2, some 3, some 4, some 5, some 6, some 7, some 8, some 9, some 10,
        some 11, some 12, some 13, some 14, some 15, none] : List Label).length = 16 ∧
    (∃ clicks, clicks.length ≤ 5 ∧ (∀ c ∈ clicks, c < 16) ∧
      ∃ st, playClicks clicks
          { labels := setupEasyPuzzle 1
              [some 1, some 2, some 3, some 4, some 5, some 6, some 7, some 8, some 9, some 10,
                some 11, some 12, some 13, some 14, some 15, none],
            movesCount := 0 } = some st ∧
        isSolved st.labels = true) :=
  ⟨by decide, (easy_puzzle_solvable _ (by decide)).1⟩

/-! ## The click of the fifteen puzzle (C29) -/

theorem isAdjacent_iff : ∀ c : Nat, c < 16 → ∀ e : Nat, e < 16 →
    isAdjacent (c : Int) (e : Int) = decide (Neighbours c e) := by
  decide

theorem isPuzzle_length {labels : List Label} (hp : IsPuzzle labels) : labels.length = 16 := by
  have := List.Perm.length_eq hp
  simpa using this

theorem isPuzzle_nodup {labels : List Label} (hp : IsPuzzle labels) : labels.Nodup :=
  (List.Perm.nodup_iff hp).2 (by decide)

theorem textAt_eq_getElem (labels : List Label) (i : Nat) (hi : i < labels.length) :
    textAt labels i = labels[i] := by
  unfold textAt
  exact List.getD_eq_getElem _ _ hi

theorem isPuzzle_textAt_inj {labels : List Label} (hp : IsPuzzle labels) {i j : Nat}
    (hi : i < 16) (hj : j < 16) (h : textAt labels i = textAt labels j) : i = j := by
  have hlen := isPuzzle_length hp
  rw [textAt_eq_getElem labels i (by omega), textAt_eq_getElem labels j (by omega)] at h
  exact (List.Nodup.getElem_inj_iff (isPuzzle_nodup hp)).1 h

theorem isPuzzle_empty {labels : List Label} (hp : IsPuzzle labels) :
    ∃ e, e < 16 ∧ textAt labels e = none := by
  have hlen := isPuzzle_length hp
  have hmem : (none : Label) ∈ labels := (List.Perm.mem_iff hp).2 (List.mem_cons_self _ _)
  obtain ⟨e, he, hval⟩ := List.mem_iff_getElem.1 hmem
  exact ⟨e, by omega, by rw [textAt_eq_getElem labels e he]; exact hval⟩

theorem findButtonIndexFrom_eq (labels : List Label) (number : Label) (k : Nat)
    (hk : textAt labels k = number) :
    ∀ fuel i, i ≤ k → k < i + fuel → (∀ m, i ≤ m → m < k → textAt labels m ≠ number) →
      findButtonIndexFrom labels number i fuel = (k : Int) := by
  intro fuel
  induction fuel with
  | zero => intro i h1 h2; omega
  | succ fuel ih =>
    intro i h1 h2 hfirst
    rw [findButtonIndexFrom]
    by_cases hi : textAt labels i = number
    · rw [if_pos hi]
      by_cases hik : i = k
      · rw [hik]
      · exact absurd hi (hfirst i (le_refl _) (by omega))
    · rw [if_neg hi]
      have hik : i ≠ k := fun h => hi (h ▸ hk)
      exact ih (i + 1) (by omega) (by omega) (fun m hm1 hm2 => hfirst m (by omega) hm2)

theorem findButtonIndex_eq {labels : List Label} (hp : IsPuzzle labels) (k : Nat) (hk : k < 16) :
    findButtonIndex labels (textAt labels k) = (k : Int) := by
  unfold findButtonIndex
  apply findButtonIndexFrom_eq labels _ k rfl _ 0 (Nat.zero_le _)
  · have : gridSize * gridSize = 16 := by decide
    omega
  · intro m _ hm heq
    have := isPuzzle_textAt_inj hp (by omega) hk heq
    omega

theorem swap_perm {α : Type} [DecidableEq α] (l : List α) (c e : Nat) (hc : c < l.length)
    (he : e < l.length) : ((l.set c l[e]).set e l[c]).Perm l := by
  rw [List.perm_iff_count]
  intro a
  have he2 : e < (l.set c l[e]).length := by simpa using he
  have h1 : l[c] = a → 0 < l.count a := fun h => List.count_pos_iff.2 (h ▸ List.getElem_mem _)
  rw [List.count_set _ _ _ _ he2, List.count_set _ _ _ _ hc, List.getElem_set]
  by_cases hce : c = e
  · subst hce
    simp only [if_true, beq_iff_eq]
    by_cases hca : l[c] = a
    · have := h1 hca
      simp only [hca, if_true]
      omega
    · simp only [hca, if_false]
      omega
  · simp only [hce, if_false, beq_iff_eq]
    by_cases hca : l[c] = a
    · have := h1 hca
      by_cases hea : l[e] = a
      · simp only [hca, hea, if_true]
        omega
      · simp only [hca, hea, if_true, if_false]
        omega
    · by_cases hea : l[e] = a
      · simp only [hca, hea, if_true, if_false]
        omega
      · simp only [hca, hea, if_false]
        omega

theorem setupEasyPuzzle_other (ran : Nat) (hran : ran ≠ 1) (labels : List Label) :
    setupEasyPuzzle ran labels = setupEasyPuzzle 0 labels := by
  have e1 : (ran == 1) = false := by simpa using hran
  have e0 : ((0 : Nat) == 1) = false := by decide
  unfold setupEasyPuzzle
  simp only [e1, e0]

theorem setupEasyPuzzle_isPuzzle (ran : Nat) (labels : List Label) (hlen : labels.length = 16) :
    IsPuzzle (setupEasyPuzzle ran labels) := by
  by_cases hran : ran = 1
  · rw [hran, setupEasyPuzzle_one labels hlen]
    decide
  · rw [setupEasyPuzzle_other ran hran, setupEasyPuzzle_zero labels hlen]
    decide

theorem map_textAt_range (labels : List Label) (hlen : labels.length = 16) :
    (List.range 15).map (fun k => textAt labels k) ++ [textAt labels (gridSize * gridSize - 1)] =
      labels := by
  obtain ⟨a, b, c, d, e, f, g, h, i, j, k, l, m, n, o, p, rfl⟩ := length_sixteen labels hlen
  rfl

theorem shuffleTiles_isPuzzle (choice : Difficulty) (ran : Nat) (order : List Nat)
    (labels : List Label) (hp : IsPuzzle labels) (horder : order.Perm (List.range 15)) :
    IsPuzzle (shuffleTiles choice ran order labels) := by
  have hlen := isPuzzle_length hp
  cases choice with
  | Easy => exact setupEasyPuzzle_isPuzzle ran labels hlen
  | Hard =>
    have h1 : (order.map (fun k => textAt labels k) ++
        [textAt labels (gridSize * gridSize - 1)]).Perm
        ((List.range 15).map (fun k => textAt labels k) ++
          [textAt labels (gridSize * gridSize - 1)]) :=
      List.Perm.append_right _ (List.Perm.map _ horder)
    rw [map_textAt_range labels hlen] at h1
    exact List.Perm.trans h1 hp

theorem moveTile_eq {st : Puzzle} (hp : IsPuzzle st.labels) {sender e : Nat} (hs : sender < 16)
    (he : e < 16) (hempty : textAt st.labels e = none) :
    moveTile sender st =
      if Neighbours sender e then
        { labels := (st.labels.set sender none).set e (textAt st.labels sender),
          movesCount := st.movesCount + 1 }
      else st := by
  have h1 := findButtonIndex_eq hp sender hs
  have h2 := findButtonIndex_eq hp e he
  rw [hempty] at h2
  unfold moveTile
  simp only [h1, h2, isAdjacent_iff sender hs e he, decide_eq_true_eq, Int.toNat_ofNat, hempty]

theorem buttonClicked_eq {st : Puzzle} (hp : IsPuzzle st.labels) {sender e : Nat}
    (hs : sender < 16) (he : e < 16) (hempty : textAt st.labels e = none)
    (choice : Difficulty) (ran : Nat) (order : List Nat) :
    buttonClicked sender choice ran order st =
      if Neighbours sender e then
        if isSolved (moveTile sender st).labels then
          newGameButtonClicked choice ran order (moveTile sender st)
        else moveTile sender st
      else st := by
  have h1 := findButtonIndex_eq hp sender hs
  have h2 := findButtonIndex_eq hp e he
  rw [hempty] at h2
  unfold buttonClicked
  simp only [h1, h2, isAdjacent_iff sender hs e he, decide_eq_true_eq]

theorem moveTile_isPuzzle {st : Puzzle} (hp : IsPuzzle st.labels) {sender : Nat}
    (hs : sender < 16) : IsPuzzle (moveTile sender st).labels := by
  obtain ⟨e, he, hempty⟩ := isPuzzle_empty hp
  have hlen := isPuzzle_length hp
  rw [moveTile_eq hp hs he hempty]
  by_cases hn : Neighbours sender e
  · rw [if_pos hn]
    have hswap := swap_perm st.labels sender e (by omega) (by omega)
    rw [← textAt_eq_getElem st.labels e (by omega),
      ← textAt_eq_getElem st.labels sender (by omega), hempty] at hswap
    exact List.Perm.trans hswap hp
  · rw [if_neg hn]
    exact hp

/-- C29, counterexample.  On the state with the labels `1, ..., 14`, the empty label and
`15` (in this order) and `movesCount = 7`, the click on the button of index 15 is a click
on a neighbour of the empty cell.  The claim gives the labels `1, ..., 15`, empty and
`movesCount = 8`.  The swap solves the puzzle, so `buttonClicked` goes on with
`newGameButtonClicked`: `movesCount` is `0` whatever the new game, and with the choice
`Easy` and the draw `ran = 1` the labels are those of the easy layout. -/
theorem solving_click_starts_new_game :
    IsPuzzle [some 1, some 2, some 3, some 4, some 5, some 6, some 7, some 8, some 9,
      some 10, some 11, some 12, some 13, some 14, none, some 15] ∧
    Neighbours 15 14 ∧
    buttonClicked 15 Difficulty.Easy 1 []
        { labels := [some 1, some 2, some 3, some 4, some 5, some 6, some 7, some 8, some 9,
            some 10, some 11, some 12, some 13, some 14, none, some 15], movesCount := 7 } =
      { labels := [some 1, some 2, some 3, some 4, some 5, some 6, some 7, some 8, some 9,
          some 10, some 12, some 15, some 13, some 14, some 11, none], movesCount := 0 } ∧
    buttonClicked 15 Difficulty.Easy 1 []
        { labels := [some 1, some 2, some 3, some 4, some 5, some 6, some 7, some 8, some 9,
            some 10, some 11, some 12, some 13, some 14, none, some 15], movesCount := 7 } ≠
      { labels := [some 1, some 2, some 3, some 4, some 5, some 6, some 7, some 8, some 9,
          some 10, some 11, some 12, some 13, some 14, some 15, none], movesCount := 8 } ∧
    ∀ choice ran order, (buttonClicked 15 choice ran order
        { labels := [some 1, some 2, some 3, some 4, some 5, some 6, some 7, some 8, some 9,
            some 10, some 11, some 12, some 13, some 14, none, some 15],
          movesCount := 7 }).movesCount = 0 := by
  refine ⟨by decide, by decide, by decide, by decide, ?_⟩
  intro choice ran order
  rw [buttonClicked_eq (e := 14) (by decide) (by decide) (by decide) (by decide)]
  have hn : Neighbours 15 14 := by decide
  have hsolved : isSolved (moveTile 15
      { labels := [some 1, some 2, some 3, some 4, some 5, some 6, some 7, some 8, some 9,
          some 10, some 11, some 12, some 13, some 14, none, some 15],
        movesCount := 7 }).labels = true := by decide
  rw [if_pos hn, if_pos hsolved]
  rfl

/-- C29, amended.  On a state whose sixteen labels are a permutation of `1, ..., 15` and
the empty label, with `e` the index of the empty cell, a click on the button of index
`sender`: when the two cells are orthogonal neighbours of the 4 × 4 grid (no wrap-around
between row ends) the two labels are exchanged and `movesCount` is incremented, and when
this solves the puzzle `buttonClicked` goes on with `newGameButtonClicked`, which deals
the labels of a new game and sets `movesCount` to `0`; otherwise the labels and
`movesCount` are unchanged.  In every case the labels remain a permutation of
`1, ..., 15` and the empty label (for a new game of difficulty `Hard`, `order` is the
rearrangement made by `std::shuffle`). -/
theorem buttonClicked_swaps_or_keeps (st : Puzzle) (sender : Nat) (choice : Difficulty)
    (ran : Nat) (order : List Nat) (hp : IsPuzzle st.labels) (hs : sender < 16)
    (horder : order.Perm (List.range 15)) :
    ∃ e, e < 16 ∧ textAt st.labels e = none ∧
      (∀ k, k < 16 → textAt st.labels k = none → k = e) ∧
      (Neighbours sender e →
        moveTile sender st =
          { labels := (st.labels.set sender none).set e (textAt st.labels sender),
            movesCount := st.movesCount + 1 } ∧
        (isSolved (moveTile sender st).labels = false →
          buttonClicked sender choice ran order st = moveTile sender st) ∧
        (isSolved (moveTile sender st).labels = true →
          buttonClicked sender choice ran order st =
            { labels := shuffleTiles choice ran order (moveTile sender st).labels,
              movesCount := 0 })) ∧
      (¬ Neighbours sender e → buttonClicked sender choice ran order st = st) ∧
      IsPuzzle (moveTile sender st).labels ∧
      IsPuzzle (buttonClicked sender choice ran order st).labels := by
  obtain ⟨e, he, hempty⟩ := isPuzzle_empty hp
  have hmove := moveTile_isPuzzle hp hs
  refine ⟨e, he, hempty, ?_, ?_, ?_, hmove, ?_⟩
  · intro k hk hnone
    exact isPuzzle_textAt_inj hp hk he (by rw [hnone, hempty])
  · intro hn
    refine ⟨?_, ?_, ?_⟩
    · rw [moveTile_eq hp hs he hempty, if_pos hn]
    · intro hsolved
      rw [buttonClicked_eq hp hs he hempty, if_pos hn, hsolved]
      rfl
    · intro hsolved
      rw [buttonClicked_eq hp hs he hempty, if_pos hn, if_pos hsolved]
      rfl
  · intro hn
    rw [buttonClicked_eq hp hs he hempty, if_neg hn]
  · rw [buttonClicked_eq hp hs he hempty]
    by_cases hn : Neighbours sender e
    · rw [if_pos hn]
      by_cases hsolved : isSolved (moveTile sender st).labels = true
      · rw [if_pos hsolved]
        exact shuffleTiles_isPuzzle choice ran order _ hmove horder
      · rw [if_neg hsolved]
        exact hmove
    · rw [if_neg hn]
      exact hp

/-- Witness of C29 (amended): the first click of the solution of the easy layout of
`ran = 1`, on the button of index 11, next to the empty cell of index 15. -/
theorem buttonClicked_swaps_or_keeps_witness :
    IsPuzzle [some 1, some 2, some 3, some 4, some 5, some 6, some 7, some 8, some 9,
      some 10, some 12, some 15, some 13, some 14, some 11, none] ∧
    11 < 16 ∧ (List.range 15).Perm (List.range 15) ∧
    ∃ e, e < 16 ∧
      textAt [some 1, some 2, some 3, some 4, some 5, some 6, some 7, some 8, some 9,
        some 10, some 12, some 15, some 13, some 14, some 11, none] e = none ∧
      IsPuzzle (buttonClicked 11 Difficulty.Hard 0 (List.range 15)
        { labels := [some 1, some 2, some 3, some 4, some 5, some 6, some 7, some 8, some 9,
            some 10, some 12, some 15, some 13, some 14, some 11, none],
          movesCount := 0 }).labels :=
  ⟨by decide, by decide, List.Perm.refl _,
    (buttonClicked_swaps_or_keeps
      { labels := [some 1, some 2, some 3, some 4, some 5, some 6, some 7, some 8, some 9,
          some 10, some 12, some 15, some 13, some 14, some 11, none], movesCount := 0 }
      11 Difficulty.Hard 0 (List.range 15) (by decide) (by decide) (List.Perm.refl _)).elim
      (fun e h => ⟨e, h.1, h.2.1, h.2.2.2.2.2.2⟩)⟩

end FifteenPuzzle
